import Mathlib

/-!
# rtracer: geometric kernel, scene query, tracer and tone mapping

A shallow embedding of the ray tracer: the geometric kernel (`geometry/vector.h`,
`geometry/sphere.h`, `geometry/triangle.h`, `geometry/intersection.h`,
`geometry/geometry.h`), the scene data (`tools/material.h`, `tools/object.h`,
`tools/scene.h`, `tools/camera_options.h`) and the core of `rtracer.cpp` (scene query,
`TraceRay`, `BuildTone`, `RGBCast`, the camera rays and the depth mode of `Render`),
with the properties of these routines.

The C++ `double` is embedded as an arbitrary linearly ordered field `R` that
carries the library functions the code calls (`HasSqrt`, `HasPow`, `HasTan`,
`HasIsNan`), so that every definition stays an ordinary program.  The theorems are
stated over the reals, where `std::sqrt` is `Real.sqrt`, `std::pow` is `Real.rpow` and
`std::tan` is `Real.tan`: they describe the exact arithmetic the routines implement and
say nothing about rounding, overflow, infinities or NaN.
-/

namespace RTracer

/-- The square root of the scalar type, the role `std::sqrt` plays for `double`. -/
class HasSqrt (R : Type) where
  /-- The square root of a scalar. -/
  sqrt : R → R

noncomputable instance instHasSqrtReal : HasSqrt ℝ where
  sqrt := Real.sqrt

/-! ## geometry/vector.h -/

/-- The class `Vector`: three scalar components (`data_[0]`, `data_[1]`, `data_[2]`,
read through `X()`, `Y()`, `Z()`). -/
@[ext] structure Vector (R : Type) where
  X : R
  Y : R
  Z : R

section Kernel

variable {R : Type} [LinearOrderedField R]

/-- The default constructor `Vector()`: `data_ = {0, 0, 0}`. -/
instance : Zero (Vector R) where
  zero := ⟨0, 0, 0⟩

/-- The free function `DotProduct`: the loop `dot += a[i] * b[i]` from `dot = 0.0`. -/
def DotProduct (a b : Vector R) : R :=
  0 + a.X * b.X + a.Y * b.Y + a.Z * b.Z

/-- The free function `CrossProduct`. -/
def CrossProduct (a b : Vector R) : Vector R :=
  ⟨a.Y * b.Z - a.Z * b.Y, a.Z * b.X - a.X * b.Z, a.X * b.Y - a.Y * b.X⟩

/-- The free function `Length`: the loop `len += v[i] * v[i]` from `len = 0.0`, then `std::sqrt`. -/
def Length [HasSqrt R] (v : Vector R) : R :=
  HasSqrt.sqrt (0 + v.X * v.X + v.Y * v.Y + v.Z * v.Z)

/-- The operator `Vector + Vector`. -/
instance : Add (Vector R) where
  add a b := ⟨a.X + b.X, a.Y + b.Y, a.Z + b.Z⟩

/-- The operator `Vector / double`. -/
instance : HDiv (Vector R) R (Vector R) where
  hDiv a t := ⟨a.X / t, a.Y / t, a.Z / t⟩

/-- The unary operator `-Vector`. -/
instance : Neg (Vector R) where
  neg self := ⟨-self.X, -self.Y, -self.Z⟩

/-- The operator `Vector - Vector`, which the source writes `a + (-b)`. -/
instance : Sub (Vector R) where
  sub a b := a + (-b)

/-- The operator `Vector * double`. -/
instance : HMul (Vector R) R (Vector R) where
  hMul a t := ⟨a.X * t, a.Y * t, a.Z * t⟩

/-- The operator `double * Vector`, which the source writes `a * t`. -/
instance : HMul R (Vector R) (Vector R) where
  hMul t a := a * t

/-- The member `Vector::Normalize`, as the value of `*this` after the call:
the exact zero vector is left alone, any other vector is divided by its length. -/
def Vector.Normalize [HasSqrt R] (self : Vector R) : Vector R :=
  if self.X = 0 ∧ self.Y = 0 ∧ self.Z = 0 then self
  else self / Length self

/-- The member `Vector::NotZero`. -/
def Vector.NotZero [HasSqrt R] (self : Vector R) : Bool :=
  decide (Length self ≠ 0)

/-- The member `Vector::IsZero`. -/
def Vector.IsZero [HasSqrt R] (self : Vector R) : Bool :=
  !self.NotZero

/-- The free function `Normalize`: normalizes its by-value argument and returns it. -/
def Normalize [HasSqrt R] (v : Vector R) : Vector R :=
  v.Normalize

end Kernel

/-! ## geometry/sphere.h, geometry/triangle.h, geometry/intersection.h, the ray -/

/-- The class `Sphere`: a center and a radius. -/
structure Sphere (R : Type) where
  center_ : Vector R
  radius_ : R

/-- The class `Triangle`: the vertices `vertexes_[0]`, `vertexes_[1]`, `vertexes_[2]`,
in the order of the constructor `Triangle(a, b, c)`; `triangle[0]` is `a`,
`triangle[1]` is `b` and `triangle[2]` is `c`. -/
structure Triangle (R : Type) where
  a : Vector R
  b : Vector R
  c : Vector R

/-- Modelled from the spec: the class `Ray` of `geometry/ray.h`, a header that is not
part of the sources at hand.  A ray is an origin and a direction, immutable once
constructed; the direction is unit length by the caller's guarantee, so the
model stores what it is given and the theorems assume the unit length. -/
structure Ray (R : Type) where
  origin_ : Vector R
  direction_ : Vector R

/-- The class `Intersection`: position, normal and distance. -/
structure Intersection (R : Type) where
  position_ : Vector R
  normal_ : Vector R
  distance_ : R

section Geometry

variable {R : Type} [LinearOrderedField R]

/-- The member `Sphere::GetCenter`. -/
@[simp] def Sphere.GetCenter (self : Sphere R) : Vector R := self.center_

/-- The member `Sphere::GetRadius`. -/
@[simp] def Sphere.GetRadius (self : Sphere R) : R := self.radius_

/-- The member `Sphere::Contains`: the point is at most one radius from the center. -/
def Sphere.Contains [HasSqrt R] (self : Sphere R) (point : Vector R) : Bool :=
  decide (Length (self.center_ - point) ≤ self.radius_)

/-- The member `Triangle::Area`. -/
def Triangle.Area [HasSqrt R] (self : Triangle R) : R :=
  (1 / 2) * Length (CrossProduct (self.b - self.a) (self.c - self.a))

/-- The member `Triangle::GetNormal`. -/
def Triangle.GetNormal (self : Triangle R) : Vector R :=
  CrossProduct (self.b - self.a) (self.c - self.a)

/-- The accessor `Ray::GetOrigin` of the modelled ray. -/
@[simp] def Ray.GetOrigin (self : Ray R) : Vector R := self.origin_

/-- The accessor `Ray::GetDirection` of the modelled ray. -/
@[simp] def Ray.GetDirection (self : Ray R) : Vector R := self.direction_

/-- The constructor `Intersection(position, normal, distance)`: it stores the
normalized normal. -/
def Intersection.construct [HasSqrt R] (position normal : Vector R) (distance : R) : Intersection R :=
  ⟨position, Normalize normal, distance⟩

/-- The member `Intersection::GetPosition`. -/
@[simp] def Intersection.GetPosition (self : Intersection R) : Vector R := self.position_

/-- The member `Intersection::GetNormal`. -/
@[simp] def Intersection.GetNormal (self : Intersection R) : Vector R := self.normal_

/-- The member `Intersection::GetDistance`. -/
@[simp] def Intersection.GetDistance (self : Intersection R) : R := self.distance_

/-! ## geometry/geometry.h -/

/-- The constant `kEpsilon = 1e-9`. -/
def kEpsilon : R := 1 / 1000000000

/-- The overload `GetIntersection(const Ray&, const Sphere&)`; `finish` is the code
that follows the case split (lines 40 to 49), reached with the chosen `position_on`. -/
def GetIntersectionSphere [HasSqrt R] (ray : Ray R) (sphere : Sphere R) : Option (Intersection R) :=
  let origin := ray.GetOrigin
  let vector_between := sphere.GetCenter - origin
  let len_of_projection_on_direction := DotProduct vector_between ray.GetDirection
  let direction := ray.GetDirection
  let proj := direction * len_of_projection_on_direction
  let d_length := Length (proj - vector_between)
  if d_length > sphere.GetRadius then none
  else
    let delta_distance :=
      HasSqrt.sqrt (sphere.GetRadius * sphere.GetRadius - d_length * d_length)
    let finish (position_on : Vector R) : Option (Intersection R) :=
      let normal :=
        if Length vector_between > sphere.GetRadius then position_on - vector_between
        else vector_between - position_on
      let normal := normal.Normalize
      some (Intersection.construct (position_on + origin) normal (Length position_on))
    if len_of_projection_on_direction > 0 then
      finish (if sphere.Contains origin then proj + direction * delta_distance
              else proj - direction * delta_distance)
    else if sphere.Contains origin then finish (proj + direction * delta_distance)
    else none

/-- The overload `GetIntersection(const Ray&, const Triangle&)`. -/
def GetIntersectionTriangle [HasSqrt R] (ray : Ray R) (triangle : Triangle R) : Option (Intersection R) :=
  let direction := ray.GetDirection
  let origin := ray.GetOrigin
  let ab := triangle.b - triangle.a
  let ac := triangle.c - triangle.a
  let up := CrossProduct direction ac
  let det := DotProduct ab up
  if abs det < kEpsilon then none
  else
    let inv_det := 1 / det
    let s := origin - triangle.a
    let u := inv_det * DotProduct s up
    if u < 0 ∨ u > 1 then none
    else
      let t := CrossProduct s ab
      let v := inv_det * DotProduct direction t
      if v < 0 ∨ u + v > 1 then none
      else
        let k := inv_det * DotProduct ac t
        if k > kEpsilon then
          let inter := origin + direction * k
          let normal := CrossProduct ab ac
          let normal := if DotProduct normal direction > 0 then -normal else normal
          some (Intersection.construct inter normal (Length (origin - inter)))
        else none

/-- The function `Reflect`: `-2.0 * DotProduct(normal, ray) * normal + ray`. -/
def Reflect (ray normal : Vector R) : Vector R :=
  (-2 * DotProduct normal ray) * normal + ray

/-- The function `Refract`; `none` is the empty optional. -/
def Refract [HasSqrt R] (ray normal : Vector R) (eta : R) : Option (Vector R) :=
  let normalized_ray := ray.Normalize
  let c := -DotProduct normal normalized_ray
  if eta * eta * (1 - c * c) > 1 then none
  else
    some (eta * normalized_ray
      + (eta * c - HasSqrt.sqrt (1 - eta * eta * (1 - c * c))) * normal)

/-- The function `GetBarycentricCoords`. -/
def GetBarycentricCoords [HasSqrt R] (triangle : Triangle R) (point : Vector R) : Vector R :=
  let area := triangle.Area
  ⟨(Triangle.mk point triangle.b triangle.c).Area / area,
   (Triangle.mk point triangle.a triangle.c).Area / area,
   (Triangle.mk point triangle.a triangle.b).Area / area⟩

end Geometry

/-! ## Further scalar operations and vector operators -/

/-- The power function of the scalar type, the role `std::pow` plays for `double`. -/
class HasPow (R : Type) where
  /-- The scalar `base` raised to the scalar `exponent`. -/
  pow : R → R → R

/-- The tangent of the scalar type, the role `std::tan` plays for `double`. -/
class HasTan (R : Type) where
  /-- The tangent of a scalar. -/
  tan : R → R

/-- The not-a-number test of the scalar type, the role `std::isnan` plays for `double`. -/
class HasIsNan (R : Type) where
  /-- Whether a scalar is not a number. -/
  isnan : R → Bool

noncomputable instance instHasPowReal : HasPow ℝ where
  pow := Real.rpow

noncomputable instance instHasTanReal : HasTan ℝ where
  tan := Real.tan

/-- No real number is not-a-number. -/
instance instHasIsNanReal : HasIsNan ℝ where
  isnan _ := false

section Operators

variable {R : Type} [LinearOrderedField R]

/-- The operator `Vector * Vector` of `geometry/vector.h`: the component-wise product. -/
instance : Mul (Vector R) where
  mul a b := ⟨a.X * b.X, a.Y * b.Y, a.Z * b.Z⟩

/-- The member `Vector::operator==`: equality of the three components. -/
def Vector.operatorEq (self other : Vector R) : Bool :=
  decide (self.X = other.X ∧ self.Y = other.Y ∧ self.Z = other.Z)

/-- The member `Intersection::SetNormal`, as the value of `*this` after the call: the
normal is stored as given. -/
def Intersection.SetNormal (self : Intersection R) (normal : Vector R) : Intersection R :=
  { self with normal_ := normal }

end Operators

/-! ## tools/material.h, tools/object.h, tools/scene.h, tools/camera_options.h -/

/-- The struct `Material`. -/
structure Material (R : Type) where
  name : String
  ambient_color : Vector R
  diffuse_color : Vector R
  specular_color : Vector R
  intensity : Vector R
  specular_exponent : R
  refraction_index : R
  albedo : Vector R

/-- The struct `Object`: a triangle, the three vertex normals `normals[0]`, `normals[1]`,
`normals[2]`, and the material, which the source holds by pointer into the material
table of the scene and the model holds by value. -/
structure Object (R : Type) where
  material : Material R
  polygon : Triangle R
  normals : Vector R × Vector R × Vector R

/-- The struct `SphereObject`: a sphere and its material. -/
structure SphereObject (R : Type) where
  material : Material R
  sphere : Sphere R

/-- Modelled from the spec: the class `Light` of `tools/light.h`, a header that is not
part of the sources at hand.  A point light is a position and an intensity, the
two members `rtracer.cpp` reads. -/
structure Light (R : Type) where
  position : Vector R
  intensity : Vector R

/-- The class `Scene`: the objects, the sphere objects, the lights and the material table. -/
structure Scene (R : Type) where
  objects_ : List (Object R)
  sphere_objects_ : List (SphereObject R)
  lights_ : List (Light R)
  materials_ : List (String × Material R)

/-- The struct `CameraOptions`. -/
structure CameraOptions (R : Type) where
  screen_width : Int
  screen_height : Int
  fov : R
  look_from : Vector R
  look_to : Vector R

/-- The member `Scene::GetObjects`. -/
@[simp] def Scene.GetObjects {R : Type} (self : Scene R) : List (Object R) := self.objects_

/-- The member `Scene::GetSphereObjects`. -/
@[simp] def Scene.GetSphereObjects {R : Type} (self : Scene R) : List (SphereObject R) :=
  self.sphere_objects_

/-- The member `Scene::GetLights`. -/
@[simp] def Scene.GetLights {R : Type} (self : Scene R) : List (Light R) := self.lights_

/-! ## rtracer.cpp: the scene query -/

/-- The struct `IPoint`: an intersection with the material of the primitive hit. -/
structure IPoint (R : Type) where
  intersection_ : Intersection R
  material_ : Material R

section SceneQuery

variable {R : Type} [LinearOrderedField R]

/-- The function `GetMaybeIntersectionWithPolygon`: the triangle test, whose normal is
replaced by the blend of the vertex normals unless one of them is `Vector()`. -/
def GetMaybeIntersectionWithPolygon [HasSqrt R] (ray : Ray R) (object : Object R) :
    Option (IPoint R) :=
  match GetIntersectionTriangle ray object.polygon with
  | none => none
  | some point_with_material =>
    if object.normals.1.operatorEq 0 || object.normals.2.1.operatorEq 0
        || object.normals.2.2.operatorEq 0 then
      some ⟨point_with_material, object.material⟩
    else
      let coordinates := GetBarycentricCoords object.polygon point_with_material.GetPosition
      let normal : Vector R := 0
      let normal := normal + object.normals.1 * coordinates.X
      let normal := normal + object.normals.2.1 * coordinates.Y
      let normal := normal + object.normals.2.2 * coordinates.Z
      some ⟨point_with_material.SetNormal normal, object.material⟩

/-- The function `GetAllRayIntersections`: the hits of the triangle objects, then the hits
of the sphere objects, each pushed at the back. -/
def GetAllRayIntersections [HasSqrt R] (ray : Ray R) (scene : Scene R) : List (IPoint R) :=
  let intersections : List (IPoint R) := []
  let intersections := scene.GetObjects.foldl
    (fun intersections object =>
      match GetMaybeIntersectionWithPolygon ray object with
      | some opt_intersection => intersections ++ [opt_intersection]
      | none => intersections)
    intersections
  scene.GetSphereObjects.foldl
    (fun intersections object =>
      match GetIntersectionSphere ray object.sphere with
      | some opt_intersection => intersections ++ [⟨opt_intersection, object.material⟩]
      | none => intersections)
    intersections

/-- The algorithm `std::min_element` on a non-empty range `first :: rest`: the first
element that no other element is less than, for the comparator `comp`. -/
def min_element {α : Type} (comp : α → α → Bool) (first : α) (rest : List α) : α :=
  rest.foldl (fun smallest x => if comp x smallest then x else smallest) first

/-- The function `GetClosestIntersectionPoint`. -/
def GetClosestIntersectionPoint [HasSqrt R] (ray : Ray R) (scene : Scene R) :
    Option (IPoint R) :=
  match GetAllRayIntersections ray scene with
  | [] => none
  | first :: rest =>
    some (min_element
      (fun first second =>
        decide (first.intersection_.GetDistance < second.intersection_.GetDistance))
      first rest)

end SceneQuery

/-! ## rtracer.cpp: constants, quantization, tone mapping -/

/-- Modelled from the spec: the struct `RGB` of `image.h`, a header that is not part of the
sources at hand: the three integer channels of a pixel, in the order red, green, blue
in which `RGBCast` fills them. -/
structure RGB where
  r : Int
  g : Int
  b : Int

/-- The image buffer `image_pixels` of `Render` and `BuildTone`: the value of
`image_pixels[i][j]` for every pair of indices. -/
abbrev ImagePixels (R : Type) := Nat → Nat → Vector R

section Tone

variable {R : Type} [LinearOrderedField R]

/-- The constant `kEps = 1e-3`. -/
def kEps : R := 1 / 1000

/-- The constant `kInfDistance = 1e5`. -/
def kInfDistance : R := 100000

/-- The constant `kTone = 1.0 / 2.2`. -/
def kTone : R := 1 / (22 / 10)

/-- The conversion `static_cast<int>` of a `double`: truncation toward zero. -/
def static_cast_int [FloorRing R] (value : R) : Int :=
  if 0 ≤ value then ⌊value⌋ else ⌈value⌉

/-- The function `RGBCast`. -/
def RGBCast [FloorRing R] (color : Vector R) : RGB :=
  ⟨static_cast_int ((color.X - kEpsilon) * 255),
   static_cast_int ((color.Y - kEpsilon) * 255),
   static_cast_int ((color.Z - kEpsilon) * 255)⟩

/-- The function `Sign`: the integer `-1` for a negative value and `1` otherwise. -/
def Sign (value : R) : Int :=
  if value < 0 then -1 else 1

/-- The loop nest `for (int i = 0; i < screen_width; i++) for (int j = 0; j < screen_height;
j++)` of `BuildTone` and `Render`, as a transformer of the state the body updates. -/
def PixelLoop {σ : Type} (screen_width screen_height : Int) (body : Nat → Nat → σ → σ)
    (init : σ) : σ :=
  (List.range screen_width.toNat).foldl
    (fun state i => (List.range screen_height.toNat).foldl (fun state j => body i j state) state)
    init

/-- The assignment `image_pixels[i][j] = value`. -/
def ImagePixels.set (image_pixels : ImagePixels R) (i j : Nat) (value : Vector R) :
    ImagePixels R :=
  fun a b => if a = i ∧ b = j then value else image_pixels a b

/-- The first pass of `BuildTone` (lines 95 to 103): the value of `total` after the loop
`total = std::max(total, std::fabs(image_pixels[i][j][k]))`. -/
def BuildToneTotal (image_pixels : ImagePixels R) (screen_width screen_height : Int) : R :=
  PixelLoop screen_width screen_height
    (fun i j total =>
      let total := max total (abs (image_pixels i j).X)
      let total := max total (abs (image_pixels i j).Y)
      max total (abs (image_pixels i j).Z))
    0

/-- The body of the loop over `k` in the second pass of `BuildTone` (lines 108 to 113), for
one channel value `pixel`: the curve, the gamma power, and the replacement of a
not-a-number by `0`. -/
def BuildToneChannel [HasPow R] [HasIsNan R] (total pixel : R) : R :=
  let pixel := pixel * (pixel / (total * total) + 1) / (pixel + 1)
  let value := HasPow.pow pixel kTone
  if HasIsNan.isnan value then 0 else value

/-- The function `BuildTone`, as the value of `image_pixels` after the call. -/
def BuildTone [HasPow R] [HasIsNan R] (image_pixels : ImagePixels R)
    (screen_width screen_height : Int) : ImagePixels R :=
  let total := BuildToneTotal image_pixels screen_width screen_height
  PixelLoop screen_width screen_height
    (fun i j image_pixels =>
      image_pixels.set i j
        ⟨BuildToneChannel total (image_pixels i j).X,
         BuildToneChannel total (image_pixels i j).Y,
         BuildToneChannel total (image_pixels i j).Z⟩)
    image_pixels

end Tone

/-! ## rtracer.cpp: the tracer -/

section Tracer

variable {R : Type} [LinearOrderedField R]

/-- The shadow test of `TraceRay` (lines 133 to 146): the value of `has_shadow` after the
loops over the objects and the sphere objects. -/
def TraceRayHasShadow [HasSqrt R] (scene : Scene R) (light_ray : Ray R) (length : R) : Bool :=
  let has_shadow := false
  let has_shadow := scene.GetObjects.foldl
    (fun has_shadow obj =>
      has_shadow ||
        (match GetIntersectionTriangle light_ray obj.polygon with
          | some intersection => decide (intersection.GetDistance + (kEps : R) < length)
          | none => false))
    has_shadow
  scene.GetSphereObjects.foldl
    (fun has_shadow obj =>
      has_shadow ||
        (match GetIntersectionSphere light_ray obj.sphere with
          | some intersection => decide (intersection.GetDistance + (kEps : R) < length)
          | none => false))
    has_shadow

/-- The body of the loop over the lights in `TraceRay` (lines 132 to 163), as a transformer
of `total_intensity`; `calc_value` is the local `calc` of the source. -/
def TraceRayLight [HasSqrt R] [HasPow R] (ray : Ray R) (scene : Scene R)
    (cl_point : Intersection R) (norm : Vector R) (material : Material R)
    (total_intensity : Vector R) (light : Light R) : Vector R :=
  let light_ray : Ray R := ⟨light.position, Normalize (cl_point.GetPosition - light.position)⟩
  let length := Length (cl_point.GetPosition - light.position)
  if TraceRayHasShadow scene light_ray length then total_intensity
  else
    let k_d := max 0 (DotProduct norm (Normalize (light.position - cl_point.GetPosition)))
    let total_intensity := total_intensity + material.diffuse_color * light.intensity * k_d
    let calc_value := DotProduct (Reflect (Normalize (cl_point.GetPosition - light.position)) norm)
      (Normalize (ray.GetOrigin - cl_point.GetPosition))
    let additional := HasPow.pow (max 0 calc_value) material.specular_exponent
    total_intensity + material.specular_color * light.intensity * additional

/-- The loop over the sphere objects in `TraceRay` (lines 174 to 179): the values of `al_1`,
`al_2` and `coefficient` after it. -/
def TraceRayCoefficients [HasSqrt R] (ray : Ray R) (scene : Scene R) (material : Material R) :
    R × R × R :=
  scene.GetSphereObjects.foldl
    (fun state object =>
      if Length (object.sphere.GetCenter - ray.GetOrigin) < object.sphere.GetRadius then
        (0, 1, material.refraction_index)
      else state)
    (material.albedo.Y, material.albedo.Z, 1 / material.refraction_index)

/-- The function `TraceRay`.  The recursion of the source is on `depth - 1` and stops at
`depth == 0`; the model recurses on `fuel`, the number of nested calls allowed, and
returns `none` when that number is exceeded. -/
def TraceRay [HasSqrt R] [HasPow R] (fuel : Nat) (ray : Ray R) (scene : Scene R)
    (depth : Int) : Option (Vector R) :=
  match fuel with
  | 0 => none
  | fuel + 1 =>
    let total_intensity : Vector R := ⟨0, 0, 0⟩
    match GetClosestIntersectionPoint ray scene with
    | none => some 0
    | some closest_point =>
      if depth = 0 then some 0
      else
        let cl_point := closest_point.intersection_
        let material := closest_point.material_
        let norm := cl_point.GetNormal
        let total_intensity := scene.GetLights.foldl
          (TraceRayLight ray scene cl_point norm material) total_intensity
        let total_intensity := total_intensity * material.albedo.X
        let total_intensity := total_intensity + (material.ambient_color + material.intensity)
        let point := cl_point.GetPosition
        let coefficients := TraceRayCoefficients ray scene material
        let al_1 := coefficients.1
        let al_2 := coefficients.2.1
        let coefficient := coefficients.2.2
        let reflected : Option (Vector R) :=
          if al_1 ≠ 0 then
            let reflect_dir := Normalize (Reflect ray.GetDirection norm)
            let sign : R := ((Sign (DotProduct reflect_dir norm) : Int) : R)
            let reflect := point + sign * norm * (kEps : R)
            (TraceRay fuel ⟨reflect, reflect_dir⟩ scene (depth - 1)).map
              (fun traced => total_intensity + traced * al_1)
          else some total_intensity
        match reflected with
        | none => none
        | some total_intensity =>
          match Refract ray.GetDirection norm coefficient with
          | none => some total_intensity
          | some refraction =>
            let ref := Normalize refraction
            let sign : R := ((Sign (DotProduct ref norm) : Int) : R)
            let refract := point + sign * norm * (kEps : R)
            if al_2 ≠ 0 then
              (TraceRay fuel ⟨refract, ref⟩ scene (depth - 1)).map
                (fun traced => total_intensity + traced * al_2)
            else some total_intensity

end Tracer

/-! ## rtracer.cpp: the camera rays and the depth mode of `Render` -/

section Camera

variable {R : Type} [LinearOrderedField R]

/-- The vector `forward` of the camera ray generator in `Render` (line 225). -/
def CameraForward [HasSqrt R] (camera_options : CameraOptions R) : Vector R :=
  Normalize (camera_options.look_from - camera_options.look_to)

/-- The vector `right` of the camera ray generator in `Render` (lines 228 to 232), after
its normalization. -/
def CameraRight [HasSqrt R] (camera_options : CameraOptions R) : Vector R :=
  let dx : Vector R := ⟨1, 0, 0⟩
  let dy : Vector R := ⟨0, 1, 0⟩
  let forward := CameraForward camera_options
  let right := CrossProduct dy forward
  let right := if right.IsZero then dx else right
  right.Normalize

/-- The vector `up` of the camera ray generator in `Render` (lines 234 to 238), after its
normalization. -/
def CameraUp [HasSqrt R] (camera_options : CameraOptions R) : Vector R :=
  let dx : Vector R := ⟨1, 0, 0⟩
  let forward := CameraForward camera_options
  let right := CameraRight camera_options
  let up := CrossProduct forward right
  let up := if up.IsZero then dx else up
  up.Normalize

/-- The camera ray of the pixel `(i, j)` in `Render` (lines 218 to 243), built from the
three vectors `forward`, `right` and `up` above; `end_point` is the local `end` of the
source. -/
def CameraRay [HasSqrt R] [HasTan R] (camera_options : CameraOptions R) (i j : Nat) : Ray R :=
  let format := ((camera_options.screen_width : R) * 1) / (camera_options.screen_height : R)
  let scale := HasTan.tan (camera_options.fov / 2)
  let x := (2 * ((i : R) + 1 / 2) / (camera_options.screen_width : R) - 1) * format * scale
  let y := (1 - 2 * ((j : R) + 1 / 2) / (camera_options.screen_height : R)) * scale
  let forward := CameraForward camera_options
  let beg := camera_options.look_from
  let right := CameraRight camera_options
  let up := CameraUp camera_options
  let end_point := right * x + up * y - forward + beg
  ⟨beg, Normalize (end_point - beg)⟩

/-- The depth mode of `Render`, first part (lines 244 to 252 inside the pixel loop): the
values of `image_pixels` and `max_among_all_rays` after the loop, for the scene read. -/
def RenderDepthAccumulate [HasSqrt R] [HasTan R] (scene : Scene R)
    (camera_options : CameraOptions R) : ImagePixels R × R :=
  PixelLoop camera_options.screen_width camera_options.screen_height
    (fun i j state =>
      let image_pixels := state.1
      let max_among_all_rays := state.2
      let ray := CameraRay camera_options i j
      let distance : R := kInfDistance
      match GetClosestIntersectionPoint ray scene with
      | some point =>
        let distance := point.intersection_.GetDistance
        let max_among_all_rays := max max_among_all_rays distance
        (image_pixels.set i j ⟨distance, distance, distance⟩, max_among_all_rays)
      | none => (image_pixels.set i j ⟨distance, distance, distance⟩, max_among_all_rays))
    (fun _ _ => ⟨0, 0, 0⟩, 0)

/-- The depth mode of `Render`, second part (lines 280 to 288): the value of
`image_pixels` before the quantization by `RGBCast`. -/
def RenderDepth [HasSqrt R] [HasTan R] (scene : Scene R) (camera_options : CameraOptions R) :
    ImagePixels R :=
  let accumulated := RenderDepthAccumulate scene camera_options
  let max_among_all_rays := accumulated.2
  PixelLoop camera_options.screen_width camera_options.screen_height
    (fun i j image_pixels =>
      if (image_pixels i j).X = kInfDistance then image_pixels.set i j ⟨1, 1, 1⟩
      else image_pixels.set i j (image_pixels i j / max_among_all_rays))
    accumulated.1

end Camera

/-! ## The local illumination in the words of the specification -/

section Specification

variable {R : Type} [LinearOrderedField R]

/-- The contribution of one unshadowed light `light` at the hit point `point` with normal
`normal` and material `material`, as the specification writes it: the diffuse term
`diffuse_color * light.intensity * max(0, dot(normal, normalize(light.position - point)))`
plus the specular term `specular_color * light.intensity * max(0, dot(Reflect(normalize(point
- light.position), normal), normalize(ray.origin - point))) ^ specular_exponent`, the
products of colours taken component by component. -/
def SpecLightTerm [HasSqrt R] [HasPow R] (ray : Ray R) (point normal : Vector R)
    (material : Material R) (light : Light R) : Vector R :=
  material.diffuse_color * light.intensity
      * max 0 (DotProduct normal (Normalize (light.position - point)))
    + material.specular_color * light.intensity
      * HasPow.pow
          (max 0 (DotProduct (Reflect (Normalize (point - light.position)) normal)
            (Normalize (ray.origin_ - point))))
          material.specular_exponent

end Specification

/-! ## Sample inputs -/

section Samples

variable {R : Type} [LinearOrderedField R]

/-- The material that the member initializers of `struct Material` give. -/
def defaultMaterial : Material R :=
  ⟨"", ⟨0, 0, 0⟩, ⟨0, 0, 0⟩, ⟨0, 0, 0⟩, ⟨0, 0, 0⟩, 1, 1, ⟨1, 0, 0⟩⟩

/-- A sample triangle object with the three distinct unit vertex normals `(1,0,0)`,
`(0,1,0)`, `(0,0,1)` on the triangle `(0,0,0)`, `(1,0,0)`, `(0,1,0)`. -/
def blendSampleObject : Object R :=
  ⟨defaultMaterial, ⟨⟨0, 0, 0⟩, ⟨1, 0, 0⟩, ⟨0, 1, 0⟩⟩, (⟨1, 0, 0⟩, ⟨0, 1, 0⟩, ⟨0, 0, 1⟩)⟩

/-- A sample triangle object whose first vertex normal is `Vector()` and whose other two
are the unit vectors `(0,1,0)` and `(0,0,1)`, on the triangle `(0,0,0)`, `(1,0,0)`,
`(0,1,0)`. -/
def partialSampleObject : Object R :=
  ⟨defaultMaterial, ⟨⟨0, 0, 0⟩, ⟨1, 0, 0⟩, ⟨0, 1, 0⟩⟩, (⟨0, 0, 0⟩, ⟨0, 1, 0⟩, ⟨0, 0, 1⟩)⟩

/-- A sample scene for the depth mode: two flat triangle objects without vertex normals,
one in the plane `z = -80000` around `(0, 60000, -80000)` and one in the plane
`z = -160000` around `(0, -120000, -160000)`. -/
def depthSampleScene : Scene R :=
  ⟨[⟨defaultMaterial,
      ⟨⟨-1, 59999, -80000⟩, ⟨2, 59999, -80000⟩, ⟨-1, 60002, -80000⟩⟩,
      (⟨0, 0, 0⟩, ⟨0, 0, 0⟩, ⟨0, 0, 0⟩)⟩,
    ⟨defaultMaterial,
      ⟨⟨-1, -120001, -160000⟩, ⟨2, -120001, -160000⟩, ⟨-1, -119998, -160000⟩⟩,
      (⟨0, 0, 0⟩, ⟨0, 0, 0⟩, ⟨0, 0, 0⟩)⟩],
   [], [], []⟩

/-- A sample material with the ambient colour `(1,0,0)`, the diffuse colour `(0,1,0)`, the
specular colour `(0,0,1)`, no emission, and the default exponent, index and albedo. -/
def litSampleMaterial : Material R :=
  ⟨"", ⟨1, 0, 0⟩, ⟨0, 1, 0⟩, ⟨0, 0, 1⟩, ⟨0, 0, 0⟩, 1, 1, ⟨1, 0, 0⟩⟩

/-- A sample lit scene: the flat triangle `(0,0,0)`, `(1,0,0)`, `(0,1,0)` of the sample
material and one light of intensity `(1,1,1)` at `(1/5, 1/5, 3)` above it. -/
def litSampleScene : Scene R :=
  ⟨[⟨litSampleMaterial, ⟨⟨0, 0, 0⟩, ⟨1, 0, 0⟩, ⟨0, 1, 0⟩⟩,
      (⟨0, 0, 0⟩, ⟨0, 0, 0⟩, ⟨0, 0, 0⟩)⟩],
   [], [⟨⟨1 / 5, 1 / 5, 3⟩, ⟨1, 1, 1⟩⟩], []⟩

/-- A second sample scene for the depth mode: two flat triangle objects without vertex
normals, one in the plane `z = -100000` around `(0, 0, -100000)` and one in the plane
`z = -160000` around `(0, 120000, -160000)`. -/
def sentinelSampleScene : Scene R :=
  ⟨[⟨defaultMaterial,
      ⟨⟨-1, -1, -100000⟩, ⟨3, -1, -100000⟩, ⟨-1, 3, -100000⟩⟩,
      (⟨0, 0, 0⟩, ⟨0, 0, 0⟩, ⟨0, 0, 0⟩)⟩,
    ⟨defaultMaterial,
      ⟨⟨-1, 119999, -160000⟩, ⟨3, 119999, -160000⟩, ⟨-1, 120003, -160000⟩⟩,
      (⟨0, 0, 0⟩, ⟨0, 0, 0⟩, ⟨0, 0, 0⟩)⟩],
   [], [], []⟩

/-- A second sample camera for the depth mode: an image one pixel wide and three pixels
high, seen from the origin toward `(0, 0, -1)` with the field of view `fov`; the camera ray
of the middle pixel `(0, 1)` runs along `(0, 0, -1)`. -/
def sentinelSampleCamera (fov : R) : CameraOptions R :=
  ⟨1, 3, fov, ⟨0, 0, 0⟩, ⟨0, 0, -1⟩⟩

/-- A sample camera for the depth mode: an image one pixel wide and two pixels high, seen
from the origin toward `(0, 0, -1)` with the field of view `fov`. -/
def depthSampleCamera (fov : R) : CameraOptions R :=
  ⟨1, 2, fov, ⟨0, 0, 0⟩, ⟨0, 0, -1⟩⟩

end Samples

/-! ## Component form of the vector operations -/

section Components

variable {R : Type} [LinearOrderedField R]

@[simp] theorem Vector.zero_def : (0 : Vector R) = ⟨0, 0, 0⟩ := rfl

@[simp] theorem Vector.add_def (a b : Vector R) :
    a + b = ⟨a.X + b.X, a.Y + b.Y, a.Z + b.Z⟩ := rfl

@[simp] theorem Vector.neg_def (a : Vector R) : -a = ⟨-a.X, -a.Y, -a.Z⟩ := rfl

@[simp] theorem Vector.sub_def (a b : Vector R) :
    a - b = ⟨a.X + -b.X, a.Y + -b.Y, a.Z + -b.Z⟩ := rfl

@[simp] theorem Vector.mul_def (a : Vector R) (t : R) :
    a * t = ⟨a.X * t, a.Y * t, a.Z * t⟩ := rfl

@[simp] theorem Vector.scalar_mul_def (t : R) (a : Vector R) :
    t * a = ⟨a.X * t, a.Y * t, a.Z * t⟩ := rfl

@[simp] theorem Vector.div_def (a : Vector R) (t : R) :
    a / t = ⟨a.X / t, a.Y / t, a.Z / t⟩ := rfl

theorem DotProduct_def (a b : Vector R) :
    DotProduct a b = a.X * b.X + a.Y * b.Y + a.Z * b.Z := by
  simp [DotProduct]

end Components

/-! ## The length over the reals -/

theorem Length_def (v : Vector ℝ) : Length v = Real.sqrt (DotProduct v v) := rfl

theorem DotProduct_self_nonneg (v : Vector ℝ) : 0 ≤ DotProduct v v := by
  rw [DotProduct_def]
  nlinarith [mul_self_nonneg v.X, mul_self_nonneg v.Y, mul_self_nonneg v.Z]

theorem Length_nonneg (v : Vector ℝ) : 0 ≤ Length v := by
  rw [Length_def]
  exact Real.sqrt_nonneg _

theorem Length_mul_self (v : Vector ℝ) : Length v * Length v = DotProduct v v := by
  rw [Length_def]
  exact Real.mul_self_sqrt (DotProduct_self_nonneg v)

/-- A length equals a non-negative scalar exactly when the squares agree. -/
theorem Length_eq_iff (v : Vector ℝ) {r : ℝ} (hr : 0 ≤ r) :
    Length v = r ↔ DotProduct v v = r * r := by
  constructor
  · intro h
    rw [← h, Length_mul_self]
  · intro h
    rw [Length_def, h]
    exact Real.sqrt_mul_self hr

/-- The comparison `Length v ≤ r` in terms of squares. -/
theorem Length_le_iff (v : Vector ℝ) (r : ℝ) :
    Length v ≤ r ↔ 0 ≤ r ∧ DotProduct v v ≤ r * r := by
  have h0 := Length_nonneg v
  have h1 := Length_mul_self v
  constructor
  · intro h
    exact ⟨le_trans h0 h, by nlinarith⟩
  · rintro ⟨hr, h⟩
    by_contra hlt
    push_neg at hlt
    nlinarith

/-- The comparison `r < Length v` in terms of squares. -/
theorem Length_gt_iff (v : Vector ℝ) (r : ℝ) :
    r < Length v ↔ r < 0 ∨ r * r < DotProduct v v := by
  rw [← not_le, Length_le_iff, not_and_or, not_le, not_le]

/-- A unit vector scaled by `k ≥ 0` has length `k`. -/
theorem Length_mul_unit (d : Vector ℝ) (hd : Length d = 1) {k : ℝ} (hk : 0 ≤ k) :
    Length (d * k) = k := by
  have h1 : DotProduct d d = 1 := by
    have := Length_mul_self d
    rw [hd] at this
    linarith
  rw [Length_eq_iff _ hk]
  rw [DotProduct_def] at h1 ⊢
  simp only [Vector.mul_def]
  linear_combination (k * k) * h1

/-- Over the reals the square root of the scalar type is `Real.sqrt`. -/
theorem sqrt_real (x : ℝ) : HasSqrt.sqrt x = Real.sqrt x := rfl

/-! ## Normalization -/

theorem Vector.eq_zero_iff (v : Vector ℝ) : v = 0 ↔ v.X = 0 ∧ v.Y = 0 ∧ v.Z = 0 := by
  rw [Vector.ext_iff]
  rfl

theorem DotProduct_self_pos (v : Vector ℝ) (hv : v ≠ 0) : 0 < DotProduct v v := by
  rcases lt_or_eq_of_le (DotProduct_self_nonneg v) with h | h
  · exact h
  · exfalso
    apply hv
    rw [DotProduct_def] at h
    rw [Vector.eq_zero_iff]
    have hx := mul_self_nonneg v.X
    have hy := mul_self_nonneg v.Y
    have hz := mul_self_nonneg v.Z
    refine ⟨?_, ?_, ?_⟩ <;> apply mul_self_eq_zero.mp <;> linarith

theorem Length_pos (v : Vector ℝ) (hv : v ≠ 0) : 0 < Length v := by
  rw [Length_def]
  exact Real.sqrt_pos.mpr (DotProduct_self_pos v hv)

theorem Vector.Normalize_zero : (0 : Vector ℝ).Normalize = 0 := by
  simp [Vector.Normalize]

theorem Vector.Normalize_of_ne_zero (v : Vector ℝ) (hv : v ≠ 0) :
    v.Normalize = v / Length v := by
  rw [Ne, Vector.eq_zero_iff] at hv
  unfold Vector.Normalize
  rw [if_neg hv]

theorem Length_div (v : Vector ℝ) {t : ℝ} (ht : 0 < t) : Length (v / t) = Length v / t := by
  have h0 : 0 ≤ Length v / t := div_nonneg (Length_nonneg v) ht.le
  rw [Length_eq_iff _ h0, div_mul_div_comm, Length_mul_self]
  simp only [DotProduct_def, Vector.div_def]
  field_simp

theorem Length_Normalize (v : Vector ℝ) (hv : v ≠ 0) : Length v.Normalize = 1 := by
  have hpos := Length_pos v hv
  rw [Vector.Normalize_of_ne_zero v hv, Length_div v hpos, div_self hpos.ne']

theorem Vector.Normalize_of_Length_eq_one (v : Vector ℝ) (hv : Length v = 1) :
    v.Normalize = v := by
  have hne : v ≠ 0 := by
    intro h
    rw [h, Length_def, DotProduct_def] at hv
    simp at hv
  rw [Vector.Normalize_of_ne_zero v hne, hv]
  ext <;> simp

theorem Vector.Normalize_idem (v : Vector ℝ) : v.Normalize.Normalize = v.Normalize := by
  by_cases hv : v = 0
  · rw [hv, Vector.Normalize_zero, Vector.Normalize_zero]
  · exact Vector.Normalize_of_Length_eq_one _ (Length_Normalize v hv)

/-- C10: `Normalize`, the member and the free function alike, leaves the zero vector
unchanged and maps a non-zero vector `v` to `v / Length(v)`, which has length one and
is a positive multiple of `v`; hence normalizing twice is normalizing once. -/
theorem Normalize_spec (v : Vector ℝ) :
    ((0 : Vector ℝ).Normalize = 0 ∧ Normalize (0 : Vector ℝ) = 0)
    ∧ (v ≠ 0 →
        v.Normalize = v / Length v ∧ Normalize v = v / Length v
        ∧ Length (Normalize v) = 1
        ∧ ∃ k : ℝ, 0 < k ∧ Normalize v = k * v)
    ∧ (v.Normalize.Normalize = v.Normalize ∧ Normalize (Normalize v) = Normalize v) := by
  refine ⟨⟨Vector.Normalize_zero, Vector.Normalize_zero⟩, ?_,
    Vector.Normalize_idem v, Vector.Normalize_idem v⟩
  intro hv
  have hpos := Length_pos v hv
  refine ⟨Vector.Normalize_of_ne_zero v hv, Vector.Normalize_of_ne_zero v hv,
    Length_Normalize v hv, 1 / Length v, one_div_pos.mpr hpos, ?_⟩
  show v.Normalize = _
  rw [Vector.Normalize_of_ne_zero v hv]
  ext <;> simp <;> ring

/-- Normalization at `v = (3,4,0)`. -/
theorem Normalize_spec_witness :
    (⟨3, 4, 0⟩ : Vector ℝ) ≠ 0
    ∧ Normalize (⟨3, 4, 0⟩ : Vector ℝ) = (⟨3, 4, 0⟩ : Vector ℝ) / Length (⟨3, 4, 0⟩ : Vector ℝ)
    ∧ Length (Normalize (⟨3, 4, 0⟩ : Vector ℝ)) = 1 :=
  have hv : (⟨3, 4, 0⟩ : Vector ℝ) ≠ 0 := by
    rw [Ne, Vector.eq_zero_iff]
    norm_num
  have h := (Normalize_spec ⟨3, 4, 0⟩).2.1 hv
  ⟨hv, h.2.1, h.2.2.1⟩

/-! ## Sphere intersection -/

/-- The squared value of `d_length`: Pythagoras for the projection on a unit direction. -/
theorem sphere_perp_sq (o c d : Vector ℝ) (hd : Length d = 1) :
    DotProduct (d * DotProduct (c - o) d - (c - o)) (d * DotProduct (c - o) d - (c - o))
      = DotProduct (c - o) (c - o) - DotProduct (c - o) d * DotProduct (c - o) d := by
  have h1 : DotProduct d d = 1 := by
    have := Length_mul_self d
    rw [hd] at this
    linarith
  obtain ⟨ox, oy, oz⟩ := o
  obtain ⟨cx, cy, cz⟩ := c
  obtain ⟨dx, dy, dz⟩ := d
  simp only [DotProduct_def, Vector.sub_def, Vector.mul_def] at h1 ⊢
  linear_combination (((cx + -ox) * dx + (cy + -oy) * dy + (cz + -oz) * dz) ^ 2) * h1

/-- The sphere test in scalar form, for a unit direction.  With `l` the projection of
`center - origin` on the direction and `V` the squared distance from the origin to the
center, the function either returns nothing (negative radius, `r² < V - l²`, or
`l ≤ 0` with the origin outside), or returns the hit at parameter `k = l + δ`
(origin contained) or `k = l - δ` (origin outside, `l > 0`), where `δ ≥ 0` and
`δ² = r² - (V - l²)`; `n` is the normal before normalization. -/
theorem GetIntersectionSphere_spec (ray : Ray ℝ) (sphere : Sphere ℝ)
    (hd : Length ray.direction_ = 1) :
    (GetIntersectionSphere ray sphere = none ∧
      (sphere.radius_ < 0
        ∨ sphere.radius_ * sphere.radius_
            < DotProduct (sphere.center_ - ray.origin_) (sphere.center_ - ray.origin_)
              - DotProduct (sphere.center_ - ray.origin_) ray.direction_
                * DotProduct (sphere.center_ - ray.origin_) ray.direction_
        ∨ (DotProduct (sphere.center_ - ray.origin_) ray.direction_ ≤ 0
            ∧ sphere.radius_ * sphere.radius_
                < DotProduct (sphere.center_ - ray.origin_) (sphere.center_ - ray.origin_))))
    ∨ ∃ δ k : ℝ, ∃ n : Vector ℝ,
        0 ≤ sphere.radius_ ∧ 0 ≤ δ
        ∧ δ * δ = sphere.radius_ * sphere.radius_
            - (DotProduct (sphere.center_ - ray.origin_) (sphere.center_ - ray.origin_)
              - DotProduct (sphere.center_ - ray.origin_) ray.direction_
                * DotProduct (sphere.center_ - ray.origin_) ray.direction_)
        ∧ 0 ≤ k
        ∧ ((DotProduct (sphere.center_ - ray.origin_) (sphere.center_ - ray.origin_)
              ≤ sphere.radius_ * sphere.radius_
            ∧ k = DotProduct (sphere.center_ - ray.origin_) ray.direction_ + δ
            ∧ n = (sphere.center_ - ray.origin_) - ray.direction_ * k)
          ∨ (sphere.radius_ * sphere.radius_
              < DotProduct (sphere.center_ - ray.origin_) (sphere.center_ - ray.origin_)
            ∧ 0 < DotProduct (sphere.center_ - ray.origin_) ray.direction_
            ∧ k = DotProduct (sphere.center_ - ray.origin_) ray.direction_ - δ
            ∧ n = ray.direction_ * k - (sphere.center_ - ray.origin_)))
        ∧ GetIntersectionSphere ray sphere
            = some ⟨ray.direction_ * k + ray.origin_, Normalize n.Normalize, k⟩ := by
  obtain ⟨o, d⟩ := ray
  obtain ⟨c, r⟩ := sphere
  simp only at hd ⊢
  have hperp := sphere_perp_sq o c d hd
  have hW := DotProduct_self_nonneg (d * DotProduct (c - o) d - (c - o))
  rw [hperp] at hW
  unfold GetIntersectionSphere
  simp only [Sphere.GetCenter, Sphere.GetRadius, Ray.GetOrigin, Ray.GetDirection,
      Sphere.Contains, gt_iff_lt, decide_eq_true_eq, Length_mul_self, hperp, sqrt_real,
      Length_gt_iff, Length_le_iff]
  generalize DotProduct (c - o) d = l at *
  generalize hvb : c - o = vb at *
  generalize DotProduct vb vb = V at *
  by_cases h1 : r < 0 ∨ r * r < V - l * l
  · left
    rw [if_pos h1]
    exact ⟨rfl, by tauto⟩
  · rw [if_neg h1]
    push_neg at h1
    obtain ⟨hr, hle⟩ := h1
    have hδ0 : 0 ≤ √(r * r - (V - l * l)) := Real.sqrt_nonneg _
    have hδ2 : √(r * r - (V - l * l)) * √(r * r - (V - l * l)) = r * r - (V - l * l) :=
      Real.mul_self_sqrt (by linarith)
    generalize √(r * r - (V - l * l)) = δ at *
    by_cases h2 : V ≤ r * r
    · have hc : 0 ≤ r ∧ V ≤ r * r := ⟨hr, h2⟩
      have hnc : ¬ (r < 0 ∨ r * r < V) := by push_neg; exact hc
      have hk : 0 ≤ l + δ := by nlinarith
      right
      refine ⟨δ, l + δ, vb - d * (l + δ), hr, hδ0, hδ2, hk, Or.inl ⟨h2, rfl, rfl⟩, ?_⟩
      have hpos : d * l + d * δ = d * (l + δ) := by
        ext <;> simp <;> ring
      simp only [hc, hnc, and_self, if_true, if_false, ite_self, hpos,
        Length_mul_unit d hd hk]
      rfl
    · push_neg at h2
      have hc : ¬ (0 ≤ r ∧ V ≤ r * r) := by push_neg; intro _; exact h2
      have hnc : r < 0 ∨ r * r < V := Or.inr h2
      by_cases h3 : 0 < l
      · have hk : 0 ≤ l - δ := by nlinarith
        right
        refine ⟨δ, l - δ, d * (l - δ) - vb, hr, hδ0, hδ2, hk, Or.inr ⟨h2, h3, rfl, rfl⟩, ?_⟩
        have hpos : d * l - d * δ = d * (l - δ) := by
          ext <;> simp <;> ring
        simp only [hc, hnc, h3, if_true, if_false, hpos, Length_mul_unit d hd hk]
        rfl
      · left
        simp only [hc, h3, if_false]
        exact ⟨trivial, Or.inr (Or.inr ⟨not_lt.mp h3, h2⟩)⟩

theorem DotProduct_unit (d : Vector ℝ) (hd : Length d = 1) : DotProduct d d = 1 := by
  have := Length_mul_self d
  rw [hd] at this
  linarith

/-- The squared distance from the center to the foot of its perpendicular on the ray line. -/
theorem sphere_foot_sq (o c d : Vector ℝ) (hd : Length d = 1) :
    DotProduct (c - (o + DotProduct (c - o) d * d)) (c - (o + DotProduct (c - o) d * d))
      = DotProduct (c - o) (c - o) - DotProduct (c - o) d * DotProduct (c - o) d := by
  have h1 := DotProduct_unit d hd
  obtain ⟨ox, oy, oz⟩ := o
  obtain ⟨cx, cy, cz⟩ := c
  obtain ⟨dx, dy, dz⟩ := d
  simp only [DotProduct_def, Vector.sub_def, Vector.add_def, Vector.scalar_mul_def] at h1 ⊢
  linear_combination (((cx + -ox) * dx + (cy + -oy) * dy + (cz + -oz) * dz) ^ 2) * h1

/-- The squared distance from the center to the point of parameter `t` on the ray. -/
theorem line_dist_sq (o c d : Vector ℝ) (hd : Length d = 1) (t : ℝ) :
    DotProduct (o + t * d - c) (o + t * d - c)
      = t * t - 2 * t * DotProduct (c - o) d + DotProduct (c - o) (c - o) := by
  have h1 := DotProduct_unit d hd
  obtain ⟨ox, oy, oz⟩ := o
  obtain ⟨cx, cy, cz⟩ := c
  obtain ⟨dx, dy, dz⟩ := d
  simp only [DotProduct_def, Vector.sub_def, Vector.add_def, Vector.scalar_mul_def] at h1 ⊢
  linear_combination (t * t) * h1

theorem Sphere.Contains_eq_false_iff (sphere : Sphere ℝ) (p : Vector ℝ) :
    sphere.Contains p = false ↔
      sphere.radius_ < 0 ∨
        sphere.radius_ * sphere.radius_ < DotProduct (sphere.center_ - p) (sphere.center_ - p) := by
  unfold Sphere.Contains
  rw [decide_eq_false_iff_not, not_le, Length_gt_iff]

theorem Sphere.Contains_eq_true_iff (sphere : Sphere ℝ) (p : Vector ℝ) :
    sphere.Contains p = true ↔
      0 ≤ sphere.radius_ ∧
        DotProduct (sphere.center_ - p) (sphere.center_ - p) ≤ sphere.radius_ * sphere.radius_ := by
  unfold Sphere.Contains
  rw [decide_eq_true_iff, Length_le_iff]

theorem DotProduct_sub_mul (w d : Vector ℝ) (k : ℝ) :
    DotProduct (w - d * k) d = DotProduct w d - k * DotProduct d d
    ∧ DotProduct (d * k - w) d = k * DotProduct d d - DotProduct w d
    ∧ DotProduct (w - d * k) (w - d * k)
        = DotProduct w w - 2 * k * DotProduct w d + k * k * DotProduct d d
    ∧ DotProduct (d * k - w) (d * k - w)
        = DotProduct w w - 2 * k * DotProduct w d + k * k * DotProduct d d := by
  simp only [DotProduct_def, Vector.sub_def, Vector.mul_def]
  refine ⟨?_, ?_, ?_, ?_⟩ <;> ring

theorem DotProduct_div_left (n d : Vector ℝ) (r : ℝ) :
    DotProduct (n / r) d = DotProduct n d / r := by
  simp only [DotProduct_def, Vector.div_def]
  ring

/-- The normal is normalized twice, in `GetIntersection` and in the constructor of
`Intersection`; for a vector of length `r > 0` the outcome is the vector over `r`. -/
theorem Normalize_Normalize_of_sq (n : Vector ℝ) {r : ℝ} (hr : 0 < r)
    (hn : DotProduct n n = r * r) : Normalize n.Normalize = n / r := by
  have hlen : Length n = r := (Length_eq_iff n hr.le).mpr hn
  have hne : n ≠ 0 := by
    intro h
    rw [h, DotProduct_def] at hn
    simp only [Vector.zero_def, mul_zero, add_zero] at hn
    nlinarith
  show n.Normalize.Normalize = _
  rw [Vector.Normalize_idem, Vector.Normalize_of_ne_zero n hne, hlen]

theorem sqrt_sixteen : √(16 : ℝ) = 4 := by
  rw [show (16 : ℝ) = 4 * 4 by norm_num]
  exact Real.sqrt_mul_self (by norm_num)

theorem sqrt_twentyfive : √(25 : ℝ) = 5 := by
  rw [show (25 : ℝ) = 5 * 5 by norm_num]
  exact Real.sqrt_mul_self (by norm_num)

theorem sqrt_hundred : √(100 : ℝ) = 10 := by
  rw [show (100 : ℝ) = 10 * 10 by norm_num]
  exact Real.sqrt_mul_self (by norm_num)

theorem sqrt_twotwentyfive : √(225 : ℝ) = 15 := by
  rw [show (225 : ℝ) = 15 * 15 by norm_num]
  exact Real.sqrt_mul_self (by norm_num)

/-- C1: for a ray with unit direction and a sphere of radius `r ≥ 0`,
`GetIntersection(ray, sphere)` returns a hit exactly when some `t ≥ 0` has
`|origin + t * direction - center| = r`.  In particular there is no hit when the
center is farther than `r` from the foot of its perpendicular on the ray line, and
no hit when the projection of `center - origin` on the direction is non-positive
and the sphere does not contain the origin. -/
theorem GetIntersectionSphere_hit_iff (ray : Ray ℝ) (sphere : Sphere ℝ)
    (hdir : Length ray.direction_ = 1) (hr : 0 ≤ sphere.radius_) :
    ((GetIntersectionSphere ray sphere).isSome ↔
        ∃ t : ℝ, 0 ≤ t ∧
          Length (ray.origin_ + t * ray.direction_ - sphere.center_) = sphere.radius_)
    ∧ (sphere.radius_
          < Length (sphere.center_ - (ray.origin_
              + DotProduct (sphere.center_ - ray.origin_) ray.direction_ * ray.direction_)) →
        GetIntersectionSphere ray sphere = none)
    ∧ (DotProduct (sphere.center_ - ray.origin_) ray.direction_ ≤ 0 →
        sphere.Contains ray.origin_ = false →
        GetIntersectionSphere ray sphere = none) := by
  have hline := line_dist_sq ray.origin_ sphere.center_ ray.direction_ hdir
  have hfoot := sphere_foot_sq ray.origin_ sphere.center_ ray.direction_ hdir
  rcases GetIntersectionSphere_spec ray sphere hdir with
    ⟨hnone, hcase⟩ | ⟨δ, k, n, -, hδ0, hδ2, hk, hcase, hsome⟩
  · refine ⟨?_, fun _ => hnone, fun _ _ => hnone⟩
    rw [hnone]
    simp only [Option.isSome_none, Bool.false_eq_true, false_iff]
    rintro ⟨t, ht, hon⟩
    rw [Length_eq_iff _ hr, hline] at hon
    rcases hcase with h | h | ⟨h1, h2⟩
    · linarith
    · nlinarith [mul_self_nonneg (t - DotProduct (sphere.center_ - ray.origin_) ray.direction_)]
    · nlinarith
  · refine ⟨?_, ?_, ?_⟩
    · rw [hsome]
      simp only [Option.isSome_some, true_iff]
      refine ⟨k, hk, ?_⟩
      rw [Length_eq_iff _ hr, hline]
      rcases hcase with ⟨_, rfl, _⟩ | ⟨_, _, rfl, _⟩
      · linear_combination hδ2
      · linear_combination hδ2
    · intro hgt
      exfalso
      rw [Length_gt_iff, hfoot] at hgt
      rcases hgt with h | h
      · linarith
      · nlinarith [mul_self_nonneg δ]
    · intro hl hnc
      exfalso
      rw [Sphere.Contains_eq_false_iff] at hnc
      rcases hnc with h | h
      · linarith
      · rcases hcase with ⟨h1, _, _⟩ | ⟨_, h2, _, _⟩
        · linarith
        · linarith

/-- The hit criterion at the ray from `(0,0,5)` along `(0,0,-1)` and the unit sphere at the origin. -/
theorem GetIntersectionSphere_hit_iff_witness :
    Length (⟨0, 0, -1⟩ : Vector ℝ) = 1 ∧ (0 : ℝ) ≤ 1
    ∧ ((GetIntersectionSphere (⟨⟨0, 0, 5⟩, ⟨0, 0, -1⟩⟩ : Ray ℝ) ⟨⟨0, 0, 0⟩, 1⟩).isSome ↔
        ∃ t : ℝ, 0 ≤ t ∧
          Length ((⟨0, 0, 5⟩ : Vector ℝ) + t * (⟨0, 0, -1⟩ : Vector ℝ) - ⟨0, 0, 0⟩) = 1) :=
  ⟨by norm_num [Length, sqrt_real], by norm_num,
    (GetIntersectionSphere_hit_iff ⟨⟨0, 0, 5⟩, ⟨0, 0, -1⟩⟩ ⟨⟨0, 0, 0⟩, 1⟩
      (by norm_num [Length, sqrt_real]) (by norm_num)).1⟩

/-- C2: for a ray with unit direction, a hit returned by `GetIntersection(ray, sphere)`
has `position = origin + distance * direction`, lies on the sphere surface, and has
a non-negative distance that is the smallest `t ≥ 0` on the sphere when the sphere
does not contain the origin and the largest one when it does.  The two sample rays
give the hits `(0,0,1)` at distance `4` and `(0,0,10)`. -/
theorem GetIntersectionSphere_hit_position (ray : Ray ℝ) (sphere : Sphere ℝ)
    (hdir : Length ray.direction_ = 1) (hit : Intersection ℝ)
    (hhit : GetIntersectionSphere ray sphere = some hit) :
    hit.position_ = ray.origin_ + hit.distance_ * ray.direction_
    ∧ Length (hit.position_ - sphere.center_) = sphere.radius_
    ∧ 0 ≤ hit.distance_
    ∧ (sphere.Contains ray.origin_ = false →
        ∀ t : ℝ, 0 ≤ t →
          Length (ray.origin_ + t * ray.direction_ - sphere.center_) = sphere.radius_ →
          hit.distance_ ≤ t)
    ∧ (sphere.Contains ray.origin_ = true →
        ∀ t : ℝ, 0 ≤ t →
          Length (ray.origin_ + t * ray.direction_ - sphere.center_) = sphere.radius_ →
          t ≤ hit.distance_)
    ∧ GetIntersectionSphere (⟨⟨0, 0, 5⟩, ⟨0, 0, -1⟩⟩ : Ray ℝ) ⟨⟨0, 0, 0⟩, 1⟩
        = some ⟨⟨0, 0, 1⟩, ⟨0, 0, 1⟩, 4⟩
    ∧ GetIntersectionSphere (⟨⟨0, 0, -5⟩, ⟨0, 0, 1⟩⟩ : Ray ℝ) ⟨⟨0, 0, 0⟩, 10⟩
        = some ⟨⟨0, 0, 10⟩, ⟨0, 0, -1⟩, 15⟩ := by
  have hline := line_dist_sq ray.origin_ sphere.center_ ray.direction_ hdir
  rcases GetIntersectionSphere_spec ray sphere hdir with
    ⟨hnone, -⟩ | ⟨δ, k, n, hr, hδ0, hδ2, hk, hcase, hsome⟩
  · rw [hnone] at hhit
    exact absurd hhit (by simp)
  · rw [hsome, Option.some.injEq] at hhit
    subst hhit
    simp only
    have hpos : ray.direction_ * k + ray.origin_ = ray.origin_ + k * ray.direction_ := by
      ext <;> simp <;> ring
    refine ⟨hpos, ?_, hk, ?_, ?_, ?_, ?_⟩
    · rw [hpos, Length_eq_iff _ hr, hline]
      rcases hcase with ⟨_, rfl, _⟩ | ⟨_, _, rfl, _⟩
      · linear_combination hδ2
      · linear_combination hδ2
    · intro hnc t ht hon
      rw [Length_eq_iff _ hr, hline] at hon
      rw [Sphere.Contains_eq_false_iff] at hnc
      rcases hcase with ⟨h1, _, _⟩ | ⟨_, h2, rfl, _⟩
      · rcases hnc with h | h <;> linarith
      · by_contra hlt
        push_neg at hlt
        nlinarith [mul_pos (show 0 < DotProduct (sphere.center_ - ray.origin_) ray.direction_
          - δ - t by linarith) (show 0 < DotProduct (sphere.center_ - ray.origin_) ray.direction_
          + δ - t by linarith)]
    · intro hc t ht hon
      rw [Length_eq_iff _ hr, hline] at hon
      rw [Sphere.Contains_eq_true_iff] at hc
      rcases hcase with ⟨_, rfl, _⟩ | ⟨h1, _, _, _⟩
      · by_contra hlt
        push_neg at hlt
        nlinarith [mul_pos (show 0 < t - (DotProduct (sphere.center_ - ray.origin_) ray.direction_
          + δ) by linarith) (show 0 < t - DotProduct (sphere.center_ - ray.origin_) ray.direction_
          + δ by linarith)]
      · linarith [hc.2]
    · norm_num [GetIntersectionSphere, Intersection.construct, Normalize, Vector.Normalize,
        Sphere.Contains, Length, DotProduct, sqrt_real, sqrt_sixteen, sqrt_twentyfive]
    · norm_num [GetIntersectionSphere, Intersection.construct, Normalize, Vector.Normalize,
        Sphere.Contains, Length, DotProduct, sqrt_real, sqrt_hundred, sqrt_twentyfive,
        sqrt_twotwentyfive]

/-- The hit position at the ray from `(0,0,5)` along `(0,0,-1)` and the unit sphere at the origin. -/
theorem GetIntersectionSphere_hit_position_witness :
    Length (⟨0, 0, -1⟩ : Vector ℝ) = 1
    ∧ GetIntersectionSphere (⟨⟨0, 0, 5⟩, ⟨0, 0, -1⟩⟩ : Ray ℝ) ⟨⟨0, 0, 0⟩, 1⟩
        = some ⟨⟨0, 0, 1⟩, ⟨0, 0, 1⟩, 4⟩
    ∧ (⟨0, 0, 1⟩ : Vector ℝ) = ⟨0, 0, 5⟩ + (4 : ℝ) * (⟨0, 0, -1⟩ : Vector ℝ)
    ∧ Length ((⟨0, 0, 1⟩ : Vector ℝ) - ⟨0, 0, 0⟩) = 1 :=
  have hdir : Length (⟨0, 0, -1⟩ : Vector ℝ) = 1 := by norm_num [Length, sqrt_real]
  have hhit : GetIntersectionSphere (⟨⟨0, 0, 5⟩, ⟨0, 0, -1⟩⟩ : Ray ℝ) ⟨⟨0, 0, 0⟩, 1⟩
      = some ⟨⟨0, 0, 1⟩, ⟨0, 0, 1⟩, 4⟩ := by
    norm_num [GetIntersectionSphere, Intersection.construct, Normalize, Vector.Normalize,
      Sphere.Contains, Length, DotProduct, sqrt_real, sqrt_sixteen, sqrt_twentyfive]
  have h := GetIntersectionSphere_hit_position ⟨⟨0, 0, 5⟩, ⟨0, 0, -1⟩⟩ ⟨⟨0, 0, 0⟩, 1⟩ hdir
    ⟨⟨0, 0, 1⟩, ⟨0, 0, 1⟩, 4⟩ hhit
  ⟨hdir, hhit, h.1, h.2.1⟩

/-- C3: for a ray with unit direction and a sphere of positive radius, the normal of a
hit returned by `GetIntersection(ray, sphere)` has length one, equals
`(position - center) / radius` when the sphere does not contain the origin and
`(center - position) / radius` when it does, and has a non-positive dot product with
the direction.  The sample ray from `(0,0,5)` gives the normal `(0,0,1)`. -/
theorem GetIntersectionSphere_hit_normal (ray : Ray ℝ) (sphere : Sphere ℝ)
    (hdir : Length ray.direction_ = 1) (hrad : 0 < sphere.radius_) (hit : Intersection ℝ)
    (hhit : GetIntersectionSphere ray sphere = some hit) :
    Length hit.normal_ = 1
    ∧ (sphere.Contains ray.origin_ = false →
        hit.normal_ = (hit.position_ - sphere.center_) / sphere.radius_)
    ∧ (sphere.Contains ray.origin_ = true →
        hit.normal_ = (sphere.center_ - hit.position_) / sphere.radius_)
    ∧ DotProduct hit.normal_ ray.direction_ ≤ 0
    ∧ (GetIntersectionSphere (⟨⟨0, 0, 5⟩, ⟨0, 0, -1⟩⟩ : Ray ℝ) ⟨⟨0, 0, 0⟩, 1⟩).map
        Intersection.GetNormal = some ⟨0, 0, 1⟩ := by
  have h1 := DotProduct_unit ray.direction_ hdir
  have e := DotProduct_sub_mul (sphere.center_ - ray.origin_) ray.direction_
  rcases GetIntersectionSphere_spec ray sphere hdir with
    ⟨hnone, -⟩ | ⟨δ, k, n, hr, hδ0, hδ2, hk, hcase, hsome⟩
  · rw [hnone] at hhit
    exact absurd hhit (by simp)
  · rw [hsome, Option.some.injEq] at hhit
    subst hhit
    simp only
    have hnn : DotProduct n n = sphere.radius_ * sphere.radius_ := by
      rcases hcase with ⟨_, rfl, rfl⟩ | ⟨_, _, rfl, rfl⟩
      · rw [(e _).2.2.1, h1]; linear_combination hδ2
      · rw [(e _).2.2.2, h1]; linear_combination hδ2
    have hnorm := Normalize_Normalize_of_sq n hrad hnn
    have hlen : Length n = sphere.radius_ := (Length_eq_iff n hrad.le).mpr hnn
    rw [hnorm]
    refine ⟨?_, ?_, ?_, ?_, ?_⟩
    · rw [Length_div n hrad, hlen, div_self hrad.ne']
    · intro hnc
      rw [Sphere.Contains_eq_false_iff] at hnc
      rcases hcase with ⟨h1, _, _⟩ | ⟨_, _, _, rfl⟩
      · rcases hnc with h | h <;> linarith
      · congr 1
        ext <;> simp <;> ring
    · intro hc
      rw [Sphere.Contains_eq_true_iff] at hc
      rcases hcase with ⟨_, _, rfl⟩ | ⟨h1, _, _, _⟩
      · congr 1
        ext <;> simp <;> ring
      · linarith [hc.2]
    · rw [DotProduct_div_left]
      apply div_nonpos_of_nonpos_of_nonneg _ hrad.le
      rcases hcase with ⟨_, rfl, rfl⟩ | ⟨_, _, rfl, rfl⟩
      · rw [(e _).1, h1]; linarith
      · rw [(e _).2.1, h1]; linarith
    · norm_num [GetIntersectionSphere, Intersection.construct, Normalize, Vector.Normalize,
        Sphere.Contains, Length, DotProduct, sqrt_real, sqrt_sixteen, sqrt_twentyfive]

/-- The hit normal at the ray from `(0,0,-5)` along `(0,0,1)` inside the sphere of radius `10`. -/
theorem GetIntersectionSphere_hit_normal_witness :
    Length (⟨0, 0, 1⟩ : Vector ℝ) = 1 ∧ (0 : ℝ) < 10
    ∧ GetIntersectionSphere (⟨⟨0, 0, -5⟩, ⟨0, 0, 1⟩⟩ : Ray ℝ) ⟨⟨0, 0, 0⟩, 10⟩
        = some ⟨⟨0, 0, 10⟩, ⟨0, 0, -1⟩, 15⟩
    ∧ Length (⟨0, 0, -1⟩ : Vector ℝ) = 1
    ∧ DotProduct (⟨0, 0, -1⟩ : Vector ℝ) ⟨0, 0, 1⟩ ≤ 0 :=
  have hdir : Length (⟨0, 0, 1⟩ : Vector ℝ) = 1 := by norm_num [Length, sqrt_real]
  have hhit : GetIntersectionSphere (⟨⟨0, 0, -5⟩, ⟨0, 0, 1⟩⟩ : Ray ℝ) ⟨⟨0, 0, 0⟩, 10⟩
      = some ⟨⟨0, 0, 10⟩, ⟨0, 0, -1⟩, 15⟩ := by
    norm_num [GetIntersectionSphere, Intersection.construct, Normalize, Vector.Normalize,
      Sphere.Contains, Length, DotProduct, sqrt_real, sqrt_hundred, sqrt_twentyfive,
      sqrt_twotwentyfive]
  have h := GetIntersectionSphere_hit_normal ⟨⟨0, 0, -5⟩, ⟨0, 0, 1⟩⟩ ⟨⟨0, 0, 0⟩, 10⟩ hdir
    (by norm_num) ⟨⟨0, 0, 10⟩, ⟨0, 0, -1⟩, 15⟩ hhit
  ⟨hdir, by norm_num, hhit, h.1, h.2.2.2.1⟩

/-! ## Triangle intersection -/

theorem kEpsilon_pos : (0 : ℝ) < kEpsilon := by
  unfold kEpsilon
  norm_num

/-- The triangle test unfolded: either nothing is returned, or every guard passed and the
hit is built from the parameters `det`, `u`, `v`, `k` and the face normal `n`, flipped
when it points along the ray. -/
theorem GetIntersectionTriangle_spec (ray : Ray ℝ) (triangle : Triangle ℝ) :
    GetIntersectionTriangle ray triangle = none
    ∨ ∃ det u v k : ℝ, ∃ n : Vector ℝ,
        det = DotProduct (triangle.b - triangle.a)
                (CrossProduct ray.direction_ (triangle.c - triangle.a))
        ∧ kEpsilon ≤ abs det
        ∧ u = 1 / det * DotProduct (ray.origin_ - triangle.a)
                (CrossProduct ray.direction_ (triangle.c - triangle.a))
        ∧ v = 1 / det * DotProduct ray.direction_
                (CrossProduct (ray.origin_ - triangle.a) (triangle.b - triangle.a))
        ∧ k = 1 / det * DotProduct (triangle.c - triangle.a)
                (CrossProduct (ray.origin_ - triangle.a) (triangle.b - triangle.a))
        ∧ 0 ≤ u ∧ u ≤ 1 ∧ 0 ≤ v ∧ u + v ≤ 1 ∧ kEpsilon < k
        ∧ ((0 < DotProduct (CrossProduct (triangle.b - triangle.a) (triangle.c - triangle.a))
                  ray.direction_
              ∧ n = -CrossProduct (triangle.b - triangle.a) (triangle.c - triangle.a))
            ∨ (DotProduct (CrossProduct (triangle.b - triangle.a) (triangle.c - triangle.a))
                  ray.direction_ ≤ 0
              ∧ n = CrossProduct (triangle.b - triangle.a) (triangle.c - triangle.a)))
        ∧ GetIntersectionTriangle ray triangle
            = some ⟨ray.origin_ + ray.direction_ * k, Normalize n,
                Length (ray.origin_ - (ray.origin_ + ray.direction_ * k))⟩ := by
  unfold GetIntersectionTriangle
  simp only [Ray.GetOrigin, Ray.GetDirection, gt_iff_lt]
  split_ifs with h1 h2 h3 h4 h5
  · exact Or.inl rfl
  · exact Or.inl rfl
  · exact Or.inl rfl
  · right
    push_neg at h1 h2 h3
    exact ⟨_, _, _, _, _, rfl, h1, rfl, rfl, rfl, h2.1, h2.2, h3.1, h3.2, h4,
      Or.inl ⟨h5, rfl⟩, rfl⟩
  · right
    push_neg at h1 h2 h3 h5
    exact ⟨_, _, _, _, _, rfl, h1, rfl, rfl, rfl, h2.1, h2.2, h3.1, h3.2, h4,
      Or.inr ⟨h5, rfl⟩, rfl⟩
  · exact Or.inl rfl

/-- Cramer's rule behind the Möller–Trumbore parameters: the point of parameter `k` on the
ray is the point of barycentric parameters `u`, `v` in the plane of the triangle. -/
theorem triangle_point_eq (o d a b c : Vector ℝ)
    (hdet : DotProduct (b - a) (CrossProduct d (c - a)) ≠ 0) :
    o + (1 / DotProduct (b - a) (CrossProduct d (c - a))
          * DotProduct (c - a) (CrossProduct (o - a) (b - a))) * d
      = a + (1 / DotProduct (b - a) (CrossProduct d (c - a))
              * DotProduct (o - a) (CrossProduct d (c - a))) * (b - a)
          + (1 / DotProduct (b - a) (CrossProduct d (c - a))
              * DotProduct d (CrossProduct (o - a) (b - a))) * (c - a) := by
  obtain ⟨ox, oy, oz⟩ := o
  obtain ⟨dx, dy, dz⟩ := d
  obtain ⟨ax, ay, az⟩ := a
  obtain ⟨bx, by1, bz⟩ := b
  obtain ⟨cx, cy, cz⟩ := c
  simp only [DotProduct_def, CrossProduct, Vector.sub_def, Vector.add_def,
    Vector.scalar_mul_def, Vector.mk.injEq] at hdet ⊢
  refine ⟨?_, ?_, ?_⟩ <;> field_simp <;> ring

/-- The determinant is minus the face normal dotted with the direction, and the face
normal is perpendicular to both edges. -/
theorem triangle_det_eq (d a b c : Vector ℝ) :
    DotProduct (b - a) (CrossProduct d (c - a))
      = -DotProduct (CrossProduct (b - a) (c - a)) d
    ∧ DotProduct d (CrossProduct (b - a) (c - a))
      = DotProduct (CrossProduct (b - a) (c - a)) d
    ∧ DotProduct (CrossProduct (b - a) (c - a)) (b - a) = 0
    ∧ DotProduct (CrossProduct (b - a) (c - a)) (c - a) = 0 := by
  simp only [DotProduct_def, CrossProduct, Vector.sub_def]
  refine ⟨?_, ?_, ?_, ?_⟩ <;> ring

theorem DotProduct_neg_left (n d : Vector ℝ) : DotProduct (-n) d = -DotProduct n d := by
  simp only [DotProduct_def, Vector.neg_def]
  ring

/-- C4: for a ray with unit direction, a hit returned by `GetIntersection(ray, triangle)`
is `origin + k * direction` for some `k > kEpsilon = 1e-9`, is
`A + u * (B - A) + v * (C - A)` for some `u ≥ 0`, `v ≥ 0` with `u + v ≤ 1`, and reports
the distance `k`.  The sample ray gives the position `(0.2, 0.2, 0)` and the
distance `5`. -/
theorem GetIntersectionTriangle_hit_position (ray : Ray ℝ) (triangle : Triangle ℝ)
    (hdir : Length ray.direction_ = 1) (hit : Intersection ℝ)
    (hhit : GetIntersectionTriangle ray triangle = some hit) :
    (∃ k u v : ℝ,
        kEpsilon < k ∧ (1e-9 : ℝ) < k
        ∧ hit.position_ = ray.origin_ + k * ray.direction_
        ∧ 0 ≤ u ∧ 0 ≤ v ∧ u + v ≤ 1
        ∧ hit.position_
            = triangle.a + u * (triangle.b - triangle.a) + v * (triangle.c - triangle.a)
        ∧ hit.distance_ = k)
    ∧ GetIntersectionTriangle (⟨⟨0.2, 0.2, 5⟩, ⟨0, 0, -1⟩⟩ : Ray ℝ)
          ⟨⟨0, 0, 0⟩, ⟨1, 0, 0⟩, ⟨0, 1, 0⟩⟩
        = some ⟨⟨0.2, 0.2, 0⟩, ⟨0, 0, 1⟩, 5⟩ := by
  constructor
  · rcases GetIntersectionTriangle_spec ray triangle with
      hnone | ⟨det, u, v, k, n, hdet, hge, hu, hv, hk, hu0, -, hv0, huv, hkpos, -, hsome⟩
    · rw [hnone] at hhit
      exact absurd hhit (by simp)
    · rw [hsome, Option.some.injEq] at hhit
      subst hhit
      simp only
      have hk0 : 0 ≤ k := le_of_lt (lt_trans kEpsilon_pos hkpos)
      have hne : det ≠ 0 := by
        intro h
        rw [h, abs_zero] at hge
        exact absurd kEpsilon_pos (not_lt.mpr hge)
      have hpos : ray.origin_ + ray.direction_ * k = ray.origin_ + k * ray.direction_ := rfl
      refine ⟨k, u, v, hkpos, ?_, hpos, hu0, hv0, huv, ?_, ?_⟩
      · have : (kEpsilon : ℝ) = 1e-9 := by
          unfold kEpsilon
          norm_num
        rw [← this]
        exact hkpos
      · rw [hpos, hk, hu, hv, hdet]
        rw [hdet] at hne
        exact triangle_point_eq _ _ _ _ _ hne
      · have h1 := DotProduct_unit ray.direction_ hdir
        rw [Length_eq_iff _ hk0]
        rw [DotProduct_def] at h1 ⊢
        simp only [Vector.sub_def, Vector.add_def, Vector.mul_def]
        linear_combination (k * k) * h1
  · norm_num [GetIntersectionTriangle, Intersection.construct, Normalize, Vector.Normalize,
      Length, DotProduct, CrossProduct, sqrt_real, kEpsilon, sqrt_twentyfive]

/-- The hit position at the ray from `(0.2,0.2,5)` along `(0,0,-1)` and the triangle `(0,0,0), (1,0,0), (0,1,0)`. -/
theorem GetIntersectionTriangle_hit_position_witness :
    Length (⟨0, 0, -1⟩ : Vector ℝ) = 1
    ∧ GetIntersectionTriangle (⟨⟨0.2, 0.2, 5⟩, ⟨0, 0, -1⟩⟩ : Ray ℝ)
          ⟨⟨0, 0, 0⟩, ⟨1, 0, 0⟩, ⟨0, 1, 0⟩⟩
        = some ⟨⟨0.2, 0.2, 0⟩, ⟨0, 0, 1⟩, 5⟩
    ∧ ∃ k u v : ℝ,
        kEpsilon < k ∧ (1e-9 : ℝ) < k
        ∧ (⟨0.2, 0.2, 0⟩ : Vector ℝ) = ⟨0.2, 0.2, 5⟩ + k * (⟨0, 0, -1⟩ : Vector ℝ)
        ∧ 0 ≤ u ∧ 0 ≤ v ∧ u + v ≤ 1
        ∧ (⟨0.2, 0.2, 0⟩ : Vector ℝ)
            = ⟨0, 0, 0⟩ + u * ((⟨1, 0, 0⟩ : Vector ℝ) - ⟨0, 0, 0⟩)
                + v * ((⟨0, 1, 0⟩ : Vector ℝ) - ⟨0, 0, 0⟩)
        ∧ (5 : ℝ) = k :=
  have hdir : Length (⟨0, 0, -1⟩ : Vector ℝ) = 1 := by norm_num [Length, sqrt_real]
  have hhit : GetIntersectionTriangle (⟨⟨0.2, 0.2, 5⟩, ⟨0, 0, -1⟩⟩ : Ray ℝ)
        ⟨⟨0, 0, 0⟩, ⟨1, 0, 0⟩, ⟨0, 1, 0⟩⟩
      = some ⟨⟨0.2, 0.2, 0⟩, ⟨0, 0, 1⟩, 5⟩ := by
    norm_num [GetIntersectionTriangle, Intersection.construct, Normalize, Vector.Normalize,
      Length, DotProduct, CrossProduct, sqrt_real, kEpsilon, sqrt_twentyfive]
  ⟨hdir, hhit, (GetIntersectionTriangle_hit_position ⟨⟨0.2, 0.2, 5⟩, ⟨0, 0, -1⟩⟩
    ⟨⟨0, 0, 0⟩, ⟨1, 0, 0⟩, ⟨0, 1, 0⟩⟩ hdir ⟨⟨0.2, 0.2, 0⟩, ⟨0, 0, 1⟩, 5⟩ hhit).1⟩

/-- C5: for every ray and triangle, the normal of a hit returned by
`GetIntersection(ray, triangle)` has length one, is perpendicular to the edges
`B - A` and `C - A`, and has a non-positive dot product with the ray direction. -/
theorem GetIntersectionTriangle_hit_normal (ray : Ray ℝ) (triangle : Triangle ℝ)
    (hit : Intersection ℝ) (hhit : GetIntersectionTriangle ray triangle = some hit) :
    Length hit.normal_ = 1
    ∧ DotProduct hit.normal_ (triangle.b - triangle.a) = 0
    ∧ DotProduct hit.normal_ (triangle.c - triangle.a) = 0
    ∧ DotProduct hit.normal_ ray.direction_ ≤ 0 := by
  obtain ⟨e1, -, e3, e4⟩ := triangle_det_eq ray.direction_ triangle.a triangle.b triangle.c
  rcases GetIntersectionTriangle_spec ray triangle with
    hnone | ⟨det, u, v, k, n, hdet, hge, -, -, -, -, -, -, -, -, hn, hsome⟩
  · rw [hnone] at hhit
    exact absurd hhit (by simp)
  · rw [hsome, Option.some.injEq] at hhit
    subst hhit
    simp only
    have hne : det ≠ 0 := by
      intro h
      rw [h, abs_zero] at hge
      exact absurd kEpsilon_pos (not_lt.mpr hge)
    rw [hdet, e1] at hne
    have hfacts : n ≠ 0 ∧ DotProduct n (triangle.b - triangle.a) = 0
        ∧ DotProduct n (triangle.c - triangle.a) = 0 ∧ DotProduct n ray.direction_ ≤ 0 := by
      rcases hn with ⟨hpos, rfl⟩ | ⟨hle, rfl⟩
      · refine ⟨?_, ?_, ?_, ?_⟩
        · intro h0
          have h := DotProduct_neg_left
            (CrossProduct (triangle.b - triangle.a) (triangle.c - triangle.a)) ray.direction_
          rw [h0] at h
          simp only [DotProduct_def, Vector.zero_def, zero_mul, add_zero] at h
          rw [DotProduct_def] at hpos
          linarith
        · rw [DotProduct_neg_left, e3, neg_zero]
        · rw [DotProduct_neg_left, e4, neg_zero]
        · rw [DotProduct_neg_left]; linarith
      · refine ⟨?_, e3, e4, hle⟩
        intro h0
        apply hne
        rw [h0]
        simp [DotProduct_def]
    obtain ⟨hn0, hb, hc, hd⟩ := hfacts
    have hL := Length_pos n hn0
    show Length n.Normalize = 1 ∧ DotProduct n.Normalize _ = 0 ∧ DotProduct n.Normalize _ = 0
      ∧ DotProduct n.Normalize _ ≤ 0
    refine ⟨Length_Normalize n hn0, ?_, ?_, ?_⟩
    · rw [Vector.Normalize_of_ne_zero n hn0, DotProduct_div_left, hb, zero_div]
    · rw [Vector.Normalize_of_ne_zero n hn0, DotProduct_div_left, hc, zero_div]
    · rw [Vector.Normalize_of_ne_zero n hn0, DotProduct_div_left]
      exact div_nonpos_of_nonpos_of_nonneg hd hL.le

/-- The hit normal at the ray from `(0.2,0.2,5)` along `(0,0,-1)` and the triangle `(0,0,0), (1,0,0), (0,1,0)`. -/
theorem GetIntersectionTriangle_hit_normal_witness :
    GetIntersectionTriangle (⟨⟨0.2, 0.2, 5⟩, ⟨0, 0, -1⟩⟩ : Ray ℝ)
          ⟨⟨0, 0, 0⟩, ⟨1, 0, 0⟩, ⟨0, 1, 0⟩⟩
        = some ⟨⟨0.2, 0.2, 0⟩, ⟨0, 0, 1⟩, 5⟩
    ∧ Length (⟨0, 0, 1⟩ : Vector ℝ) = 1
    ∧ DotProduct (⟨0, 0, 1⟩ : Vector ℝ) ((⟨1, 0, 0⟩ : Vector ℝ) - ⟨0, 0, 0⟩) = 0
    ∧ DotProduct (⟨0, 0, 1⟩ : Vector ℝ) ((⟨0, 1, 0⟩ : Vector ℝ) - ⟨0, 0, 0⟩) = 0
    ∧ DotProduct (⟨0, 0, 1⟩ : Vector ℝ) ⟨0, 0, -1⟩ ≤ 0 :=
  have hhit : GetIntersectionTriangle (⟨⟨0.2, 0.2, 5⟩, ⟨0, 0, -1⟩⟩ : Ray ℝ)
        ⟨⟨0, 0, 0⟩, ⟨1, 0, 0⟩, ⟨0, 1, 0⟩⟩
      = some ⟨⟨0.2, 0.2, 0⟩, ⟨0, 0, 1⟩, 5⟩ := by
    norm_num [GetIntersectionTriangle, Intersection.construct, Normalize, Vector.Normalize,
      Length, DotProduct, CrossProduct, sqrt_real, kEpsilon, sqrt_twentyfive]
  ⟨hhit, GetIntersectionTriangle_hit_normal ⟨⟨0.2, 0.2, 5⟩, ⟨0, 0, -1⟩⟩
    ⟨⟨0, 0, 0⟩, ⟨1, 0, 0⟩, ⟨0, 1, 0⟩⟩ ⟨⟨0.2, 0.2, 0⟩, ⟨0, 0, 1⟩, 5⟩ hhit⟩

/-- C6: a ray whose direction is parallel to the plane of the triangle
(`DotProduct(direction, CrossProduct(B - A, C - A)) = 0`) gets no intersection from
`GetIntersection(ray, triangle)`, whatever its origin; so does every ray of
direction `(1,0,0)` against the triangle `(0,0,0), (1,0,0), (0,1,0)`. -/
theorem GetIntersectionTriangle_parallel (ray : Ray ℝ) (triangle : Triangle ℝ)
    (hpar : DotProduct ray.direction_
      (CrossProduct (triangle.b - triangle.a) (triangle.c - triangle.a)) = 0) :
    GetIntersectionTriangle ray triangle = none
    ∧ ∀ origin : Vector ℝ,
        GetIntersectionTriangle ⟨origin, ⟨1, 0, 0⟩⟩ ⟨⟨0, 0, 0⟩, ⟨1, 0, 0⟩, ⟨0, 1, 0⟩⟩ = none := by
  have key : ∀ (r : Ray ℝ) (t : Triangle ℝ),
      DotProduct r.direction_ (CrossProduct (t.b - t.a) (t.c - t.a)) = 0 →
      GetIntersectionTriangle r t = none := by
    intro r t h
    obtain ⟨e1, e2, -, -⟩ := triangle_det_eq r.direction_ t.a t.b t.c
    rcases GetIntersectionTriangle_spec r t with
      hnone | ⟨det, u, v, k, n, hdet, hge, -⟩
    · exact hnone
    · exfalso
      rw [e2] at h
      rw [e1, h, neg_zero] at hdet
      rw [hdet, abs_zero] at hge
      exact absurd kEpsilon_pos (not_lt.mpr hge)
  refine ⟨key ray triangle hpar, fun origin => key _ _ ?_⟩
  norm_num [DotProduct, CrossProduct]

/-- The parallel case at the ray from `(0.2,0.2,0)` along `(1,0,0)` and the triangle `(0,0,0), (1,0,0), (0,1,0)`. -/
theorem GetIntersectionTriangle_parallel_witness :
    DotProduct (⟨1, 0, 0⟩ : Vector ℝ)
        (CrossProduct ((⟨1, 0, 0⟩ : Vector ℝ) - ⟨0, 0, 0⟩) ((⟨0, 1, 0⟩ : Vector ℝ) - ⟨0, 0, 0⟩))
      = 0
    ∧ GetIntersectionTriangle (⟨⟨0.2, 0.2, 0⟩, ⟨1, 0, 0⟩⟩ : Ray ℝ)
        ⟨⟨0, 0, 0⟩, ⟨1, 0, 0⟩, ⟨0, 1, 0⟩⟩ = none :=
  ⟨by norm_num [DotProduct, CrossProduct],
    (GetIntersectionTriangle_parallel ⟨⟨0.2, 0.2, 0⟩, ⟨1, 0, 0⟩⟩
      ⟨⟨0, 0, 0⟩, ⟨1, 0, 0⟩, ⟨0, 1, 0⟩⟩ (by norm_num [DotProduct, CrossProduct])).1⟩

/-! ## Reflection and refraction -/

theorem sqrt_two_pos : (0 : ℝ) < √2 := Real.sqrt_pos.mpr (by norm_num)

/-- C7: for a unit normal `n`, `Reflect(d, n)` is `d - 2 * dot(n, d) * n`, the mirror image
of `d` in the plane of normal `n`: the component along `n` is negated, the component
perpendicular to `n` is kept, and the length is that of `d`.  The sample
`Reflect(normalize(1,-1,0), (0,1,0))` is `normalize(1,1,0)`. -/
theorem Reflect_mirror (d n : Vector ℝ) (hn : Length n = 1) :
    Reflect d n = d - (2 * DotProduct n d) * n
    ∧ DotProduct (Reflect d n) n = -DotProduct d n
    ∧ Reflect d n - DotProduct (Reflect d n) n * n = d - DotProduct d n * n
    ∧ Length (Reflect d n) = Length d
    ∧ Reflect (Normalize ⟨1, -1, 0⟩) (⟨0, 1, 0⟩ : Vector ℝ) = Normalize ⟨1, 1, 0⟩ := by
  have h1 := DotProduct_unit n hn
  have hdot : DotProduct (Reflect d n) n = -DotProduct d n := by
    simp only [Reflect, DotProduct_def, Vector.add_def, Vector.scalar_mul_def] at h1 ⊢
    linear_combination (-2 * (n.X * d.X + n.Y * d.Y + n.Z * d.Z)) * h1
  refine ⟨?_, hdot, ?_, ?_, ?_⟩
  · simp only [Reflect]
    ext <;> simp <;> ring
  · rw [hdot]
    simp only [Reflect, DotProduct_def]
    ext <;> simp <;> ring
  · rw [Length_eq_iff _ (Length_nonneg d), Length_mul_self]
    simp only [Reflect, DotProduct_def, Vector.add_def, Vector.scalar_mul_def] at h1 ⊢
    linear_combination (4 * (n.X * d.X + n.Y * d.Y + n.Z * d.Z) ^ 2) * h1
  · have h2 := sqrt_two_pos
    simp only [Reflect, Normalize, Vector.Normalize, Length, DotProduct, sqrt_real]
    norm_num
    field_simp
    ring

/-- The mirror law at `d = (1,-1,0)` and `n = (0,1,0)`. -/
theorem Reflect_mirror_witness :
    Length (⟨0, 1, 0⟩ : Vector ℝ) = 1
    ∧ DotProduct (Reflect (⟨1, -1, 0⟩ : Vector ℝ) ⟨0, 1, 0⟩) ⟨0, 1, 0⟩
        = -DotProduct (⟨1, -1, 0⟩ : Vector ℝ) ⟨0, 1, 0⟩
    ∧ Length (Reflect (⟨1, -1, 0⟩ : Vector ℝ) ⟨0, 1, 0⟩) = Length (⟨1, -1, 0⟩ : Vector ℝ) :=
  have hn : Length (⟨0, 1, 0⟩ : Vector ℝ) = 1 := by norm_num [Length, sqrt_real]
  have h := Reflect_mirror ⟨1, -1, 0⟩ ⟨0, 1, 0⟩ hn
  ⟨hn, h.2.1, h.2.2.2.1⟩

/-- C9: with `c = -dot(n, normalize(d))`, `Refract(d, n, eta)` returns the empty optional
exactly when `eta² * (1 - c²) > 1`, and returns a vector otherwise.  This holds for
every `d`, `n` and `eta`, in particular for non-zero `d` and unit `n`. -/
theorem Refract_eq_none_iff (d n : Vector ℝ) (eta : ℝ) :
    (Refract d n eta = none ↔
      eta ^ 2 * (1 - (-DotProduct n (Normalize d)) ^ 2) > 1)
    ∧ (¬ eta ^ 2 * (1 - (-DotProduct n (Normalize d)) ^ 2) > 1 →
        ∃ v : Vector ℝ, Refract d n eta = some v) := by
  unfold Refract Normalize
  simp only [pow_two]
  constructor
  · split_ifs with h
    · exact ⟨fun _ => h, fun _ => rfl⟩
    · exact ⟨fun h0 => absurd h0 (by simp), fun h0 => absurd h0 h⟩
  · intro h
    rw [if_neg h]
    exact ⟨_, rfl⟩

/-- The value of `Refract` at `eta = 1` for a unit direction: `d + (c - |c|) * n` with
`c = -dot(n, d)`. -/
theorem Refract_one (d n : Vector ℝ) (hd : Length d = 1) :
    Refract d n 1 = some (d + (-DotProduct n d - abs (DotProduct n d)) * n) := by
  unfold Refract
  rw [Vector.Normalize_of_Length_eq_one d hd]
  have hc : ¬ (1 * 1 * (1 - -DotProduct n d * -DotProduct n d) > 1) := by
    nlinarith [mul_self_nonneg (DotProduct n d)]
  rw [if_neg hc, sqrt_real]
  have hs : √(1 - 1 * 1 * (1 - -DotProduct n d * -DotProduct n d)) = abs (DotProduct n d) := by
    rw [show 1 - 1 * 1 * (1 - -DotProduct n d * -DotProduct n d)
      = DotProduct n d * DotProduct n d by ring]
    exact Real.sqrt_mul_self_eq_abs _
  rw [hs]
  congr 1
  ext <;> simp

/-- C8, as stated, fails: with the unit direction `d = (0,0,1)` and the unit normal
`n = (0,0,1)`, `Refract(d, n, 1.0)` returns `(0,0,-1)`, which is not `d`. -/
theorem Refract_one_counterexample :
    Length (⟨0, 0, 1⟩ : Vector ℝ) = 1
    ∧ Refract (⟨0, 0, 1⟩ : Vector ℝ) ⟨0, 0, 1⟩ 1 = some ⟨0, 0, -1⟩
    ∧ Refract (⟨0, 0, 1⟩ : Vector ℝ) ⟨0, 0, 1⟩ 1 ≠ some ⟨0, 0, 1⟩ := by
  have hlen : Length (⟨0, 0, 1⟩ : Vector ℝ) = 1 := by
    norm_num [Length, sqrt_real]
  have hval : Refract (⟨0, 0, 1⟩ : Vector ℝ) ⟨0, 0, 1⟩ 1 = some ⟨0, 0, -1⟩ := by
    rw [Refract_one _ _ hlen]
    norm_num [DotProduct]
  refine ⟨hlen, hval, ?_⟩
  rw [hval]
  norm_num

/-- C8, amended: for a unit direction `d` and a unit normal `n`, `Refract(d, n, 1.0)`
returns a direction, and that direction is `d` exactly when `dot(n, d) ≤ 0`, that is
when the normal does not point along the ray. -/
theorem Refract_one_eq_iff (d n : Vector ℝ) (hd : Length d = 1) (hn : Length n = 1) :
    (∃ v : Vector ℝ, Refract d n 1 = some v)
    ∧ (Refract d n 1 = some d ↔ DotProduct n d ≤ 0) := by
  rw [Refract_one d n hd]
  refine ⟨⟨_, rfl⟩, ?_⟩
  have hn0 : n ≠ 0 := by
    intro h
    rw [h, Length_def, DotProduct_def] at hn
    simp at hn
  rw [Option.some.injEq]
  constructor
  · intro h
    by_contra hpos
    push_neg at hpos
    rw [abs_of_pos hpos] at h
    apply hn0
    rw [Vector.ext_iff] at h
    simp only [Vector.add_def, Vector.scalar_mul_def, add_right_eq_self, mul_eq_zero] at h
    rw [Vector.eq_zero_iff]
    have h2 : ¬ (-DotProduct n d - DotProduct n d = 0) := by
      intro h3
      linarith
    exact ⟨h.1.resolve_right h2, h.2.1.resolve_right h2, h.2.2.resolve_right h2⟩
  · intro h
    rw [abs_of_nonpos h]
    ext <;> simp

/-- The amended law at `d = (0,0,-1)` and `n = (0,0,1)`: the ray passes unbent. -/
theorem Refract_one_eq_iff_witness :
    Length (⟨0, 0, -1⟩ : Vector ℝ) = 1 ∧ Length (⟨0, 0, 1⟩ : Vector ℝ) = 1
    ∧ DotProduct (⟨0, 0, 1⟩ : Vector ℝ) ⟨0, 0, -1⟩ ≤ 0
    ∧ Refract (⟨0, 0, -1⟩ : Vector ℝ) ⟨0, 0, 1⟩ 1 = some ⟨0, 0, -1⟩ :=
  have hd : Length (⟨0, 0, -1⟩ : Vector ℝ) = 1 := by norm_num [Length, sqrt_real]
  have hn : Length (⟨0, 0, 1⟩ : Vector ℝ) = 1 := by norm_num [Length, sqrt_real]
  have hle : DotProduct (⟨0, 0, 1⟩ : Vector ℝ) ⟨0, 0, -1⟩ ≤ 0 := by norm_num [DotProduct]
  ⟨hd, hn, hle, (Refract_one_eq_iff ⟨0, 0, -1⟩ ⟨0, 0, 1⟩ hd hn).2.mpr hle⟩

/-! ## The triangle test as a criterion -/

/-- Uniqueness behind the Möller–Trumbore parameters: a point of parameter `k` on the ray
that has barycentric parameters `u`, `v` determines `det * u`, `det * v` and `det * k`. -/
theorem triangle_params_unique (o d a b c : Vector ℝ) (k u v : ℝ)
    (h : o + k * d = a + u * (b - a) + v * (c - a)) :
    DotProduct (b - a) (CrossProduct d (c - a)) * u
        = DotProduct (o - a) (CrossProduct d (c - a))
    ∧ DotProduct (b - a) (CrossProduct d (c - a)) * v
        = DotProduct d (CrossProduct (o - a) (b - a))
    ∧ DotProduct (b - a) (CrossProduct d (c - a)) * k
        = DotProduct (c - a) (CrossProduct (o - a) (b - a)) := by
  obtain ⟨ox, oy, oz⟩ := o
  obtain ⟨dx, dy, dz⟩ := d
  obtain ⟨ax, ay, az⟩ := a
  obtain ⟨bx, by1, bz⟩ := b
  obtain ⟨cx, cy, cz⟩ := c
  simp only [Vector.sub_def, Vector.add_def, Vector.scalar_mul_def, Vector.mk.injEq] at h
  obtain ⟨hx, hy, hz⟩ := h
  simp only [DotProduct_def, CrossProduct, Vector.sub_def]
  refine ⟨?_, ?_, ?_⟩
  · linear_combination
      (-(dy * (cz + -az) - dz * (cy + -ay))) * hx + (-(dz * (cx + -ax) - dx * (cz + -az))) * hy
        + (-(dx * (cy + -ay) - dy * (cx + -ax))) * hz
  · linear_combination
      (-((by1 + -ay) * dz - (bz + -az) * dy)) * hx + (-((bz + -az) * dx - (bx + -ax) * dz)) * hy
        + (-((bx + -ax) * dy - (by1 + -ay) * dx)) * hz
  · linear_combination
      (-((by1 + -ay) * (cz + -az) - (bz + -az) * (cy + -ay))) * hx
        + (-((bz + -az) * (cx + -ax) - (bx + -ax) * (cz + -az))) * hy
        + (-((bx + -ax) * (cy + -ay) - (by1 + -ay) * (cx + -ax))) * hz

/-- The constant `kEpsilon` is `1e-9`. -/
theorem kEpsilon_eq : (kEpsilon : ℝ) = 1e-9 := by
  unfold kEpsilon
  norm_num

/-- Solving `det * x = y` for `x` in the form the triangle test computes it. -/
theorem inv_det_mul_eq {det x y : ℝ} (hne : det ≠ 0) (e : det * x = y) : 1 / det * y = x := by
  rw [← e]
  field_simp

/-- C19: `GetIntersection(ray, triangle)` returns a hit exactly when `|det| ≥ 1e-9` and some
point `origin + k * direction` with `k > 1e-9` is `A + u * (B - A) + v * (C - A)` with
`u ≥ 0`, `v ≥ 0`, `u + v ≤ 1`.  In particular, when the ray line meets the plane of the
triangle at a parameter `k ≤ 1e-9` there is no hit.  This holds for every direction,
unit length or not. -/
theorem GetIntersectionTriangle_hit_iff (ray : Ray ℝ) (triangle : Triangle ℝ) :
    ((GetIntersectionTriangle ray triangle).isSome ↔
      (1e-9 : ℝ) ≤ abs (DotProduct (triangle.b - triangle.a)
          (CrossProduct ray.direction_ (triangle.c - triangle.a)))
      ∧ ∃ k u v : ℝ, 1e-9 < k ∧ 0 ≤ u ∧ 0 ≤ v ∧ u + v ≤ 1
          ∧ ray.origin_ + k * ray.direction_
              = triangle.a + u * (triangle.b - triangle.a) + v * (triangle.c - triangle.a))
    ∧ (∀ k u v : ℝ,
        ray.origin_ + k * ray.direction_
          = triangle.a + u * (triangle.b - triangle.a) + v * (triangle.c - triangle.a) →
        k ≤ 1e-9 → GetIntersectionTriangle ray triangle = none) := by
  rw [← kEpsilon_eq]
  have huniq := triangle_params_unique ray.origin_ ray.direction_ triangle.a triangle.b triangle.c
  rcases GetIntersectionTriangle_spec ray triangle with
    hnone | ⟨det, u, v, k, n, hdet, hge, hu, hv, hk, hu0, hu1, hv0, huv, hkpos, -, hsome⟩
  · refine ⟨?_, fun _ _ _ _ _ => hnone⟩
    rw [hnone]
    simp only [Option.isSome_none, Bool.false_eq_true, false_iff, not_and, not_exists]
    intro hge k u v hk hu hv huv hpt
    obtain ⟨e1, e2, e3⟩ := huniq k u v hpt
    have hne : DotProduct (triangle.b - triangle.a)
        (CrossProduct ray.direction_ (triangle.c - triangle.a)) ≠ 0 := by
      intro h0
      rw [h0, abs_zero] at hge
      exact absurd kEpsilon_pos (not_lt.mpr hge)
    have hu' : 1 / DotProduct (triangle.b - triangle.a)
          (CrossProduct ray.direction_ (triangle.c - triangle.a))
        * DotProduct (ray.origin_ - triangle.a)
          (CrossProduct ray.direction_ (triangle.c - triangle.a)) = u := by
      exact inv_det_mul_eq hne e1
    have hv' : 1 / DotProduct (triangle.b - triangle.a)
          (CrossProduct ray.direction_ (triangle.c - triangle.a))
        * DotProduct ray.direction_
          (CrossProduct (ray.origin_ - triangle.a) (triangle.b - triangle.a)) = v := by
      exact inv_det_mul_eq hne e2
    have hk' : 1 / DotProduct (triangle.b - triangle.a)
          (CrossProduct ray.direction_ (triangle.c - triangle.a))
        * DotProduct (triangle.c - triangle.a)
          (CrossProduct (ray.origin_ - triangle.a) (triangle.b - triangle.a)) = k := by
      exact inv_det_mul_eq hne e3
    have hcontra : GetIntersectionTriangle ray triangle ≠ none := by
      unfold GetIntersectionTriangle
      simp only [Ray.GetOrigin, Ray.GetDirection, gt_iff_lt, hu', hv', hk']
      rw [if_neg (not_lt.mpr hge), if_neg (by push_neg; exact ⟨hu, by linarith⟩),
        if_neg (by push_neg; exact ⟨hv, huv⟩), if_pos hk]
      simp
    exact hcontra hnone
  · have hne : det ≠ 0 := by
      intro h0
      rw [h0, abs_zero] at hge
      exact absurd kEpsilon_pos (not_lt.mpr hge)
    refine ⟨?_, ?_⟩
    · rw [hsome]
      simp only [Option.isSome_some, true_iff]
      rw [← hdet]
      refine ⟨hge, k, u, v, hkpos, hu0, hv0, huv, ?_⟩
      rw [hk, hu, hv, hdet]
      rw [hdet] at hne
      exact triangle_point_eq _ _ _ _ _ hne
    · intro k2 u2 v2 hpt hk2
      exfalso
      obtain ⟨-, -, e3⟩ := huniq k2 u2 v2 hpt
      rw [← hdet] at e3
      have : k = k2 := by
        rw [hk]
        exact inv_det_mul_eq hne e3
      linarith

/-- C20: for unit `d` and `n` and `eta² * (1 - c²) ≤ 1` with `c = -dot(n, d)`, `Refract`
returns a vector `r` of length one whose component perpendicular to `n` is `eta` times
that of `d` and whose component along `n` is `dot(r, n) = -sqrt(1 - eta² * (1 - c²))`. -/
theorem Refract_snell (d n : Vector ℝ) (eta : ℝ) (hd : Length d = 1) (hn : Length n = 1)
    (h : eta ^ 2 * (1 - (-DotProduct n d) ^ 2) ≤ 1) :
    ∃ r : Vector ℝ, Refract d n eta = some r
      ∧ Length r = 1
      ∧ r - DotProduct r n * n = eta * (d - DotProduct d n * n)
      ∧ DotProduct r n = -√(1 - eta ^ 2 * (1 - (-DotProduct n d) ^ 2)) := by
  have hdd := DotProduct_unit d hd
  have hnn := DotProduct_unit n hn
  have hS0 : 0 ≤ √(1 - eta ^ 2 * (1 - (-DotProduct n d) ^ 2)) := Real.sqrt_nonneg _
  have hS2 : √(1 - eta ^ 2 * (1 - (-DotProduct n d) ^ 2))
      * √(1 - eta ^ 2 * (1 - (-DotProduct n d) ^ 2))
      = 1 - eta ^ 2 * (1 - (-DotProduct n d) ^ 2) := Real.mul_self_sqrt (by linarith)
  have hval : Refract d n eta = some (eta * d
      + (eta * -DotProduct n d - √(1 - eta ^ 2 * (1 - (-DotProduct n d) ^ 2))) * n) := by
    unfold Refract
    rw [Vector.Normalize_of_Length_eq_one d hd]
    have hc : ¬ (eta * eta * (1 - -DotProduct n d * -DotProduct n d) > 1) := by
      rw [not_lt]
      calc eta * eta * (1 - -DotProduct n d * -DotProduct n d)
          = eta ^ 2 * (1 - (-DotProduct n d) ^ 2) := by ring
        _ ≤ 1 := h
    rw [if_neg hc, sqrt_real]
    rw [show eta * eta * (1 - -DotProduct n d * -DotProduct n d)
      = eta ^ 2 * (1 - (-DotProduct n d) ^ 2) by ring]
  refine ⟨_, hval, ?_⟩
  generalize √(1 - eta ^ 2 * (1 - (-DotProduct n d) ^ 2)) = S at *
  have hdot : DotProduct (eta * d + (eta * -DotProduct n d - S) * n) n = -S := by
    simp only [DotProduct_def, Vector.add_def, Vector.scalar_mul_def] at hnn ⊢
    linear_combination (eta * -(n.X * d.X + n.Y * d.Y + n.Z * d.Z) - S) * hnn
  refine ⟨?_, ?_, hdot⟩
  · rw [Length_eq_iff _ zero_le_one]
    simp only [DotProduct_def, Vector.add_def, Vector.scalar_mul_def] at hnn hdd hS2 ⊢
    linear_combination (eta ^ 2) * hdd
      + ((eta * -(n.X * d.X + n.Y * d.Y + n.Z * d.Z) - S) ^ 2) * hnn + hS2
  · rw [hdot]
    simp only [DotProduct_def]
    ext <;> simp <;> ring

/-! ## The scene query -/

/-- A loop that pushes the results of `f` at the back collects them in order. -/
theorem foldl_push_filterMap {α β : Type} (f : α → Option β) (step : List β → α → List β)
    (hsome : ∀ acc x y, f x = some y → step acc x = acc ++ [y])
    (hnone : ∀ acc x, f x = none → step acc x = acc) (l : List α) (acc : List β) :
    l.foldl step acc = acc ++ l.filterMap f := by
  induction l generalizing acc with
  | nil => simp
  | cons x xs ih =>
    rw [List.foldl_cons, ih]
    cases hfx : f x with
    | none => simp [List.filterMap_cons, hfx, hnone acc x hfx]
    | some y => simp [List.filterMap_cons, hfx, hsome acc x y hfx]

/-- The hits collected by `GetAllRayIntersections`. -/
theorem GetAllRayIntersections_eq (ray : Ray ℝ) (scene : Scene ℝ) :
    GetAllRayIntersections ray scene
      = scene.objects_.filterMap (GetMaybeIntersectionWithPolygon ray)
        ++ scene.sphere_objects_.filterMap
            (fun object => (GetIntersectionSphere ray object.sphere).map
              (fun i => (⟨i, object.material⟩ : IPoint ℝ))) := by
  unfold GetAllRayIntersections
  simp only [Scene.GetObjects, Scene.GetSphereObjects]
  rw [foldl_push_filterMap (GetMaybeIntersectionWithPolygon ray) _
      (fun acc x y h => by simp only [h]) (fun acc x h => by simp only [h]),
    List.nil_append]
  exact foldl_push_filterMap
    (fun object : SphereObject ℝ => (GetIntersectionSphere ray object.sphere).map
      (fun i => (⟨i, object.material⟩ : IPoint ℝ))) _
    (fun acc x y h => by
      cases hx : GetIntersectionSphere ray x.sphere with
      | none => simp [hx] at h
      | some i =>
        simp only [hx, Option.map_some', Option.some.injEq] at h
        simp only [hx, h])
    (fun acc x h => by
      cases hx : GetIntersectionSphere ray x.sphere with
      | none => simp only [hx]
      | some i => simp [hx] at h) _ _

/-- The element `std::min_element` returns is in the range and no element of the range
is less than it. -/
theorem min_element_spec {α : Type} (key : α → ℝ) (first : α) (rest : List α) :
    min_element (fun x y => decide (key x < key y)) first rest ∈ first :: rest
    ∧ ∀ x ∈ first :: rest,
        key (min_element (fun x y => decide (key x < key y)) first rest) ≤ key x := by
  unfold min_element
  induction rest generalizing first with
  | nil => simp
  | cons y ys ih =>
    rw [List.foldl_cons]
    by_cases hlt : key y < key first
    · simp only [hlt, decide_True, if_true]
      obtain ⟨hmem, hmin⟩ := ih y
      refine ⟨?_, ?_⟩
      · rcases List.mem_cons.mp hmem with h | h
        · rw [h]; simp
        · exact List.mem_cons_of_mem _ (List.mem_cons_of_mem _ h)
      · intro x hx
        rcases List.mem_cons.mp hx with h | h
        · rw [h]
          exact le_trans (hmin y (List.mem_cons_self _ _)) hlt.le
        · exact hmin x h
    · simp only [hlt, decide_False, if_false, Bool.false_eq_true]
      obtain ⟨hmem, hmin⟩ := ih first
      refine ⟨?_, ?_⟩
      · rcases List.mem_cons.mp hmem with h | h
        · rw [h]; simp
        · exact List.mem_cons_of_mem _ (List.mem_cons_of_mem _ h)
      · intro x hx
        rcases List.mem_cons.mp hx with h | h
        · rw [h]
          exact hmin first (List.mem_cons_self _ _)
        · rcases List.mem_cons.mp h with h2 | h2
          · rw [h2]
            exact le_trans (hmin first (List.mem_cons_self _ _)) (not_lt.mp hlt)
          · exact hmin x (List.mem_cons_of_mem _ h2)

/-- The scene query returns nothing on an empty collection and otherwise a member of the
collection of least distance. -/
theorem GetClosestIntersectionPoint_spec (ray : Ray ℝ) (scene : Scene ℝ) :
    (GetClosestIntersectionPoint ray scene = none ∧ GetAllRayIntersections ray scene = [])
    ∨ ∃ p : IPoint ℝ, GetClosestIntersectionPoint ray scene = some p
        ∧ p ∈ GetAllRayIntersections ray scene
        ∧ ∀ q ∈ GetAllRayIntersections ray scene,
            p.intersection_.distance_ ≤ q.intersection_.distance_ := by
  unfold GetClosestIntersectionPoint
  cases hall : GetAllRayIntersections ray scene with
  | nil => exact Or.inl ⟨rfl, rfl⟩
  | cons first rest =>
    right
    have h := min_element_spec (fun x : IPoint ℝ => x.intersection_.distance_) first rest
    exact ⟨_, rfl, h.1, h.2⟩

/-- The triangle object is hit exactly when its triangle is, at the same position and
distance and with the material of the object. -/
theorem GetMaybeIntersectionWithPolygon_spec (ray : Ray ℝ) (object : Object ℝ) :
    (GetIntersectionTriangle ray object.polygon = none
      ∧ GetMaybeIntersectionWithPolygon ray object = none)
    ∨ ∃ (i : Intersection ℝ) (p : IPoint ℝ),
        GetIntersectionTriangle ray object.polygon = some i
        ∧ GetMaybeIntersectionWithPolygon ray object = some p
        ∧ p.material_ = object.material
        ∧ p.intersection_.position_ = i.position_
        ∧ p.intersection_.distance_ = i.distance_ := by
  unfold GetMaybeIntersectionWithPolygon
  cases h : GetIntersectionTriangle ray object.polygon with
  | none => exact Or.inl ⟨rfl, rfl⟩
  | some i =>
    right
    simp only
    split_ifs
    · exact ⟨i, _, rfl, rfl, rfl, rfl, rfl⟩
    · exact ⟨i, _, rfl, rfl, rfl, rfl, rfl⟩

/-- Membership in the collection of `GetAllRayIntersections`. -/
theorem mem_GetAllRayIntersections (ray : Ray ℝ) (scene : Scene ℝ) (p : IPoint ℝ) :
    p ∈ GetAllRayIntersections ray scene ↔
      (∃ object ∈ scene.objects_, GetMaybeIntersectionWithPolygon ray object = some p)
      ∨ (∃ object ∈ scene.sphere_objects_, ∃ i : Intersection ℝ,
          GetIntersectionSphere ray object.sphere = some i ∧ p = ⟨i, object.material⟩) := by
  rw [GetAllRayIntersections_eq, List.mem_append, List.mem_filterMap, List.mem_filterMap]
  constructor
  · rintro (h | ⟨object, hmem, h⟩)
    · exact Or.inl h
    · right
      cases hx : GetIntersectionSphere ray object.sphere with
      | none => simp [hx] at h
      | some i =>
        simp only [hx, Option.map_some', Option.some.injEq] at h
        exact ⟨object, hmem, i, hx, h.symm⟩
  · rintro (h | ⟨object, hmem, i, hi, hp⟩)
    · exact Or.inl h
    · right
      refine ⟨object, hmem, ?_⟩
      simp only [hi, Option.map_some', hp]

/-- C11: `GetClosestIntersectionPoint` returns nothing exactly when the ray intersects no
triangle object and no sphere object of the scene.  A hit it returns is the hit of one of
the primitives of the scene, with the material of that primitive, and its distance is at
most the distance of the hit of every primitive. -/
theorem GetClosestIntersectionPoint_closest (ray : Ray ℝ) (scene : Scene ℝ) :
    (GetClosestIntersectionPoint ray scene = none ↔
      (∀ object ∈ scene.objects_, GetIntersectionTriangle ray object.polygon = none)
      ∧ (∀ object ∈ scene.sphere_objects_, GetIntersectionSphere ray object.sphere = none))
    ∧ ∀ p : IPoint ℝ, GetClosestIntersectionPoint ray scene = some p →
        ((∃ object ∈ scene.objects_, ∃ i : Intersection ℝ,
            GetIntersectionTriangle ray object.polygon = some i
            ∧ GetMaybeIntersectionWithPolygon ray object = some p
            ∧ p.material_ = object.material
            ∧ p.intersection_.position_ = i.position_
            ∧ p.intersection_.distance_ = i.distance_)
          ∨ (∃ object ∈ scene.sphere_objects_, ∃ i : Intersection ℝ,
              GetIntersectionSphere ray object.sphere = some i
              ∧ p = ⟨i, object.material⟩))
        ∧ (∀ object ∈ scene.objects_, ∀ i : Intersection ℝ,
            GetIntersectionTriangle ray object.polygon = some i →
            p.intersection_.distance_ ≤ i.distance_)
        ∧ (∀ object ∈ scene.sphere_objects_, ∀ i : Intersection ℝ,
            GetIntersectionSphere ray object.sphere = some i →
            p.intersection_.distance_ ≤ i.distance_) := by
  have hmem := mem_GetAllRayIntersections ray scene
  refine ⟨?_, ?_⟩
  · rcases GetClosestIntersectionPoint_spec ray scene with ⟨hnone, hall⟩ | ⟨p, hsome, hp, -⟩
    · rw [hnone]
      refine ⟨fun _ => ⟨fun object hobj => ?_, fun object hobj => ?_⟩, fun _ => rfl⟩
      · rcases GetMaybeIntersectionWithPolygon_spec ray object with ⟨h, -⟩ | ⟨i, q, -, hq, -⟩
        · exact h
        · exfalso
          have : q ∈ GetAllRayIntersections ray scene := (hmem q).mpr (Or.inl ⟨object, hobj, hq⟩)
          rw [hall] at this
          exact List.not_mem_nil _ this
      · cases hx : GetIntersectionSphere ray object.sphere with
        | none => rfl
        | some i =>
          exfalso
          have : (⟨i, object.material⟩ : IPoint ℝ) ∈ GetAllRayIntersections ray scene :=
            (hmem _).mpr (Or.inr ⟨object, hobj, i, hx, rfl⟩)
          rw [hall] at this
          exact List.not_mem_nil _ this
    · rw [hsome]
      refine ⟨fun h => absurd h (by simp), ?_⟩
      rintro ⟨hobjs, hsph⟩
      exfalso
      rcases (hmem p).mp hp with ⟨object, hobj, hq⟩ | ⟨object, hobj, i, hi, -⟩
      · rcases GetMaybeIntersectionWithPolygon_spec ray object with ⟨-, h⟩ | ⟨i, q, hi, -⟩
        · rw [h] at hq
          exact absurd hq (by simp)
        · rw [hobjs object hobj] at hi
          exact absurd hi (by simp)
      · rw [hsph object hobj] at hi
        exact absurd hi (by simp)
  · intro p hp
    rcases GetClosestIntersectionPoint_spec ray scene with ⟨hnone, -⟩ | ⟨p2, hsome, hp2, hmin⟩
    · rw [hnone] at hp
      exact absurd hp (by simp)
    · rw [hsome, Option.some.injEq] at hp
      subst hp
      refine ⟨?_, ?_, ?_⟩
      · rcases (hmem p2).mp hp2 with ⟨object, hobj, hq⟩ | h
        · left
          rcases GetMaybeIntersectionWithPolygon_spec ray object with ⟨-, h⟩ | ⟨i, q, hi, hq2, h3⟩
          · rw [h] at hq
            exact absurd hq (by simp)
          · rw [hq2, Option.some.injEq] at hq
            subst hq
            exact ⟨object, hobj, i, hi, hq2, h3⟩
        · exact Or.inr h
      · intro object hobj i hi
        rcases GetMaybeIntersectionWithPolygon_spec ray object with ⟨h, -⟩ | ⟨i2, q, hi2, hq, -, -, hd⟩
        · rw [h] at hi
          exact absurd hi (by simp)
        · rw [hi2, Option.some.injEq] at hi
          subst hi
          rw [← hd]
          exact hmin q ((hmem q).mpr (Or.inl ⟨object, hobj, hq⟩))
      · intro object hobj i hi
        exact hmin ⟨i, object.material⟩ ((hmem _).mpr (Or.inr ⟨object, hobj, i, hi, rfl⟩))

/-! ## The tracer -/

/-- A call of `TraceRay` with depth `0` returns the zero vector at once. -/
theorem TraceRay_depth_zero (fuel : Nat) (ray : Ray ℝ) (scene : Scene ℝ) :
    TraceRay (fuel + 1) ray scene 0 = some 0 := by
  rw [TraceRay]
  cases GetClosestIntersectionPoint ray scene with
  | none => rfl
  | some p => simp

/-- A call of `TraceRay` for a ray that hits nothing returns the zero vector at once. -/
theorem TraceRay_no_hit (fuel : Nat) (ray : Ray ℝ) (scene : Scene ℝ) (depth : Int)
    (h : GetClosestIntersectionPoint ray scene = none) :
    TraceRay (fuel + 1) ray scene depth = some 0 := by
  rw [TraceRay, h]

/-- C12: `TraceRay(ray, scene, 0)` returns the zero vector whether or not the ray hits, and
for every depth `TraceRay` returns the zero vector when the ray hits no primitive.  Both
results are returned by the first call (`fuel + 1` allows one call or more). -/
theorem TraceRay_terminal (fuel : Nat) (ray : Ray ℝ) (scene : Scene ℝ) :
    TraceRay (fuel + 1) ray scene 0 = some ⟨0, 0, 0⟩
    ∧ ∀ depth : Int, GetClosestIntersectionPoint ray scene = none →
        TraceRay (fuel + 1) ray scene depth = some ⟨0, 0, 0⟩ :=
  ⟨TraceRay_depth_zero fuel ray scene, fun depth h => TraceRay_no_hit fuel ray scene depth h⟩

/-- C13: in a scene without lights, `TraceRay(ray, scene, 1)` is `ambient_color + intensity`
of the material of the nearest hit, whatever its albedo, and the zero vector when the ray
hits nothing.  Two nested calls (`fuel + 2` allows two or more) are enough for the
result to be returned. -/
theorem TraceRay_no_lights (fuel : Nat) (ray : Ray ℝ) (scene : Scene ℝ)
    (hlights : scene.lights_ = []) :
    (∀ p : IPoint ℝ, GetClosestIntersectionPoint ray scene = some p →
        TraceRay (fuel + 2) ray scene 1
          = some (p.material_.ambient_color + p.material_.intensity))
    ∧ (GetClosestIntersectionPoint ray scene = none →
        TraceRay (fuel + 2) ray scene 1 = some ⟨0, 0, 0⟩) := by
  refine ⟨?_, fun h => TraceRay_no_hit (fuel + 1) ray scene 1 h⟩
  intro p hp
  rw [TraceRay, hp]
  simp only [one_ne_zero, if_false, Scene.GetLights, hlights, List.foldl_nil, sub_self,
    TraceRay_depth_zero, Option.map_some']
  generalize TraceRayCoefficients ray scene p.material_ = coefficients
  have hreflected :
      (if coefficients.1 ≠ 0 then
        some ((⟨0, 0, 0⟩ : Vector ℝ) * p.material_.albedo.X
          + (p.material_.ambient_color + p.material_.intensity) + (0 : Vector ℝ) * coefficients.1)
      else
        some ((⟨0, 0, 0⟩ : Vector ℝ) * p.material_.albedo.X
          + (p.material_.ambient_color + p.material_.intensity)))
      = some (p.material_.ambient_color + p.material_.intensity) := by
    split_ifs <;> (congr 1; ext <;> simp)
  rw [hreflected]
  simp only
  cases Refract ray.GetDirection p.intersection_.GetNormal coefficients.2.2 with
  | none => rfl
  | some refraction =>
    simp only
    split_ifs
    · congr 1
      ext <;> simp
    · rfl

/-! ## Quantization -/

/-- The truncation of a value in `(-1, 255]`, as `(value - kEpsilon) * 255` is for a channel in
`[0, 1]`, is an integer from `0` to `255`. -/
theorem static_cast_int_range (x : ℝ) (hlo : -1 < x) (hhi : x ≤ 255) :
    0 ≤ static_cast_int x ∧ static_cast_int x ≤ 255 := by
  unfold static_cast_int
  split_ifs with h
  · refine ⟨Int.floor_nonneg.mpr h, ?_⟩
    have : (⌊x⌋ : ℝ) ≤ 255 := le_trans (Int.floor_le x) hhi
    exact_mod_cast this
  · push_neg at h
    refine ⟨?_, ?_⟩
    · have h1 : ((-1 : Int) : ℝ) < x := by exact_mod_cast hlo
      have := Int.lt_ceil.mpr h1
      omega
    · have : ⌈x⌉ ≤ 0 := Int.ceil_le.mpr (by exact_mod_cast h.le)
      omega

/-- C17: for a colour with channels in `[0, 1]`, each channel of `RGBCast` is
`(value - 1e-9) * 255` truncated toward zero (the floor of a non-negative number, the
ceiling of a negative one) and lies in `0..255`. -/
theorem RGBCast_range (color : Vector ℝ)
    (hX : 0 ≤ color.X ∧ color.X ≤ 1) (hY : 0 ≤ color.Y ∧ color.Y ≤ 1)
    (hZ : 0 ≤ color.Z ∧ color.Z ≤ 1) :
    ((RGBCast color).r = (if 0 ≤ (color.X - 1e-9) * 255 then ⌊(color.X - 1e-9) * 255⌋
        else ⌈(color.X - 1e-9) * 255⌉)
      ∧ 0 ≤ (RGBCast color).r ∧ (RGBCast color).r ≤ 255)
    ∧ ((RGBCast color).g = (if 0 ≤ (color.Y - 1e-9) * 255 then ⌊(color.Y - 1e-9) * 255⌋
        else ⌈(color.Y - 1e-9) * 255⌉)
      ∧ 0 ≤ (RGBCast color).g ∧ (RGBCast color).g ≤ 255)
    ∧ ((RGBCast color).b = (if 0 ≤ (color.Z - 1e-9) * 255 then ⌊(color.Z - 1e-9) * 255⌋
        else ⌈(color.Z - 1e-9) * 255⌉)
      ∧ 0 ≤ (RGBCast color).b ∧ (RGBCast color).b ≤ 255) := by
  have hk := kEpsilon_eq
  have hpos := kEpsilon_pos
  have hsmall : (kEpsilon : ℝ) * 255 < 1 := by
    unfold kEpsilon
    norm_num
  have key : ∀ v : ℝ, 0 ≤ v → v ≤ 1 →
      static_cast_int ((v - kEpsilon) * 255)
          = (if 0 ≤ (v - 1e-9) * 255 then ⌊(v - 1e-9) * 255⌋ else ⌈(v - 1e-9) * 255⌉)
      ∧ 0 ≤ static_cast_int ((v - kEpsilon) * 255)
      ∧ static_cast_int ((v - kEpsilon) * 255) ≤ 255 := by
    intro v h0 h1
    refine ⟨?_, static_cast_int_range _ (by nlinarith) (by nlinarith)⟩
    rw [← hk]
    rfl
  exact ⟨key _ hX.1 hX.2, key _ hY.1 hY.2, key _ hZ.1 hZ.2⟩

/-! ## The pixel loops -/

/-- The loop rule of the pixel loop nest: a property `Inv i j` of the state before the
iteration `(i, j)` that the body carries to `(i, j + 1)` and that passes from the end of
a column to the start of the next holds at the end. -/
theorem PixelLoop_inv {σ : Type} (w h : Int) (body : Nat → Nat → σ → σ) (init : σ)
    (Inv : Nat → Nat → σ → Prop) (h0 : Inv 0 0 init)
    (hstep : ∀ i j st, i < w.toNat → j < h.toNat → Inv i j st → Inv i (j + 1) (body i j st))
    (hcol : ∀ i st, i < w.toNat → Inv i h.toNat st → Inv (i + 1) 0 st) :
    Inv w.toNat 0 (PixelLoop w h body init) := by
  unfold PixelLoop
  generalize w.toNat = W at *
  generalize h.toNat = H at *
  have inner : ∀ i st, i < W → Inv i 0 st → ∀ m, m ≤ H →
      Inv i m ((List.range m).foldl (fun state j => body i j state) st) := by
    intro i st hi hst m
    induction m with
    | zero => intro _; simpa using hst
    | succ m ih =>
      intro hm
      rw [List.range_succ, List.foldl_append]
      exact hstep i m _ hi (by omega) (ih (by omega))
  have outer : ∀ n, n ≤ W →
      Inv n 0 ((List.range n).foldl
        (fun state i => (List.range H).foldl (fun state j => body i j state) state) init) := by
    intro n
    induction n with
    | zero => intro _; simpa using h0
    | succ n ih =>
      intro hn
      rw [List.range_succ, List.foldl_append]
      exact hcol n _ (by omega) (inner n _ (by omega) (ih (by omega)) H le_rfl)
  exact outer W le_rfl

/-- A pixel loop that rewrites every pixel from its own value rewrites exactly the pixels
of the `screen_width` by `screen_height` window. -/
theorem PixelLoop_set (w h : Int) (g : Nat → Nat → Vector ℝ → Vector ℝ)
    (image_pixels : ImagePixels ℝ) (a b : Nat) :
    PixelLoop w h (fun i j pixels => pixels.set i j (g i j (pixels i j))) image_pixels a b
      = if a < w.toNat ∧ b < h.toNat then g a b (image_pixels a b) else image_pixels a b := by
  have key := PixelLoop_inv w h
    (fun i j (pixels : ImagePixels ℝ) => pixels.set i j (g i j (pixels i j))) image_pixels
    (fun i j pixels => ∀ a b, pixels a b
      = if (a < i ∧ b < h.toNat) ∨ (a = i ∧ b < j) then g a b (image_pixels a b)
        else image_pixels a b)
    (by intro a b; simp)
    (by
      intro i j st hi hj hst a b
      simp only [ImagePixels.set]
      by_cases hab : a = i ∧ b = j
      · obtain ⟨rfl, rfl⟩ := hab
        rw [if_pos ⟨rfl, rfl⟩, hst a b, if_neg (by omega), if_pos (by omega)]
      · rw [if_neg hab, hst a b]
        by_cases hv : (a < i ∧ b < h.toNat) ∨ (a = i ∧ b < j)
        · rw [if_pos hv, if_pos (by omega)]
        · rw [if_neg hv, if_neg (by omega)])
    (by
      intro i st hi hst a b
      rw [hst a b]
      by_cases hv : (a < i ∧ b < h.toNat) ∨ (a = i ∧ b < h.toNat)
      · rw [if_pos hv, if_pos (by omega)]
      · rw [if_neg hv, if_neg (by omega)])
  have := key a b
  rw [this]
  by_cases hv : a < w.toNat ∧ b < h.toNat
  · rw [if_pos hv, if_pos (Or.inl hv)]
  · rw [if_neg hv, if_neg (by omega)]

/-! ## Tone mapping -/

/-- The first pass of `BuildTone` computes the greatest absolute channel value of the
window, or `0` for an empty window. -/
theorem BuildToneTotal_spec (image_pixels : ImagePixels ℝ) (w h : Int) :
    0 ≤ BuildToneTotal image_pixels w h
    ∧ (∀ a b, a < w.toNat → b < h.toNat →
        abs (image_pixels a b).X ≤ BuildToneTotal image_pixels w h
        ∧ abs (image_pixels a b).Y ≤ BuildToneTotal image_pixels w h
        ∧ abs (image_pixels a b).Z ≤ BuildToneTotal image_pixels w h)
    ∧ (BuildToneTotal image_pixels w h = 0
        ∨ ∃ a b, a < w.toNat ∧ b < h.toNat
            ∧ (BuildToneTotal image_pixels w h = abs (image_pixels a b).X
              ∨ BuildToneTotal image_pixels w h = abs (image_pixels a b).Y
              ∨ BuildToneTotal image_pixels w h = abs (image_pixels a b).Z)) := by
  unfold BuildToneTotal
  have key := PixelLoop_inv w h
    (fun i j (total : ℝ) =>
      max (max (max total (abs (image_pixels i j).X)) (abs (image_pixels i j).Y))
        (abs (image_pixels i j).Z)) 0
    (fun i j total => 0 ≤ total
      ∧ (∀ a b, (a < i ∧ b < h.toNat) ∨ (a = i ∧ b < j) →
          abs (image_pixels a b).X ≤ total ∧ abs (image_pixels a b).Y ≤ total
          ∧ abs (image_pixels a b).Z ≤ total)
      ∧ (total = 0 ∨ ∃ a b, a < w.toNat ∧ b < h.toNat
            ∧ (total = abs (image_pixels a b).X ∨ total = abs (image_pixels a b).Y
              ∨ total = abs (image_pixels a b).Z)))
    ⟨le_rfl, fun a b hab => by omega, Or.inl rfl⟩
    (by
      rintro i j t hi hj ⟨ht0, hbound, hatt⟩
      have h1 : t ≤ max t (abs (image_pixels i j).X) := le_max_left _ _
      have h2 : abs (image_pixels i j).X ≤ max t (abs (image_pixels i j).X) := le_max_right _ _
      have h3 : max t (abs (image_pixels i j).X)
          ≤ max (max t (abs (image_pixels i j).X)) (abs (image_pixels i j).Y) := le_max_left _ _
      have h4 : abs (image_pixels i j).Y
          ≤ max (max t (abs (image_pixels i j).X)) (abs (image_pixels i j).Y) := le_max_right _ _
      have h5 : max (max t (abs (image_pixels i j).X)) (abs (image_pixels i j).Y)
          ≤ max (max (max t (abs (image_pixels i j).X)) (abs (image_pixels i j).Y))
              (abs (image_pixels i j).Z) := le_max_left _ _
      have h6 : abs (image_pixels i j).Z
          ≤ max (max (max t (abs (image_pixels i j).X)) (abs (image_pixels i j).Y))
              (abs (image_pixels i j).Z) := le_max_right _ _
      beta_reduce
      refine ⟨by linarith, ?_, ?_⟩
      · intro a b hab
        by_cases hnew : a = i ∧ b = j
        · obtain ⟨rfl, rfl⟩ := hnew
          exact ⟨by linarith, by linarith, h6⟩
        · obtain ⟨hx, hy, hz⟩ := hbound a b (by omega)
          exact ⟨by linarith, by linarith, by linarith⟩
      · rcases max_choice (max (max t (abs (image_pixels i j).X)) (abs (image_pixels i j).Y))
            (abs (image_pixels i j).Z) with e3 | e3
        · rcases max_choice (max t (abs (image_pixels i j).X)) (abs (image_pixels i j).Y)
              with e2 | e2
          · rcases max_choice t (abs (image_pixels i j).X) with e1 | e1
            · rw [e3, e2, e1]
              exact hatt
            · rw [e3, e2, e1]
              exact Or.inr ⟨i, j, hi, hj, Or.inl rfl⟩
          · rw [e3, e2]
            exact Or.inr ⟨i, j, hi, hj, Or.inr (Or.inl rfl)⟩
        · rw [e3]
          exact Or.inr ⟨i, j, hi, hj, Or.inr (Or.inr rfl)⟩)
    (by
      rintro i t hi ⟨ht0, hbound, hatt⟩
      exact ⟨ht0, fun a b hab => hbound a b (by omega), hatt⟩)
  obtain ⟨k0, kbound, katt⟩ := key
  exact ⟨k0, fun a b ha hb => kbound a b (Or.inl ⟨ha, hb⟩), katt⟩

/-- The second pass of `BuildTone` applies the channel curve, with the total of the
first pass, to every pixel of the window. -/
theorem BuildTone_eq (image_pixels : ImagePixels ℝ) (w h : Int) (a b : Nat)
    (ha : a < w.toNat) (hb : b < h.toNat) :
    BuildTone image_pixels w h a b
      = ⟨BuildToneChannel (BuildToneTotal image_pixels w h) (image_pixels a b).X,
         BuildToneChannel (BuildToneTotal image_pixels w h) (image_pixels a b).Y,
         BuildToneChannel (BuildToneTotal image_pixels w h) (image_pixels a b).Z⟩ := by
  unfold BuildTone
  have h := PixelLoop_set w h
    (fun _ _ v => ⟨BuildToneChannel (BuildToneTotal image_pixels w h) v.X,
      BuildToneChannel (BuildToneTotal image_pixels w h) v.Y,
      BuildToneChannel (BuildToneTotal image_pixels w h) v.Z⟩) image_pixels a b
  rw [if_pos ⟨ha, hb⟩] at h
  exact h

/-- Over the reals the channel body of `BuildTone` is the curve raised to `1 / 2.2`. -/
theorem BuildToneChannel_eq (total p : ℝ) :
    BuildToneChannel total p = (p * (p / total ^ 2 + 1) / (p + 1)) ^ ((1 : ℝ) / 2.2) := by
  unfold BuildToneChannel
  have hk : (kTone : ℝ) = 1 / 2.2 := by
    unfold kTone
    norm_num
  simp only [HasIsNan.isnan, Bool.false_eq_true, if_false, HasPow.pow, hk, pow_two]
  rfl

/-- The curve of `BuildTone` maps `[0, total]` into `[0, 1]` and `total` to `1`. -/
theorem tone_curve_bounds (total p : ℝ) (ht : 0 < total) (hp0 : 0 ≤ p) (hp : p ≤ total) :
    0 ≤ (p * (p / total ^ 2 + 1) / (p + 1)) ^ ((1 : ℝ) / 2.2)
    ∧ (p * (p / total ^ 2 + 1) / (p + 1)) ^ ((1 : ℝ) / 2.2) ≤ 1
    ∧ (p = total → (p * (p / total ^ 2 + 1) / (p + 1)) ^ ((1 : ℝ) / 2.2) = 1) := by
  have hp1 : 0 < p + 1 := by linarith
  have ht2 : 0 < total ^ 2 := by positivity
  have hbase0 : 0 ≤ p * (p / total ^ 2 + 1) / (p + 1) := by positivity
  have hfrac : p / total ^ 2 * p ≤ 1 := by
    rw [div_mul_eq_mul_div, div_le_one ht2]
    nlinarith
  have hbase1 : p * (p / total ^ 2 + 1) / (p + 1) ≤ 1 := by
    rw [div_le_one hp1]
    nlinarith
  refine ⟨Real.rpow_nonneg hbase0 _, Real.rpow_le_one hbase0 hbase1 (by norm_num), ?_⟩
  intro heq
  have : p * (p / total ^ 2 + 1) / (p + 1) = 1 := by
    rw [heq]
    field_simp
    ring
  rw [this, Real.one_rpow]

/-- C15: for a buffer with non-negative channels whose greatest absolute channel value
`total` (the outcome of the first pass over the unmodified buffer) is positive,
`BuildTone` replaces every channel `p` of the window by
`(p * (p / total² + 1) / (p + 1)) ^ (1 / 2.2)`; every result lies in `[0, 1]` and a channel
equal to `total` becomes `1`. -/
theorem BuildTone_curve (image_pixels : ImagePixels ℝ) (screen_width screen_height : Int)
    (hnonneg : ∀ i j : Nat, (i : Int) < screen_width → (j : Int) < screen_height →
      0 ≤ (image_pixels i j).X ∧ 0 ≤ (image_pixels i j).Y ∧ 0 ≤ (image_pixels i j).Z)
    (hpos : 0 < BuildToneTotal image_pixels screen_width screen_height) :
    ((∀ i j : Nat, (i : Int) < screen_width → (j : Int) < screen_height →
        abs (image_pixels i j).X ≤ BuildToneTotal image_pixels screen_width screen_height
        ∧ abs (image_pixels i j).Y ≤ BuildToneTotal image_pixels screen_width screen_height
        ∧ abs (image_pixels i j).Z ≤ BuildToneTotal image_pixels screen_width screen_height)
      ∧ ∃ i j : Nat, (i : Int) < screen_width ∧ (j : Int) < screen_height
          ∧ (BuildToneTotal image_pixels screen_width screen_height = abs (image_pixels i j).X
            ∨ BuildToneTotal image_pixels screen_width screen_height = abs (image_pixels i j).Y
            ∨ BuildToneTotal image_pixels screen_width screen_height
                = abs (image_pixels i j).Z))
    ∧ ∀ i j : Nat, (i : Int) < screen_width → (j : Int) < screen_height →
        BuildTone image_pixels screen_width screen_height i j
          = ⟨((image_pixels i j).X * ((image_pixels i j).X
                / BuildToneTotal image_pixels screen_width screen_height ^ 2 + 1)
                / ((image_pixels i j).X + 1)) ^ ((1 : ℝ) / 2.2),
             ((image_pixels i j).Y * ((image_pixels i j).Y
                / BuildToneTotal image_pixels screen_width screen_height ^ 2 + 1)
                / ((image_pixels i j).Y + 1)) ^ ((1 : ℝ) / 2.2),
             ((image_pixels i j).Z * ((image_pixels i j).Z
                / BuildToneTotal image_pixels screen_width screen_height ^ 2 + 1)
                / ((image_pixels i j).Z + 1)) ^ ((1 : ℝ) / 2.2)⟩
        ∧ (0 ≤ (BuildTone image_pixels screen_width screen_height i j).X
          ∧ (BuildTone image_pixels screen_width screen_height i j).X ≤ 1
          ∧ 0 ≤ (BuildTone image_pixels screen_width screen_height i j).Y
          ∧ (BuildTone image_pixels screen_width screen_height i j).Y ≤ 1
          ∧ 0 ≤ (BuildTone image_pixels screen_width screen_height i j).Z
          ∧ (BuildTone image_pixels screen_width screen_height i j).Z ≤ 1)
        ∧ ((image_pixels i j).X = BuildToneTotal image_pixels screen_width screen_height →
            (BuildTone image_pixels screen_width screen_height i j).X = 1)
        ∧ ((image_pixels i j).Y = BuildToneTotal image_pixels screen_width screen_height →
            (BuildTone image_pixels screen_width screen_height i j).Y = 1)
        ∧ ((image_pixels i j).Z = BuildToneTotal image_pixels screen_width screen_height →
            (BuildTone image_pixels screen_width screen_height i j).Z = 1) := by
  obtain ⟨-, hbound, hatt⟩ := BuildToneTotal_spec image_pixels screen_width screen_height
  refine ⟨⟨fun i j hi hj => hbound i j (Int.lt_toNat.mpr hi) (Int.lt_toNat.mpr hj), ?_⟩, ?_⟩
  · rcases hatt with h0 | ⟨a, b, ha, hb, h⟩
    · exact absurd h0 hpos.ne'
    · exact ⟨a, b, Int.lt_toNat.mp ha, Int.lt_toNat.mp hb, h⟩
  · intro i j hi hj
    obtain ⟨hx, hy, hz⟩ := hbound i j (Int.lt_toNat.mpr hi) (Int.lt_toNat.mpr hj)
    obtain ⟨nx, ny, nz⟩ := hnonneg i j hi hj
    rw [abs_of_nonneg nx] at hx
    rw [abs_of_nonneg ny] at hy
    rw [abs_of_nonneg nz] at hz
    have heq := BuildTone_eq image_pixels screen_width screen_height i j
      (Int.lt_toNat.mpr hi) (Int.lt_toNat.mpr hj)
    simp only [BuildToneChannel_eq] at heq
    obtain ⟨bx0, bx1, bxt⟩ := tone_curve_bounds _ _ hpos nx hx
    obtain ⟨by0, by1, byt⟩ := tone_curve_bounds _ _ hpos ny hy
    obtain ⟨bz0, bz1, bzt⟩ := tone_curve_bounds _ _ hpos nz hz
    rw [heq]
    exact ⟨rfl, ⟨bx0, bx1, by0, by1, bz0, bz1⟩, bxt, byt, bzt⟩

/-! ## The depth mode of the renderer -/

/-- The distance of a sphere hit is a length, whatever the ray. -/
theorem GetIntersectionSphere_distance_nonneg (ray : Ray ℝ) (sphere : Sphere ℝ)
    (i : Intersection ℝ) (h : GetIntersectionSphere ray sphere = some i) :
    0 ≤ i.distance_ := by
  unfold GetIntersectionSphere at h
  simp only [Intersection.construct] at h
  split_ifs at h <;>
    (rw [Option.some.injEq] at h
     rw [← h]
     exact Length_nonneg _)

/-- The distance of a triangle hit is a length. -/
theorem GetIntersectionTriangle_distance_nonneg (ray : Ray ℝ) (triangle : Triangle ℝ)
    (i : Intersection ℝ) (h : GetIntersectionTriangle ray triangle = some i) :
    0 ≤ i.distance_ := by
  rcases GetIntersectionTriangle_spec ray triangle with
    hnone | ⟨det, u, v, k, n, -, -, -, -, -, -, -, -, -, -, -, hsome⟩
  · rw [hnone] at h
    exact absurd h (by simp)
  · rw [hsome, Option.some.injEq] at h
    rw [← h]
    exact Length_nonneg _

/-- The distance of the hit the scene query returns is non-negative. -/
theorem GetClosestIntersectionPoint_distance_nonneg (ray : Ray ℝ) (scene : Scene ℝ)
    (p : IPoint ℝ) (h : GetClosestIntersectionPoint ray scene = some p) :
    0 ≤ p.intersection_.distance_ := by
  rcases GetClosestIntersectionPoint_spec ray scene with ⟨hnone, -⟩ | ⟨p2, hsome, hp2, -⟩
  · rw [hnone] at h
    exact absurd h (by simp)
  · rw [hsome, Option.some.injEq] at h
    subst h
    rcases (mem_GetAllRayIntersections ray scene p2).mp hp2 with
      ⟨object, -, hq⟩ | ⟨object, -, i, hi, hp⟩
    · rcases GetMaybeIntersectionWithPolygon_spec ray object with
        ⟨-, hn⟩ | ⟨i, q, hi, hq2, -, -, hd⟩
      · rw [hn] at hq
        exact absurd hq (by simp)
      · rw [hq2, Option.some.injEq] at hq
        subst hq
        rw [hd]
        exact GetIntersectionTriangle_distance_nonneg ray _ i hi
    · rw [hp]
      exact GetIntersectionSphere_distance_nonneg ray _ i hi

/-- The first part of the depth mode: every pixel of the window holds its hit distance,
or `kInfDistance` when its camera ray hits nothing, and `max_among_all_rays` is the
greatest hit distance of the window, or `0` when no camera ray hits. -/
theorem RenderDepthAccumulate_spec (scene : Scene ℝ) (camera_options : CameraOptions ℝ) :
    (∀ a b, a < camera_options.screen_width.toNat → b < camera_options.screen_height.toNat →
      (RenderDepthAccumulate scene camera_options).1 a b
        = (match GetClosestIntersectionPoint (CameraRay camera_options a b) scene with
            | some p => ⟨p.intersection_.distance_, p.intersection_.distance_,
                p.intersection_.distance_⟩
            | none => ⟨kInfDistance, kInfDistance, kInfDistance⟩))
    ∧ 0 ≤ (RenderDepthAccumulate scene camera_options).2
    ∧ (∀ a b, a < camera_options.screen_width.toNat → b < camera_options.screen_height.toNat →
        ∀ p, GetClosestIntersectionPoint (CameraRay camera_options a b) scene = some p →
          p.intersection_.distance_ ≤ (RenderDepthAccumulate scene camera_options).2)
    ∧ ((RenderDepthAccumulate scene camera_options).2 = 0
        ∨ ∃ a b, a < camera_options.screen_width.toNat
            ∧ b < camera_options.screen_height.toNat
            ∧ ∃ p, GetClosestIntersectionPoint (CameraRay camera_options a b) scene = some p
                ∧ p.intersection_.distance_ = (RenderDepthAccumulate scene camera_options).2) := by
  obtain ⟨Inv, hInv⟩ : ∃ Inv : Nat → Nat → ImagePixels ℝ × ℝ → Prop, Inv =
    (fun i j state =>
      (∀ a b, (a < i ∧ b < camera_options.screen_height.toNat) ∨ (a = i ∧ b < j) →
        state.1 a b
          = (match GetClosestIntersectionPoint (CameraRay camera_options a b) scene with
              | some p => ⟨p.intersection_.distance_, p.intersection_.distance_,
                  p.intersection_.distance_⟩
              | none => ⟨kInfDistance, kInfDistance, kInfDistance⟩))
      ∧ 0 ≤ state.2
      ∧ (∀ a b, (a < i ∧ b < camera_options.screen_height.toNat) ∨ (a = i ∧ b < j) →
          ∀ p, GetClosestIntersectionPoint (CameraRay camera_options a b) scene = some p →
            p.intersection_.distance_ ≤ state.2)
      ∧ (state.2 = 0
          ∨ ∃ a b, a < camera_options.screen_width.toNat
              ∧ b < camera_options.screen_height.toNat
              ∧ ∃ p, GetClosestIntersectionPoint (CameraRay camera_options a b) scene = some p
                  ∧ p.intersection_.distance_ = state.2)) := ⟨_, rfl⟩
  have key : Inv camera_options.screen_width.toNat 0
      (RenderDepthAccumulate scene camera_options) := by
    refine PixelLoop_inv _ _ _ _ Inv ?_ ?_ ?_
    · subst hInv
      exact ⟨fun a b hab => by omega, le_rfl, fun a b hab => by omega, Or.inl rfl⟩
    · subst hInv
      rintro i j ⟨img, mx⟩ hi hj ⟨hpix, hmx0, hbound, hatt⟩
      cases hhit : GetClosestIntersectionPoint (CameraRay camera_options i j) scene with
      | none =>
        simp only [hhit]
        refine ⟨?_, hmx0, ?_, hatt⟩
        · intro a b hab
          simp only [ImagePixels.set]
          by_cases hnew : a = i ∧ b = j
          · obtain ⟨rfl, rfl⟩ := hnew
            rw [if_pos ⟨rfl, rfl⟩, hhit]
          · rw [if_neg hnew]
            exact hpix a b (by omega)
        · intro a b hab p hp
          by_cases hnew : a = i ∧ b = j
          · obtain ⟨rfl, rfl⟩ := hnew
            rw [hhit] at hp
            exact absurd hp (by simp)
          · exact hbound a b (by omega) p hp
      | some q =>
        simp only [hhit, Intersection.GetDistance]
        refine ⟨?_, le_trans hmx0 (le_max_left _ _), ?_, ?_⟩
        · intro a b hab
          simp only [ImagePixels.set]
          by_cases hnew : a = i ∧ b = j
          · obtain ⟨rfl, rfl⟩ := hnew
            rw [if_pos ⟨rfl, rfl⟩, hhit]
          · rw [if_neg hnew]
            exact hpix a b (by omega)
        · intro a b hab p hp
          by_cases hnew : a = i ∧ b = j
          · obtain ⟨rfl, rfl⟩ := hnew
            rw [hhit, Option.some.injEq] at hp
            rw [← hp]
            exact le_max_right _ _
          · exact le_trans (hbound a b (by omega) p hp) (le_max_left _ _)
        · rcases max_choice mx q.intersection_.distance_ with e | e
          · rw [e]
            exact hatt
          · rw [e]
            exact Or.inr ⟨i, j, hi, hj, q, hhit, rfl⟩
    · subst hInv
      rintro i state hi ⟨hpix, hmx0, hbound, hatt⟩
      exact ⟨fun a b hab => hpix a b (by omega), hmx0,
        fun a b hab => hbound a b (by omega), hatt⟩
  subst hInv
  obtain ⟨kpix, k0, kbound, katt⟩ := key
  exact ⟨fun a b ha hb => kpix a b (Or.inl ⟨ha, hb⟩), k0,
    fun a b ha hb => kbound a b (Or.inl ⟨ha, hb⟩), katt⟩

/-- The second part of the depth mode: a pixel of the window that holds `kInfDistance`
becomes white and any other is divided by `max_among_all_rays`. -/
theorem RenderDepth_eq (scene : Scene ℝ) (camera_options : CameraOptions ℝ) (a b : Nat)
    (ha : a < camera_options.screen_width.toNat) (hb : b < camera_options.screen_height.toNat) :
    RenderDepth scene camera_options a b
      = if ((RenderDepthAccumulate scene camera_options).1 a b).X = kInfDistance then ⟨1, 1, 1⟩
        else (RenderDepthAccumulate scene camera_options).1 a b
          / (RenderDepthAccumulate scene camera_options).2 := by
  unfold RenderDepth
  have hbody : (fun (i j : Nat) (image_pixels : ImagePixels ℝ) =>
        if (image_pixels i j).X = kInfDistance then image_pixels.set i j ⟨1, 1, 1⟩
        else image_pixels.set i j
          (image_pixels i j / (RenderDepthAccumulate scene camera_options).2))
      = (fun (i j : Nat) (image_pixels : ImagePixels ℝ) =>
        image_pixels.set i j
          ((fun (_ _ : Nat) (v : Vector ℝ) => if v.X = kInfDistance then (⟨1, 1, 1⟩ : Vector ℝ)
            else v / (RenderDepthAccumulate scene camera_options).2) i j (image_pixels i j))) := by
    funext i j image_pixels
    beta_reduce
    split_ifs <;> rfl
  rw [hbody]
  have h := PixelLoop_set camera_options.screen_width camera_options.screen_height
    (fun (_ _ : Nat) (v : Vector ℝ) => if v.X = kInfDistance then (⟨1, 1, 1⟩ : Vector ℝ)
      else v / (RenderDepthAccumulate scene camera_options).2)
    (RenderDepthAccumulate scene camera_options).1 a b
  rw [if_pos ⟨ha, hb⟩] at h
  exact h

/-- The value of a pixel of the depth render in terms of the hit of its camera ray. -/
theorem RenderDepth_cases (scene : Scene ℝ) (camera_options : CameraOptions ℝ)
    (a b : Nat) (ha : a < camera_options.screen_width.toNat)
    (hb : b < camera_options.screen_height.toNat) :
    (GetClosestIntersectionPoint (CameraRay camera_options a b) scene = none →
      RenderDepth scene camera_options a b = ⟨1, 1, 1⟩)
    ∧ (∀ p, GetClosestIntersectionPoint (CameraRay camera_options a b) scene = some p →
        p.intersection_.distance_ = kInfDistance →
        RenderDepth scene camera_options a b = ⟨1, 1, 1⟩)
    ∧ (∀ p, GetClosestIntersectionPoint (CameraRay camera_options a b) scene = some p →
        p.intersection_.distance_ ≠ kInfDistance →
        RenderDepth scene camera_options a b
          = ⟨p.intersection_.distance_ / (RenderDepthAccumulate scene camera_options).2,
             p.intersection_.distance_ / (RenderDepthAccumulate scene camera_options).2,
             p.intersection_.distance_ / (RenderDepthAccumulate scene camera_options).2⟩) := by
  have hpix := (RenderDepthAccumulate_spec scene camera_options).1 a b ha hb
  have heq := RenderDepth_eq scene camera_options a b ha hb
  refine ⟨?_, ?_, ?_⟩
  · intro hnone
    rw [hnone] at hpix
    rw [heq, hpix, if_pos rfl]
  · intro p hp hd
    rw [hp] at hpix
    rw [heq, hpix, if_pos hd]
  · intro p hp hd
    rw [hp] at hpix
    rw [heq, hpix, if_neg hd]
    rfl

theorem sqrt_ten_pow_ten : √(10000000000 : ℝ) = 100000 := by
  rw [show (10000000000 : ℝ) = 100000 * 100000 by norm_num]
  exact Real.sqrt_mul_self (by norm_num)

theorem sqrt_four_ten_pow_ten : √(40000000000 : ℝ) = 200000 := by
  rw [show (40000000000 : ℝ) = 200000 * 200000 by norm_num]
  exact Real.sqrt_mul_self (by norm_num)

theorem sqrt_eightyone : √(81 : ℝ) = 9 := by
  rw [show (81 : ℝ) = 9 * 9 by norm_num]
  exact Real.sqrt_mul_self (by norm_num)

/-- The field of view `2 * arctan (3/2)` of the sample camera gives the scale `3/2`. -/
theorem depthSample_tan : HasTan.tan (2 * Real.arctan (3 / 2) / 2) = (3 / 2 : ℝ) := by
  rw [mul_div_cancel_left₀ _ (two_ne_zero)]
  exact Real.tan_arctan _

/-- The camera ray of the pixel `(0, 0)` of the sample camera. -/
theorem depthSample_ray_zero :
    CameraRay (depthSampleCamera (2 * Real.arctan (3 / 2))) 0 0
      = (⟨⟨0, 0, 0⟩, ⟨0, 3 / 5, -4 / 5⟩⟩ : Ray ℝ) := by
  simp only [CameraRay, CameraForward, CameraRight, CameraUp, depthSampleCamera,
    depthSample_tan]
  norm_num [Normalize, Vector.Normalize, Vector.IsZero, Vector.NotZero, CrossProduct, Length,
    sqrt_real, sqrt_twentyfive, sqrt_sixteen]

/-- The camera ray of the pixel `(0, 1)` of the sample camera. -/
theorem depthSample_ray_one :
    CameraRay (depthSampleCamera (2 * Real.arctan (3 / 2))) 0 1
      = (⟨⟨0, 0, 0⟩, ⟨0, -3 / 5, -4 / 5⟩⟩ : Ray ℝ) := by
  simp only [CameraRay, CameraForward, CameraRight, CameraUp, depthSampleCamera,
    depthSample_tan]
  norm_num [Normalize, Vector.Normalize, Vector.IsZero, Vector.NotZero, CrossProduct, Length,
    sqrt_real, sqrt_twentyfive, sqrt_sixteen]

/-- The equality test against `Vector()`. -/
theorem Vector.operatorEq_zero (v : Vector ℝ) : v.operatorEq 0 = true ↔ v = 0 := by
  unfold Vector.operatorEq
  rw [decide_eq_true_iff, Vector.eq_zero_iff]
  rfl

/-- A triangle object one of whose vertex normals is `Vector()` keeps the hit of the
triangle test, normal included. -/
theorem GetMaybeIntersectionWithPolygon_flat (ray : Ray ℝ) (object : Object ℝ)
    (h : object.normals.1 = 0 ∨ object.normals.2.1 = 0 ∨ object.normals.2.2 = 0) :
    GetMaybeIntersectionWithPolygon ray object
      = (GetIntersectionTriangle ray object.polygon).map
          (fun i => (⟨i, object.material⟩ : IPoint ℝ)) := by
  unfold GetMaybeIntersectionWithPolygon
  cases GetIntersectionTriangle ray object.polygon with
  | none => rfl
  | some i =>
    have hc : (object.normals.1.operatorEq 0 || object.normals.2.1.operatorEq 0
        || object.normals.2.2.operatorEq 0) = true := by
      simp only [Bool.or_eq_true, Vector.operatorEq_zero]
      tauto
    simp only [hc, if_true, Option.map_some']

/-- The first sample ray hits the first sample triangle at distance `100000`. -/
theorem depthSample_zero_first :
    GetIntersectionTriangle (⟨⟨0, 0, 0⟩, ⟨0, 3 / 5, -4 / 5⟩⟩ : Ray ℝ)
        ⟨⟨-1, 59999, -80000⟩, ⟨2, 59999, -80000⟩, ⟨-1, 60002, -80000⟩⟩
      = some ⟨⟨0, 60000, -80000⟩, ⟨0, 0, 1⟩, 100000⟩ := by
  norm_num [GetIntersectionTriangle, Intersection.construct, Normalize, Vector.Normalize,
    Length, DotProduct, CrossProduct, sqrt_real, kEpsilon, sqrt_ten_pow_ten, sqrt_eightyone,
    abs_lt]

/-- The first sample ray misses the second sample triangle. -/
theorem depthSample_zero_second :
    GetIntersectionTriangle (⟨⟨0, 0, 0⟩, ⟨0, 3 / 5, -4 / 5⟩⟩ : Ray ℝ)
        ⟨⟨-1, -120001, -160000⟩, ⟨2, -120001, -160000⟩, ⟨-1, -119998, -160000⟩⟩
      = none := by
  norm_num [GetIntersectionTriangle, Intersection.construct, Normalize, Vector.Normalize,
    Length, DotProduct, CrossProduct, sqrt_real, kEpsilon, abs_lt]

/-- The second sample ray misses the first sample triangle. -/
theorem depthSample_one_first :
    GetIntersectionTriangle (⟨⟨0, 0, 0⟩, ⟨0, -3 / 5, -4 / 5⟩⟩ : Ray ℝ)
        ⟨⟨-1, 59999, -80000⟩, ⟨2, 59999, -80000⟩, ⟨-1, 60002, -80000⟩⟩
      = none := by
  norm_num [GetIntersectionTriangle, Intersection.construct, Normalize, Vector.Normalize,
    Length, DotProduct, CrossProduct, sqrt_real, kEpsilon, abs_lt]

/-- The second sample ray hits the second sample triangle at distance `200000`. -/
theorem depthSample_one_second :
    GetIntersectionTriangle (⟨⟨0, 0, 0⟩, ⟨0, -3 / 5, -4 / 5⟩⟩ : Ray ℝ)
        ⟨⟨-1, -120001, -160000⟩, ⟨2, -120001, -160000⟩, ⟨-1, -119998, -160000⟩⟩
      = some ⟨⟨0, -120000, -160000⟩, ⟨0, 0, 1⟩, 200000⟩ := by
  norm_num [GetIntersectionTriangle, Intersection.construct, Normalize, Vector.Normalize,
    Length, DotProduct, CrossProduct, sqrt_real, kEpsilon, sqrt_four_ten_pow_ten,
    sqrt_eightyone, abs_lt]

/-- The scene query of the first sample ray on the sample depth scene. -/
theorem depthSample_hit_zero :
    GetClosestIntersectionPoint (⟨⟨0, 0, 0⟩, ⟨0, 3 / 5, -4 / 5⟩⟩ : Ray ℝ) depthSampleScene
      = some ⟨⟨⟨0, 60000, -80000⟩, ⟨0, 0, 1⟩, 100000⟩, defaultMaterial⟩ := by
  unfold GetClosestIntersectionPoint
  rw [GetAllRayIntersections_eq]
  simp only [depthSampleScene, List.filterMap_cons, List.filterMap_nil, List.append_nil]
  rw [GetMaybeIntersectionWithPolygon_flat _ _ (Or.inl rfl),
    GetMaybeIntersectionWithPolygon_flat _ _ (Or.inl rfl)]
  simp only [depthSample_zero_first, depthSample_zero_second, Option.map_some', Option.map_none']
  rfl

/-- The scene query of the second sample ray on the sample depth scene. -/
theorem depthSample_hit_one :
    GetClosestIntersectionPoint (⟨⟨0, 0, 0⟩, ⟨0, -3 / 5, -4 / 5⟩⟩ : Ray ℝ) depthSampleScene
      = some ⟨⟨⟨0, -120000, -160000⟩, ⟨0, 0, 1⟩, 200000⟩, defaultMaterial⟩ := by
  unfold GetClosestIntersectionPoint
  rw [GetAllRayIntersections_eq]
  simp only [depthSampleScene, List.filterMap_cons, List.filterMap_nil, List.append_nil]
  rw [GetMaybeIntersectionWithPolygon_flat _ _ (Or.inl rfl),
    GetMaybeIntersectionWithPolygon_flat _ _ (Or.inl rfl)]
  simp only [depthSample_one_first, depthSample_one_second, Option.map_some', Option.map_none']
  rfl

/-- The constant `kInfDistance` is `1e5`. -/
theorem kInfDistance_eq : (kInfDistance : ℝ) = 100000 := rfl

/-- The depth render pixel by pixel: `D = max_among_all_rays` is the greatest hit distance
over the pixels of the image (or `0` when no camera ray hits).  A pixel whose camera ray
hits nothing is white `(1, 1, 1)`, and so is a pixel whose ray hits at the distance
`100000` that `kInfDistance` reserves for "no hit"; a pixel whose ray hits at another
distance `d` is `(d/D, d/D, d/D)`.  When `D > 0` every pixel lies in `[0, 1]` and a pixel
whose hit distance is `D` is `(1, 1, 1)`. -/
theorem RenderDepth_pixel (scene : Scene ℝ) (camera_options : CameraOptions ℝ) (i j : Nat)
    (hi : (i : Int) < camera_options.screen_width)
    (hj : (j : Int) < camera_options.screen_height) :
    ((∀ a b : Nat, (a : Int) < camera_options.screen_width →
          (b : Int) < camera_options.screen_height →
          ∀ p, GetClosestIntersectionPoint (CameraRay camera_options a b) scene = some p →
            p.intersection_.distance_ ≤ (RenderDepthAccumulate scene camera_options).2)
      ∧ ((RenderDepthAccumulate scene camera_options).2 = 0
          ∨ ∃ a b : Nat, (a : Int) < camera_options.screen_width
              ∧ (b : Int) < camera_options.screen_height
              ∧ ∃ p, GetClosestIntersectionPoint (CameraRay camera_options a b) scene = some p
                  ∧ p.intersection_.distance_ = (RenderDepthAccumulate scene camera_options).2))
    ∧ (GetClosestIntersectionPoint (CameraRay camera_options i j) scene = none →
        RenderDepth scene camera_options i j = ⟨1, 1, 1⟩)
    ∧ (∀ p, GetClosestIntersectionPoint (CameraRay camera_options i j) scene = some p →
        p.intersection_.distance_ ≠ 100000 →
        RenderDepth scene camera_options i j
          = ⟨p.intersection_.distance_ / (RenderDepthAccumulate scene camera_options).2,
             p.intersection_.distance_ / (RenderDepthAccumulate scene camera_options).2,
             p.intersection_.distance_ / (RenderDepthAccumulate scene camera_options).2⟩)
    ∧ (∀ p, GetClosestIntersectionPoint (CameraRay camera_options i j) scene = some p →
        p.intersection_.distance_ = 100000 →
        RenderDepth scene camera_options i j = ⟨1, 1, 1⟩)
    ∧ (0 < (RenderDepthAccumulate scene camera_options).2 →
        (0 ≤ (RenderDepth scene camera_options i j).X
          ∧ (RenderDepth scene camera_options i j).X ≤ 1
          ∧ 0 ≤ (RenderDepth scene camera_options i j).Y
          ∧ (RenderDepth scene camera_options i j).Y ≤ 1
          ∧ 0 ≤ (RenderDepth scene camera_options i j).Z
          ∧ (RenderDepth scene camera_options i j).Z ≤ 1)
        ∧ ∀ p, GetClosestIntersectionPoint (CameraRay camera_options i j) scene = some p →
            p.intersection_.distance_ = (RenderDepthAccumulate scene camera_options).2 →
            RenderDepth scene camera_options i j = ⟨1, 1, 1⟩) := by
  obtain ⟨-, -, hbound, hatt⟩ := RenderDepthAccumulate_spec scene camera_options
  have ha := Int.lt_toNat.mpr hi
  have hb := Int.lt_toNat.mpr hj
  obtain ⟨cnone, cinf, cfin⟩ := RenderDepth_cases scene camera_options i j ha hb
  rw [kInfDistance_eq] at cinf cfin
  refine ⟨⟨fun a b ha2 hb2 => hbound a b (Int.lt_toNat.mpr ha2) (Int.lt_toNat.mpr hb2), ?_⟩,
    cnone, cfin, cinf, ?_⟩
  · rcases hatt with h0 | ⟨a, b, ha2, hb2, h⟩
    · exact Or.inl h0
    · exact Or.inr ⟨a, b, Int.lt_toNat.mp ha2, Int.lt_toNat.mp hb2, h⟩
  · intro hD
    have hwhite : ∀ v : Vector ℝ, v = ⟨1, 1, 1⟩ →
        0 ≤ v.X ∧ v.X ≤ 1 ∧ 0 ≤ v.Y ∧ v.Y ≤ 1 ∧ 0 ≤ v.Z ∧ v.Z ≤ 1 := by
      intro v hv
      rw [hv]
      norm_num
    refine ⟨?_, ?_⟩
    · cases hhit : GetClosestIntersectionPoint (CameraRay camera_options i j) scene with
      | none => exact hwhite _ (cnone hhit)
      | some p =>
        by_cases hd : p.intersection_.distance_ = 100000
        · exact hwhite _ (cinf p hhit hd)
        · rw [cfin p hhit hd]
          have h0 := GetClosestIntersectionPoint_distance_nonneg _ _ p hhit
          have h1 := hbound i j ha hb p hhit
          have hq0 : 0 ≤ p.intersection_.distance_ / (RenderDepthAccumulate scene camera_options).2 :=
            div_nonneg h0 hD.le
          have hq1 : p.intersection_.distance_ / (RenderDepthAccumulate scene camera_options).2 ≤ 1 :=
            (div_le_one hD).mpr h1
          exact ⟨hq0, hq1, hq0, hq1, hq0, hq1⟩
    · intro p hp hd
      by_cases hinf : p.intersection_.distance_ = 100000
      · exact cinf p hp hinf
      · rw [cfin p hp hinf, hd, div_self hD.ne']

theorem sqrt_nine : √(9 : ℝ) = 3 := by
  rw [show (9 : ℝ) = 3 * 3 by norm_num]
  exact Real.sqrt_mul_self (by norm_num)

/-- The sample ray from `(0.2, 0.2, 5)` hits the sample triangle at `(0.2, 0.2, 0)`. -/
theorem triangleSample_hit :
    GetIntersectionTriangle (⟨⟨0.2, 0.2, 5⟩, ⟨0, 0, -1⟩⟩ : Ray ℝ)
        ⟨⟨0, 0, 0⟩, ⟨1, 0, 0⟩, ⟨0, 1, 0⟩⟩
      = some ⟨⟨0.2, 0.2, 0⟩, ⟨0, 0, 1⟩, 5⟩ := by
  norm_num [GetIntersectionTriangle, Intersection.construct, Normalize, Vector.Normalize,
    Length, DotProduct, CrossProduct, sqrt_real, kEpsilon, sqrt_twentyfive]

/-- The barycentric coordinates of `(0.2, 0.2, 0)` in the sample triangle. -/
theorem blendSample_coords :
    GetBarycentricCoords (⟨⟨0, 0, 0⟩, ⟨1, 0, 0⟩, ⟨0, 1, 0⟩⟩ : Triangle ℝ) ⟨0.2, 0.2, 0⟩
      = ⟨0.6, 0.2, 0.2⟩ := by
  norm_num [GetBarycentricCoords, Triangle.Area, Length, CrossProduct, sqrt_real, sqrt_nine,
    sqrt_twentyfive]

theorem Vector.zero_X : (0 : Vector ℝ).X = 0 := rfl

theorem Vector.zero_Y : (0 : Vector ℝ).Y = 0 := rfl

theorem Vector.zero_Z : (0 : Vector ℝ).Z = 0 := rfl

/-- C18 fails on a triangle object with vertex normals: for the unit-direction ray from
`(0.2, 0.2, 5)` along `(0, 0, -1)` and the sample object with the unit vertex normals
`(1,0,0)`, `(0,1,0)`, `(0,0,1)`, `GetMaybeIntersectionWithPolygon` and the scene query
return the normal `(0.6, 0.2, 0.2)`, whose length is not one. -/
theorem GetMaybeIntersectionWithPolygon_blend_not_unit :
    Length (⟨0, 0, -1⟩ : Vector ℝ) = 1
    ∧ GetMaybeIntersectionWithPolygon (⟨⟨0.2, 0.2, 5⟩, ⟨0, 0, -1⟩⟩ : Ray ℝ) blendSampleObject
        = some ⟨⟨⟨0.2, 0.2, 0⟩, ⟨0.6, 0.2, 0.2⟩, 5⟩, defaultMaterial⟩
    ∧ GetClosestIntersectionPoint (⟨⟨0.2, 0.2, 5⟩, ⟨0, 0, -1⟩⟩ : Ray ℝ)
          ⟨[blendSampleObject], [], [], []⟩
        = some ⟨⟨⟨0.2, 0.2, 0⟩, ⟨0.6, 0.2, 0.2⟩, 5⟩, defaultMaterial⟩
    ∧ Length (⟨0.6, 0.2, 0.2⟩ : Vector ℝ) ≠ 1 := by
  have hblend : GetMaybeIntersectionWithPolygon (⟨⟨0.2, 0.2, 5⟩, ⟨0, 0, -1⟩⟩ : Ray ℝ)
      blendSampleObject = some ⟨⟨⟨0.2, 0.2, 0⟩, ⟨0.6, 0.2, 0.2⟩, 5⟩, defaultMaterial⟩ := by
    unfold GetMaybeIntersectionWithPolygon
    simp only [blendSampleObject, triangleSample_hit, Intersection.GetPosition,
      blendSample_coords]
    norm_num [Vector.operatorEq, Intersection.SetNormal, Vector.zero_X, Vector.zero_Y,
      Vector.zero_Z]
  refine ⟨by norm_num [Length, sqrt_real], hblend, ?_, ?_⟩
  · unfold GetClosestIntersectionPoint
    rw [GetAllRayIntersections_eq]
    simp only [List.filterMap_cons, List.filterMap_nil, List.append_nil, hblend]
    rfl
  · intro h
    rw [Length_eq_iff _ zero_le_one, DotProduct_def] at h
    norm_num at h

/-- The greatest hit distance of the sample depth render is `200000`. -/
theorem depthSample_max :
    (RenderDepthAccumulate (depthSampleScene : Scene ℝ)
      (depthSampleCamera (2 * Real.arctan (3 / 2)))).2 = 200000 := by
  obtain ⟨-, -, hbound, hatt⟩ := RenderDepthAccumulate_spec (depthSampleScene : Scene ℝ)
    (depthSampleCamera (2 * Real.arctan (3 / 2)))
  have h0 : GetClosestIntersectionPoint
      (CameraRay (depthSampleCamera (2 * Real.arctan (3 / 2))) 0 0) (depthSampleScene : Scene ℝ)
      = some ⟨⟨⟨0, 60000, -80000⟩, ⟨0, 0, 1⟩, 100000⟩, defaultMaterial⟩ := by
    rw [depthSample_ray_zero]
    exact depthSample_hit_zero
  have h1 : GetClosestIntersectionPoint
      (CameraRay (depthSampleCamera (2 * Real.arctan (3 / 2))) 0 1) (depthSampleScene : Scene ℝ)
      = some ⟨⟨⟨0, -120000, -160000⟩, ⟨0, 0, 1⟩, 200000⟩, defaultMaterial⟩ := by
    rw [depthSample_ray_one]
    exact depthSample_hit_one
  have hge := hbound 0 1 (by decide) (by decide) _ h1
  simp only at hge
  rcases hatt with hz | ⟨a, b, ha, hb, p, hp, hd⟩
  · rw [hz] at hge
    norm_num at hge
  · have ha0 : a = 0 := by
      have : a < 1 := ha
      omega
    have hb2 : b < 2 := hb
    subst ha0
    rcases Nat.lt_succ_iff_lt_or_eq.mp hb2 with hb1 | rfl
    · have hb0 : b = 0 := by omega
      subst hb0
      rw [h0, Option.some.injEq] at hp
      rw [← hp] at hd
      simp only at hd
      rw [← hd] at hge
      norm_num at hge
    · rw [h1, Option.some.injEq] at hp
      rw [← hp] at hd
      exact hd.symm

/-- The scene query for the camera ray of the pixel `(0, 1)` of the sample depth render. -/
theorem depthSample_closest_one :
    GetClosestIntersectionPoint
        (CameraRay (depthSampleCamera (2 * Real.arctan (3 / 2))) 0 1) (depthSampleScene : Scene ℝ)
      = some ⟨⟨⟨0, -120000, -160000⟩, ⟨0, 0, 1⟩, 200000⟩, defaultMaterial⟩ := by
  rw [depthSample_ray_one]
  exact depthSample_hit_one

/-- The empty scene is hit by no ray. -/
theorem emptyScene_no_hit (ray : Ray ℝ) :
    GetClosestIntersectionPoint ray (⟨[], [], [], []⟩ : Scene ℝ) = none := rfl

/-- The first pass of `BuildTone` on the one-pixel buffer `(2, 1, 0)`. -/
theorem toneSample_total : BuildToneTotal (fun _ _ => (⟨2, 1, 0⟩ : Vector ℝ)) 1 1 = 2 := by
  norm_num [BuildToneTotal, PixelLoop, List.range_succ]

/-! ## The claims of the scene query, tracer and renderer at concrete inputs -/

/-- The scene query on the sample depth scene and the ray from the origin along `(0, 3/5, -4/5)`: the hit at distance `100000` is the closest triangle hit. -/
theorem GetClosestIntersectionPoint_closest_witness :
    GetClosestIntersectionPoint (⟨⟨0, 0, 0⟩, ⟨0, 3 / 5, -4 / 5⟩⟩ : Ray ℝ) depthSampleScene
      = some ⟨⟨⟨0, 60000, -80000⟩, ⟨0, 0, 1⟩, 100000⟩, defaultMaterial⟩
    ∧ ∀ object ∈ (depthSampleScene : Scene ℝ).objects_, ∀ i : Intersection ℝ,
        GetIntersectionTriangle (⟨⟨0, 0, 0⟩, ⟨0, 3 / 5, -4 / 5⟩⟩ : Ray ℝ) object.polygon = some i →
        (100000 : ℝ) ≤ i.distance_ :=
  ⟨depthSample_hit_zero,
    ((GetClosestIntersectionPoint_closest ⟨⟨0, 0, 0⟩, ⟨0, 3 / 5, -4 / 5⟩⟩ depthSampleScene).2
      _ depthSample_hit_zero).2.1⟩

/-- The terminal cases at concrete inputs: depth `0` on the sample depth scene, and depth `7` on the empty scene. -/
theorem TraceRay_terminal_witness :
    TraceRay 1 (⟨⟨0, 0, 5⟩, ⟨0, 0, -1⟩⟩ : Ray ℝ) depthSampleScene 0 = some ⟨0, 0, 0⟩
    ∧ TraceRay 1 (⟨⟨0, 0, 5⟩, ⟨0, 0, -1⟩⟩ : Ray ℝ) ⟨[], [], [], []⟩ 7 = some ⟨0, 0, 0⟩ :=
  ⟨(TraceRay_terminal 0 ⟨⟨0, 0, 5⟩, ⟨0, 0, -1⟩⟩ depthSampleScene).1,
    (TraceRay_terminal 0 ⟨⟨0, 0, 5⟩, ⟨0, 0, -1⟩⟩ ⟨[], [], [], []⟩).2 7 (emptyScene_no_hit _)⟩

/-- The sample depth scene has no lights, and the ray along `(0, 3/5, -4/5)` hits the default material: the radiance at depth `1` is its ambient plus emissive colour. -/
theorem TraceRay_no_lights_witness :
    (depthSampleScene : Scene ℝ).lights_ = []
    ∧ GetClosestIntersectionPoint (⟨⟨0, 0, 0⟩, ⟨0, 3 / 5, -4 / 5⟩⟩ : Ray ℝ) depthSampleScene
        = some ⟨⟨⟨0, 60000, -80000⟩, ⟨0, 0, 1⟩, 100000⟩, defaultMaterial⟩
    ∧ TraceRay 2 (⟨⟨0, 0, 0⟩, ⟨0, 3 / 5, -4 / 5⟩⟩ : Ray ℝ) depthSampleScene 1
        = some ((defaultMaterial : Material ℝ).ambient_color
            + (defaultMaterial : Material ℝ).intensity) :=
  ⟨rfl, depthSample_hit_zero,
    (TraceRay_no_lights 0 ⟨⟨0, 0, 0⟩, ⟨0, 3 / 5, -4 / 5⟩⟩ depthSampleScene rfl).1 _
      depthSample_hit_zero⟩

/-- The depth render of the sample scene at the pixel `(0, 1)`: its hit distance `200000` is the maximum, and the pixel is `(1, 1, 1)`. -/
theorem RenderDepth_pixel_witness :
    ((1 : Nat) : Int) < (depthSampleCamera (2 * Real.arctan (3 / 2))).screen_height
    ∧ GetClosestIntersectionPoint
        (CameraRay (depthSampleCamera (2 * Real.arctan (3 / 2))) 0 1) (depthSampleScene : Scene ℝ)
      = some ⟨⟨⟨0, -120000, -160000⟩, ⟨0, 0, 1⟩, 200000⟩, defaultMaterial⟩
    ∧ RenderDepth (depthSampleScene : Scene ℝ) (depthSampleCamera (2 * Real.arctan (3 / 2))) 0 1
      = ⟨1, 1, 1⟩ :=
  ⟨by decide, depthSample_closest_one,
    ((RenderDepth_pixel depthSampleScene (depthSampleCamera (2 * Real.arctan (3 / 2))) 0 1
      (by decide) (by decide)).2.2.2.2
        (by rw [depthSample_max]; norm_num)).2 _ depthSample_closest_one
          (by rw [depthSample_max])⟩

/-- Tone mapping of the one-pixel buffer `(2, 1, 0)`: the total is `2`, the channel `2` maps to `1` and the channel `1` into `[0, 1]`. -/
theorem BuildTone_curve_witness :
    (0 : ℝ) < BuildToneTotal (fun _ _ => (⟨2, 1, 0⟩ : Vector ℝ)) 1 1
    ∧ (BuildTone (fun _ _ => (⟨2, 1, 0⟩ : Vector ℝ)) 1 1 0 0).X = 1
    ∧ 0 ≤ (BuildTone (fun _ _ => (⟨2, 1, 0⟩ : Vector ℝ)) 1 1 0 0).Y
    ∧ (BuildTone (fun _ _ => (⟨2, 1, 0⟩ : Vector ℝ)) 1 1 0 0).Y ≤ 1 :=
  have hpos : (0 : ℝ) < BuildToneTotal (fun _ _ => (⟨2, 1, 0⟩ : Vector ℝ)) 1 1 := by
    rw [toneSample_total]
    norm_num
  have h := (BuildTone_curve (fun _ _ => (⟨2, 1, 0⟩ : Vector ℝ)) 1 1
    (fun _ _ _ _ => by norm_num) hpos).2 0 0 (by decide) (by decide)
  ⟨hpos, h.2.2.1 (by rw [toneSample_total]), h.2.1.2.2.1, h.2.1.2.2.2.1⟩

/-- Quantization of the colour `(1, 0.5, 0)`. -/
theorem RGBCast_range_witness :
    (0 : ℤ) ≤ (RGBCast (⟨1, 0.5, 0⟩ : Vector ℝ)).r ∧ (RGBCast (⟨1, 0.5, 0⟩ : Vector ℝ)).r ≤ 255
    ∧ (0 : ℤ) ≤ (RGBCast (⟨1, 0.5, 0⟩ : Vector ℝ)).b
    ∧ (RGBCast (⟨1, 0.5, 0⟩ : Vector ℝ)).b ≤ 255 :=
  have h := RGBCast_range (⟨1, 0.5, 0⟩ : Vector ℝ) (by norm_num) (by norm_num) (by norm_num)
  ⟨h.1.2.1, h.1.2.2, h.2.2.2.1, h.2.2.2.2⟩

/-- The hit criterion at the ray from `(0.2, 0.2, 5)` along `(0, 0, -1)` and the triangle `(0,0,0), (1,0,0), (0,1,0)`. -/
theorem GetIntersectionTriangle_hit_iff_witness :
    GetIntersectionTriangle (⟨⟨0.2, 0.2, 5⟩, ⟨0, 0, -1⟩⟩ : Ray ℝ)
        ⟨⟨0, 0, 0⟩, ⟨1, 0, 0⟩, ⟨0, 1, 0⟩⟩
      = some ⟨⟨0.2, 0.2, 0⟩, ⟨0, 0, 1⟩, 5⟩
    ∧ ∃ k u v : ℝ, 1e-9 < k ∧ 0 ≤ u ∧ 0 ≤ v ∧ u + v ≤ 1
        ∧ (⟨0.2, 0.2, 5⟩ : Vector ℝ) + k * (⟨0, 0, -1⟩ : Vector ℝ)
            = ⟨0, 0, 0⟩ + u * ((⟨1, 0, 0⟩ : Vector ℝ) - ⟨0, 0, 0⟩)
                + v * ((⟨0, 1, 0⟩ : Vector ℝ) - ⟨0, 0, 0⟩) :=
  ⟨triangleSample_hit,
    ((GetIntersectionTriangle_hit_iff ⟨⟨0.2, 0.2, 5⟩, ⟨0, 0, -1⟩⟩
      ⟨⟨0, 0, 0⟩, ⟨1, 0, 0⟩, ⟨0, 1, 0⟩⟩).1.mp (by rw [triangleSample_hit]; rfl)).2⟩

/-- Snell's law at `d = (0,0,-1)`, `n = (0,0,1)` and `eta = 3/2`. -/
theorem Refract_snell_witness :
    Length (⟨0, 0, -1⟩ : Vector ℝ) = 1 ∧ Length (⟨0, 0, 1⟩ : Vector ℝ) = 1
    ∧ ((3 / 2 : ℝ)) ^ 2 * (1 - (-DotProduct (⟨0, 0, 1⟩ : Vector ℝ) ⟨0, 0, -1⟩) ^ 2) ≤ 1
    ∧ ∃ r : Vector ℝ, Refract (⟨0, 0, -1⟩ : Vector ℝ) ⟨0, 0, 1⟩ (3 / 2) = some r
        ∧ Length r = 1 :=
  have hd : Length (⟨0, 0, -1⟩ : Vector ℝ) = 1 := by norm_num [Length, sqrt_real]
  have hn : Length (⟨0, 0, 1⟩ : Vector ℝ) = 1 := by norm_num [Length, sqrt_real]
  have hc : ((3 / 2 : ℝ)) ^ 2 * (1 - (-DotProduct (⟨0, 0, 1⟩ : Vector ℝ) ⟨0, 0, -1⟩) ^ 2) ≤ 1 := by
    norm_num [DotProduct]
  have h := Refract_snell ⟨0, 0, -1⟩ ⟨0, 0, 1⟩ (3 / 2) hd hn hc
  ⟨hd, hn, hc, h.elim fun r hr => ⟨r, hr.1, hr.2.1⟩⟩

/-! ## One call of the tracer -/

/-- Adding a radiance with weight `0` changes nothing. -/
theorem Vector.add_mul_zero (a t : Vector ℝ) : a + t * (0 : ℝ) = a := by
  ext <;> simp

/-- One call of `TraceRay` that hits at a depth other than `0`, in terms of the radiances
`refl` and `refr` of the reflected and the refracted ray: the local illumination, plus
`refl` weighted by `al_1`, plus, when `Refract` gives a direction, `refr` weighted by
`al_2`.  A ray of weight `0` is not traced by the source, and contributes `0` here. -/
theorem TraceRay_step (fuel : Nat) (ray : Ray ℝ) (scene : Scene ℝ) (depth : Int)
    (p : IPoint ℝ) (hp : GetClosestIntersectionPoint ray scene = some p) (hdepth : depth ≠ 0)
    (refl : Vector ℝ)
    (hrefl : TraceRay fuel
      ⟨p.intersection_.position_
          + ((Sign (DotProduct (Normalize (Reflect ray.direction_ p.intersection_.normal_))
              p.intersection_.normal_) : Int) : ℝ) * p.intersection_.normal_ * (kEps : ℝ),
        Normalize (Reflect ray.direction_ p.intersection_.normal_)⟩ scene (depth - 1)
      = some refl) :
    (Refract ray.direction_ p.intersection_.normal_
        (TraceRayCoefficients ray scene p.material_).2.2 = none →
      TraceRay (fuel + 1) ray scene depth
        = some (scene.lights_.foldl
            (TraceRayLight ray scene p.intersection_ p.intersection_.normal_ p.material_)
            ⟨0, 0, 0⟩ * p.material_.albedo.X
          + (p.material_.ambient_color + p.material_.intensity)
          + refl * (TraceRayCoefficients ray scene p.material_).1))
    ∧ (∀ r refr : Vector ℝ,
        Refract ray.direction_ p.intersection_.normal_
          (TraceRayCoefficients ray scene p.material_).2.2 = some r →
        TraceRay fuel
          ⟨p.intersection_.position_
              + ((Sign (DotProduct (Normalize r) p.intersection_.normal_) : Int) : ℝ)
                * p.intersection_.normal_ * (kEps : ℝ),
            Normalize r⟩ scene (depth - 1) = some refr →
        TraceRay (fuel + 1) ray scene depth
          = some (scene.lights_.foldl
              (TraceRayLight ray scene p.intersection_ p.intersection_.normal_ p.material_)
              ⟨0, 0, 0⟩ * p.material_.albedo.X
            + (p.material_.ambient_color + p.material_.intensity)
            + refl * (TraceRayCoefficients ray scene p.material_).1
            + refr * (TraceRayCoefficients ray scene p.material_).2.1)) := by
  have hreflected :
      (if (TraceRayCoefficients ray scene p.material_).1 ≠ 0 then
        (TraceRay fuel
          ⟨p.intersection_.position_
              + ((Sign (DotProduct (Normalize (Reflect ray.direction_ p.intersection_.normal_))
                  p.intersection_.normal_) : Int) : ℝ) * p.intersection_.normal_ * (kEps : ℝ),
            Normalize (Reflect ray.direction_ p.intersection_.normal_)⟩ scene (depth - 1)).map
          (fun traced => scene.lights_.foldl
              (TraceRayLight ray scene p.intersection_ p.intersection_.normal_ p.material_)
              ⟨0, 0, 0⟩ * p.material_.albedo.X
            + (p.material_.ambient_color + p.material_.intensity)
            + traced * (TraceRayCoefficients ray scene p.material_).1)
      else
        some (scene.lights_.foldl
            (TraceRayLight ray scene p.intersection_ p.intersection_.normal_ p.material_)
            ⟨0, 0, 0⟩ * p.material_.albedo.X
          + (p.material_.ambient_color + p.material_.intensity)))
      = some (scene.lights_.foldl
            (TraceRayLight ray scene p.intersection_ p.intersection_.normal_ p.material_)
            ⟨0, 0, 0⟩ * p.material_.albedo.X
          + (p.material_.ambient_color + p.material_.intensity)
          + refl * (TraceRayCoefficients ray scene p.material_).1) := by
    by_cases h1 : (TraceRayCoefficients ray scene p.material_).1 = 0
    · rw [if_neg (not_not.mpr h1), h1, Vector.add_mul_zero]
    · rw [if_pos h1, hrefl, Option.map_some']
  refine ⟨?_, ?_⟩
  · intro hnone
    rw [TraceRay, hp]
    simp only [hdepth, if_false, Scene.GetLights, Intersection.GetNormal,
      Intersection.GetPosition, Ray.GetDirection, hreflected, hnone]
  · intro r refr hsome hrefr
    rw [TraceRay, hp]
    simp only [hdepth, if_false, Scene.GetLights, Intersection.GetNormal,
      Intersection.GetPosition, Ray.GetDirection, hreflected, hsome]
    by_cases h2 : (TraceRayCoefficients ray scene p.material_).2.1 = 0
    · rw [if_neg (not_not.mpr h2), h2, Vector.add_mul_zero]
    · rw [if_pos h2, hrefr, Option.map_some']

/-- A call of `TraceRay` with a depth `n ≥ 0` returns as soon as more than `n` nested calls
are allowed. -/
theorem TraceRay_returns (scene : Scene ℝ) (n : Nat) :
    ∀ (fuel : Nat) (ray : Ray ℝ), n < fuel →
      ∃ v : Vector ℝ, TraceRay fuel ray scene (n : Int) = some v := by
  induction n with
  | zero =>
    intro fuel ray hfuel
    have hpos : fuel ≠ 0 := by omega
    obtain ⟨f, rfl⟩ := Nat.exists_eq_succ_of_ne_zero hpos
    exact ⟨0, TraceRay_depth_zero f ray scene⟩
  | succ n ih =>
    intro fuel ray hfuel
    have hpos : fuel ≠ 0 := by omega
    obtain ⟨f, rfl⟩ := Nat.exists_eq_succ_of_ne_zero hpos
    have hf : n < f := by omega
    cases hhit : GetClosestIntersectionPoint ray scene with
    | none => exact ⟨0, TraceRay_no_hit f ray scene _ hhit⟩
    | some p =>
      have hne : ((n + 1 : Nat) : Int) ≠ 0 := by omega
      have hsub : ((n + 1 : Nat) : Int) - 1 = (n : Int) := by omega
      obtain ⟨refl, hrefl⟩ := ih f
        ⟨p.intersection_.position_
          + ((Sign (DotProduct (Normalize (Reflect ray.direction_ p.intersection_.normal_))
              p.intersection_.normal_) : Int) : ℝ) * p.intersection_.normal_ * (kEps : ℝ),
        Normalize (Reflect ray.direction_ p.intersection_.normal_)⟩ hf
      rw [← hsub] at hrefl
      obtain ⟨hnone, hsome⟩ := TraceRay_step f ray scene _ p hhit hne refl hrefl
      cases hr : Refract ray.direction_ p.intersection_.normal_
          (TraceRayCoefficients ray scene p.material_).2.2 with
      | none => exact ⟨_, hnone hr⟩
      | some r =>
        obtain ⟨refr, hrefr⟩ := ih f
          ⟨p.intersection_.position_
              + ((Sign (DotProduct (Normalize r) p.intersection_.normal_) : Int) : ℝ)
                * p.intersection_.normal_ * (kEps : ℝ),
            Normalize r⟩ hf
        rw [← hsub] at hrefr
        exact ⟨_, hsome r refr hr hrefr⟩

/-- C26: for every scene, every ray and every depth `≥ 0`, `TraceRay` terminates: the
recursive calls, for the reflected and for the refracted ray, are made with `depth - 1`
and a call at depth `0` makes none, so the recursion nests at most `depth` levels: the
call returns a value as soon as more than `depth` nested calls are allowed, and at depth
`0` with the one outer call alone. -/
theorem TraceRay_terminates (ray : Ray ℝ) (scene : Scene ℝ) (depth : Int) (hdepth : 0 ≤ depth) :
    (∀ fuel : Nat, depth.toNat < fuel → ∃ v : Vector ℝ, TraceRay fuel ray scene depth = some v)
    ∧ (∃ v : Vector ℝ, TraceRay 1 ray scene 0 = some v) := by
  refine ⟨?_, TraceRay_returns scene 0 1 ray (by decide)⟩
  intro fuel hfuel
  have h := TraceRay_returns scene depth.toNat fuel ray hfuel
  rw [Int.toNat_of_nonneg hdepth] at h
  exact h

/-- The loop over the sphere objects of `TraceRay` overrides the weights and the ratio
exactly when the origin of the ray is within the radius of some sphere of the scene. -/
theorem TraceRayCoefficients_eq (ray : Ray ℝ) (scene : Scene ℝ) (material : Material ℝ) :
    ((∃ object ∈ scene.sphere_objects_,
        Length (object.sphere.center_ - ray.origin_) < object.sphere.radius_) →
      TraceRayCoefficients ray scene material = (0, 1, material.refraction_index))
    ∧ ((∀ object ∈ scene.sphere_objects_,
        ¬ Length (object.sphere.center_ - ray.origin_) < object.sphere.radius_) →
      TraceRayCoefficients ray scene material
        = (material.albedo.Y, material.albedo.Z, 1 / material.refraction_index)) := by
  unfold TraceRayCoefficients
  simp only [Scene.GetSphereObjects, Sphere.GetCenter, Sphere.GetRadius, Ray.GetOrigin]
  generalize (material.albedo.Y, material.albedo.Z, 1 / material.refraction_index) = init
  generalize scene.sphere_objects_ = l
  induction l generalizing init with
  | nil =>
    refine ⟨?_, fun _ => rfl⟩
    rintro ⟨object, hmem, -⟩
    exact absurd hmem (List.not_mem_nil _)
  | cons x xs ih =>
    rw [List.foldl_cons]
    by_cases hx : Length (x.sphere.center_ - ray.origin_) < x.sphere.radius_
    · rw [if_pos hx]
      refine ⟨fun _ => ?_, fun hall => absurd hx (hall x (List.mem_cons_self _ _))⟩
      by_cases hrest : ∃ object ∈ xs,
          Length (object.sphere.center_ - ray.origin_) < object.sphere.radius_
      · exact (ih _).1 hrest
      · push_neg at hrest
        exact (ih _).2 (fun object hmem => not_lt.mpr (hrest object hmem))
    · rw [if_neg hx]
      refine ⟨?_, fun hall => (ih _).2 (fun object hmem => hall object (List.mem_cons_of_mem _ hmem))⟩
      rintro ⟨object, hmem, hin⟩
      rcases List.mem_cons.mp hmem with rfl | hmem2
      · exact absurd hin hx
      · exact (ih _).1 ⟨object, hmem2, hin⟩

/-- C22: for every scene, every depth `≥ 1` and every ray whose closest hit `p` has the
material `m`, with the local illumination `albedo[0] * (sum over the lights) + ambient +
emissive` as the first summand: (1) if the origin of the ray lies inside some sphere of the
scene (the distance from the center of that sphere to the origin is less than its radius),
the call traces no reflected ray and refracts with the ratio `m.refraction_index`; it
returns the local illumination when `Refract` is empty, and the local illumination plus
the radiance of the refracted ray at `depth - 1` with the weight `1` otherwise, whatever
`m.albedo[1]`, `m.albedo[2]` and the primitive hit are; (2) if the origin lies inside no
sphere, the call refracts with the ratio `1 / m.refraction_index` and adds the radiance of
the reflected ray at `depth - 1` with the weight `m.albedo[1]` and, when `Refract` is not
empty, the radiance of the refracted ray at `depth - 1` with the weight `m.albedo[2]`. -/
theorem TraceRay_split (fuel : Nat) (ray : Ray ℝ) (scene : Scene ℝ) (depth : Int)
    (hdepth : 1 ≤ depth) (hfuel : depth.toNat ≤ fuel)
    (p : IPoint ℝ) (hp : GetClosestIntersectionPoint ray scene = some p) :
    ((∃ object ∈ scene.sphere_objects_,
        Length (object.sphere.center_ - ray.origin_) < object.sphere.radius_) →
      (Refract ray.direction_ p.intersection_.normal_ p.material_.refraction_index = none →
        TraceRay (fuel + 1) ray scene depth
          = some (scene.lights_.foldl
              (TraceRayLight ray scene p.intersection_ p.intersection_.normal_ p.material_)
              ⟨0, 0, 0⟩ * p.material_.albedo.X
            + (p.material_.ambient_color + p.material_.intensity)))
      ∧ (∀ r : Vector ℝ,
          Refract ray.direction_ p.intersection_.normal_ p.material_.refraction_index = some r →
          ∃ refr : Vector ℝ,
            TraceRay fuel
              ⟨p.intersection_.position_
                  + ((Sign (DotProduct (Normalize r) p.intersection_.normal_) : Int) : ℝ)
                    * p.intersection_.normal_ * (kEps : ℝ),
                Normalize r⟩ scene (depth - 1) = some refr
            ∧ TraceRay (fuel + 1) ray scene depth
              = some (scene.lights_.foldl
                  (TraceRayLight ray scene p.intersection_ p.intersection_.normal_ p.material_)
                  ⟨0, 0, 0⟩ * p.material_.albedo.X
                + (p.material_.ambient_color + p.material_.intensity)
                + refr * (1 : ℝ))))
    ∧ ((∀ object ∈ scene.sphere_objects_,
        ¬ Length (object.sphere.center_ - ray.origin_) < object.sphere.radius_) →
      ∃ refl : Vector ℝ,
        TraceRay fuel
          ⟨p.intersection_.position_
              + ((Sign (DotProduct (Normalize (Reflect ray.direction_ p.intersection_.normal_))
                  p.intersection_.normal_) : Int) : ℝ) * p.intersection_.normal_ * (kEps : ℝ),
            Normalize (Reflect ray.direction_ p.intersection_.normal_)⟩ scene (depth - 1)
          = some refl
        ∧ (Refract ray.direction_ p.intersection_.normal_
              (1 / p.material_.refraction_index) = none →
            TraceRay (fuel + 1) ray scene depth
              = some (scene.lights_.foldl
                  (TraceRayLight ray scene p.intersection_ p.intersection_.normal_ p.material_)
                  ⟨0, 0, 0⟩ * p.material_.albedo.X
                + (p.material_.ambient_color + p.material_.intensity)
                + refl * p.material_.albedo.Y))
        ∧ (∀ r : Vector ℝ,
            Refract ray.direction_ p.intersection_.normal_
              (1 / p.material_.refraction_index) = some r →
            ∃ refr : Vector ℝ,
              TraceRay fuel
                ⟨p.intersection_.position_
                    + ((Sign (DotProduct (Normalize r) p.intersection_.normal_) : Int) : ℝ)
                      * p.intersection_.normal_ * (kEps : ℝ),
                  Normalize r⟩ scene (depth - 1) = some refr
              ∧ TraceRay (fuel + 1) ray scene depth
                = some (scene.lights_.foldl
                    (TraceRayLight ray scene p.intersection_ p.intersection_.normal_
                      p.material_)
                    ⟨0, 0, 0⟩ * p.material_.albedo.X
                  + (p.material_.ambient_color + p.material_.intensity)
                  + refl * p.material_.albedo.Y
                  + refr * p.material_.albedo.Z))) := by
  have hne : depth ≠ 0 := by omega
  have hrec : ∀ r : Ray ℝ, ∃ v : Vector ℝ, TraceRay fuel r scene (depth - 1) = some v := by
    intro r
    have h := TraceRay_returns scene (depth - 1).toNat fuel r (by omega)
    rw [Int.toNat_of_nonneg (by omega)] at h
    exact h
  obtain ⟨refl, hrefl⟩ := hrec
    ⟨p.intersection_.position_
        + ((Sign (DotProduct (Normalize (Reflect ray.direction_ p.intersection_.normal_))
            p.intersection_.normal_) : Int) : ℝ) * p.intersection_.normal_ * (kEps : ℝ),
      Normalize (Reflect ray.direction_ p.intersection_.normal_)⟩
  obtain ⟨hnone, hsome⟩ := TraceRay_step fuel ray scene depth p hp hne refl hrefl
  obtain ⟨hin, hout⟩ := TraceRayCoefficients_eq ray scene p.material_
  refine ⟨fun hinside => ?_, fun houtside => ?_⟩
  · rw [hin hinside] at hnone hsome
    simp only [Vector.add_mul_zero] at hnone hsome
    refine ⟨hnone, fun r hr => ?_⟩
    obtain ⟨refr, hrefr⟩ := hrec
      ⟨p.intersection_.position_
          + ((Sign (DotProduct (Normalize r) p.intersection_.normal_) : Int) : ℝ)
            * p.intersection_.normal_ * (kEps : ℝ),
        Normalize r⟩
    exact ⟨refr, hrefr, hsome r refr hr hrefr⟩
  · rw [hout houtside] at hnone hsome
    refine ⟨refl, hrefl, hnone, fun r hr => ?_⟩
    obtain ⟨refr, hrefr⟩ := hrec
      ⟨p.intersection_.position_
          + ((Sign (DotProduct (Normalize r) p.intersection_.normal_) : Int) : ℝ)
            * p.intersection_.normal_ * (kEps : ℝ),
        Normalize r⟩
    exact ⟨refr, hrefr, hsome r refr hr hrefr⟩

/-! ## The local illumination -/

/-- The constant `kEps` is `1e-3`. -/
theorem kEps_eq : (kEps : ℝ) = 1e-3 := by
  unfold kEps
  norm_num

/-- A loop that ors a test into a flag ends with the flag set exactly when it was set at
the start or the test holds for some element. -/
theorem foldl_or_iff {α : Type} (P : α → Prop) (step : Bool → α → Bool)
    (hstep : ∀ b x, step b x = true ↔ (b = true ∨ P x)) (l : List α) (init : Bool) :
    l.foldl step init = true ↔ (init = true ∨ ∃ x ∈ l, P x) := by
  induction l generalizing init with
  | nil => simp
  | cons y ys ih =>
    rw [List.foldl_cons, ih, hstep]
    constructor
    · rintro ((h | h) | ⟨x, hx, hP⟩)
      · exact Or.inl h
      · exact Or.inr ⟨y, List.mem_cons_self _ _, h⟩
      · exact Or.inr ⟨x, List.mem_cons_of_mem _ hx, hP⟩
    · rintro (h | ⟨x, hx, hP⟩)
      · exact Or.inl (Or.inl h)
      · rcases List.mem_cons.mp hx with rfl | hx2
        · exact Or.inl (Or.inr hP)
        · exact Or.inr ⟨x, hx2, hP⟩

/-- The shadow test of `TraceRay`: some triangle or sphere of the scene is hit by the ray
from the light at a distance that, with the bias `kEps`, is less than `length`. -/
theorem TraceRayHasShadow_iff (scene : Scene ℝ) (light_ray : Ray ℝ) (length : ℝ) :
    TraceRayHasShadow scene light_ray length = true ↔
      (∃ object ∈ scene.objects_, ∃ i : Intersection ℝ,
          GetIntersectionTriangle light_ray object.polygon = some i
          ∧ i.distance_ + 1e-3 < length)
      ∨ (∃ object ∈ scene.sphere_objects_, ∃ i : Intersection ℝ,
          GetIntersectionSphere light_ray object.sphere = some i
          ∧ i.distance_ + 1e-3 < length) := by
  rw [← kEps_eq]
  unfold TraceRayHasShadow
  simp only [Scene.GetObjects, Scene.GetSphereObjects, Intersection.GetDistance]
  rw [foldl_or_iff
      (fun object : SphereObject ℝ => ∃ i : Intersection ℝ,
        GetIntersectionSphere light_ray object.sphere = some i
        ∧ i.distance_ + (kEps : ℝ) < length) _
      (fun b x => by
        cases hx : GetIntersectionSphere light_ray x.sphere with
        | none => simp [hx]
        | some i => simp [hx]),
    foldl_or_iff
      (fun object : Object ℝ => ∃ i : Intersection ℝ,
        GetIntersectionTriangle light_ray object.polygon = some i
        ∧ i.distance_ + (kEps : ℝ) < length) _
      (fun b x => by
        cases hx : GetIntersectionTriangle light_ray x.polygon with
        | none => simp [hx]
        | some i => simp [hx])]
  simp

/-- The body of the loop over the lights adds the term of the specification for a light
that is not shadowed and nothing for a light that is. -/
theorem TraceRayLight_eq (ray : Ray ℝ) (scene : Scene ℝ) (cl_point : Intersection ℝ)
    (norm : Vector ℝ) (material : Material ℝ) (total : Vector ℝ) (light : Light ℝ) :
    TraceRayLight ray scene cl_point norm material total light
      = if TraceRayHasShadow scene
            ⟨light.position, Normalize (cl_point.position_ - light.position)⟩
            (Length (cl_point.position_ - light.position)) then total
        else total + SpecLightTerm ray cl_point.position_ norm material light := by
  unfold TraceRayLight SpecLightTerm
  simp only [Intersection.GetPosition, Ray.GetOrigin]
  split_ifs
  · rfl
  · ext <;> simp <;> ring


/-- The loop over the lights adds, component by component, the terms of the specification
of the lights that are not shadowed. -/
theorem TraceRayLight_foldl (ray : Ray ℝ) (scene : Scene ℝ) (cl_point : Intersection ℝ)
    (norm : Vector ℝ) (material : Material ℝ) (lights : List (Light ℝ)) (total : Vector ℝ) :
    lights.foldl (TraceRayLight ray scene cl_point norm material) total
      = ⟨total.X + ((lights.filter (fun light => !TraceRayHasShadow scene
              ⟨light.position, Normalize (cl_point.position_ - light.position)⟩
              (Length (cl_point.position_ - light.position)))).map
            (fun light => (SpecLightTerm ray cl_point.position_ norm material light).X)).sum,
         total.Y + ((lights.filter (fun light => !TraceRayHasShadow scene
              ⟨light.position, Normalize (cl_point.position_ - light.position)⟩
              (Length (cl_point.position_ - light.position)))).map
            (fun light => (SpecLightTerm ray cl_point.position_ norm material light).Y)).sum,
         total.Z + ((lights.filter (fun light => !TraceRayHasShadow scene
              ⟨light.position, Normalize (cl_point.position_ - light.position)⟩
              (Length (cl_point.position_ - light.position)))).map
            (fun light => (SpecLightTerm ray cl_point.position_ norm material light).Z)).sum⟩ := by
  induction lights generalizing total with
  | nil => simp
  | cons light rest ih =>
    rw [List.foldl_cons, TraceRayLight_eq, ih]
    by_cases hs : TraceRayHasShadow scene
        ⟨light.position, Normalize (cl_point.position_ - light.position)⟩
        (Length (cl_point.position_ - light.position)) = true
    · rw [if_pos hs, List.filter_cons]
      simp only [hs, Bool.not_true, Bool.false_eq_true, if_false]
    · rw [if_neg hs, List.filter_cons]
      have hf := Bool.not_eq_true _ ▸ hs
      simp only [Bool.not_eq_true] at hs
      simp only [hs, Bool.not_false, if_true, List.map_cons, List.sum_cons]
      rw [Vector.mk.injEq]
      refine ⟨?_, ?_, ?_⟩ <;> simp <;> ring

/-- C21: for every scene and every ray whose closest hit `p` has the position `P`, the
normal `n` and the material `m`, (1) a light `L` is shadowed exactly when some triangle or
some sphere of the scene is hit by the ray from `L.position` along `Normalize (P - L.position)`
at a distance `d` with `d + 1e-3 < Length (P - L.position)`; (2) the term of a light is
`m.diffuse_color * L.intensity * max 0 (n · Normalize (L.position - P))
 + m.specular_color * L.intensity
   * (max 0 (Reflect (Normalize (P - L.position)) n · Normalize (ray.origin - P)))
     ^ m.specular_exponent`, the colour products taken component by component; (3) with `S`
the sum of these terms over the lights of the scene that are not shadowed, the call of
`TraceRay` at depth `1` returns `m.albedo[0] * S + m.ambient_color + m.intensity`: the
ambient and the emissive colour are added once, and the two rays traced at depth `0` add
nothing. -/
theorem TraceRay_local_illumination (fuel : Nat) (ray : Ray ℝ) (scene : Scene ℝ)
    (p : IPoint ℝ) (hp : GetClosestIntersectionPoint ray scene = some p) :
    (∀ light : Light ℝ,
      TraceRayHasShadow scene
          ⟨light.position, Normalize (p.intersection_.position_ - light.position)⟩
          (Length (p.intersection_.position_ - light.position)) = true ↔
        (∃ object ∈ scene.objects_, ∃ i : Intersection ℝ,
            GetIntersectionTriangle
                ⟨light.position, Normalize (p.intersection_.position_ - light.position)⟩
                object.polygon = some i
            ∧ i.distance_ + 1e-3 < Length (p.intersection_.position_ - light.position))
        ∨ (∃ object ∈ scene.sphere_objects_, ∃ i : Intersection ℝ,
            GetIntersectionSphere
                ⟨light.position, Normalize (p.intersection_.position_ - light.position)⟩
                object.sphere = some i
            ∧ i.distance_ + 1e-3 < Length (p.intersection_.position_ - light.position)))
    ∧ (∀ light : Light ℝ,
        SpecLightTerm ray p.intersection_.position_ p.intersection_.normal_ p.material_ light
          = p.material_.diffuse_color * light.intensity
              * max 0 (DotProduct p.intersection_.normal_
                  (Normalize (light.position - p.intersection_.position_)))
            + p.material_.specular_color * light.intensity
              * (max 0 (DotProduct
                  (Reflect (Normalize (p.intersection_.position_ - light.position))
                    p.intersection_.normal_)
                  (Normalize (ray.origin_ - p.intersection_.position_))))
                ^ p.material_.specular_exponent)
    ∧ ∃ S : Vector ℝ,
        S.X = ((scene.lights_.filter (fun light => !TraceRayHasShadow scene
              ⟨light.position, Normalize (p.intersection_.position_ - light.position)⟩
              (Length (p.intersection_.position_ - light.position)))).map
            (fun light => (SpecLightTerm ray p.intersection_.position_
              p.intersection_.normal_ p.material_ light).X)).sum
        ∧ S.Y = ((scene.lights_.filter (fun light => !TraceRayHasShadow scene
              ⟨light.position, Normalize (p.intersection_.position_ - light.position)⟩
              (Length (p.intersection_.position_ - light.position)))).map
            (fun light => (SpecLightTerm ray p.intersection_.position_
              p.intersection_.normal_ p.material_ light).Y)).sum
        ∧ S.Z = ((scene.lights_.filter (fun light => !TraceRayHasShadow scene
              ⟨light.position, Normalize (p.intersection_.position_ - light.position)⟩
              (Length (p.intersection_.position_ - light.position)))).map
            (fun light => (SpecLightTerm ray p.intersection_.position_
              p.intersection_.normal_ p.material_ light).Z)).sum
        ∧ TraceRay (fuel + 2) ray scene 1
            = some (p.material_.albedo.X * S + p.material_.ambient_color
                + p.material_.intensity) := by
  refine ⟨fun light => TraceRayHasShadow_iff _ _ _, fun light => rfl, ?_⟩
  have hfold := TraceRayLight_foldl ray scene p.intersection_ p.intersection_.normal_
    p.material_ scene.lights_ ⟨0, 0, 0⟩
  refine ⟨⟨_, _, _⟩, rfl, rfl, rfl, ?_⟩
  have hzero : ∀ r : Ray ℝ, TraceRay (fuel + 1) r scene ((1 : Int) - 1) = some 0 := by
    intro r
    rw [sub_self]
    exact TraceRay_depth_zero fuel r scene
  obtain ⟨hnone, hsome⟩ := TraceRay_step (fuel + 1) ray scene 1 p hp one_ne_zero 0 (hzero _)
  have hvec : ∀ a0 a1 a2 sx sy sz : ℝ, ∀ F amb int : Vector ℝ,
      F = ⟨(⟨0, 0, 0⟩ : Vector ℝ).X + sx, (⟨0, 0, 0⟩ : Vector ℝ).Y + sy,
            (⟨0, 0, 0⟩ : Vector ℝ).Z + sz⟩ →
      F * a0 + (amb + int) + (0 : Vector ℝ) * a1 = a0 * (⟨sx, sy, sz⟩ : Vector ℝ) + amb + int
      ∧ F * a0 + (amb + int) + (0 : Vector ℝ) * a1 + (0 : Vector ℝ) * a2
          = a0 * (⟨sx, sy, sz⟩ : Vector ℝ) + amb + int := by
    intro a0 a1 a2 sx sy sz F amb int hF
    rw [hF]
    constructor <;> (ext <;> simp <;> ring)
  obtain ⟨e1, e2⟩ := hvec p.material_.albedo.X (TraceRayCoefficients ray scene p.material_).1
    (TraceRayCoefficients ray scene p.material_).2.1 _ _ _ _ p.material_.ambient_color
    p.material_.intensity hfold
  cases hr : Refract ray.direction_ p.intersection_.normal_
      (TraceRayCoefficients ray scene p.material_).2.2 with
  | none =>
    exact (hnone hr).trans (congrArg some e1)
  | some r =>
    exact (hsome r 0 hr (hzero _)).trans (congrArg some e2)

/-! ## The vertex normals, the barycentric weights and the camera basis -/

/-- A vector of length zero is the zero vector. -/
theorem Length_eq_zero_iff (v : Vector ℝ) : Length v = 0 ↔ v = 0 := by
  constructor
  · intro h
    by_contra hv
    exact (Length_pos v hv).ne' h
  · intro h
    rw [h, Length_eq_iff _ le_rfl, DotProduct_def]
    simp

/-- The member `IsZero` over the reals. -/
theorem Vector.IsZero_iff (v : Vector ℝ) : v.IsZero = true ↔ v = 0 := by
  unfold Vector.IsZero Vector.NotZero
  rw [Bool.not_eq_true', decide_eq_false_iff_not, not_not, Length_eq_zero_iff]

/-- The length of a vector whose square is `t * t` times the square of `n`, for `t ≥ 0`. -/
theorem Length_of_sq (w n : Vector ℝ) {t : ℝ} (ht : 0 ≤ t)
    (h : DotProduct w w = t * t * DotProduct n n) : Length w = t * Length n := by
  rw [Length_eq_iff _ (mul_nonneg ht (Length_nonneg n)), h, ← Length_mul_self]
  ring

/-- The weights of a convex combination `a * A + b * B + c * C` in a triangle of non-zero
area are `(a, b, c)`. -/
theorem GetBarycentricCoords_eq (triangle : Triangle ℝ) (a b c : ℝ)
    (harea : triangle.Area ≠ 0) (ha : 0 ≤ a) (hb : 0 ≤ b) (hc : 0 ≤ c) (hsum : a + b + c = 1) :
    GetBarycentricCoords triangle (a * triangle.a + b * triangle.b + c * triangle.c)
      = ⟨a, b, c⟩ := by
  obtain ⟨A, B, C⟩ := triangle
  have ha1 : a = 1 - b - c := by linarith
  subst ha1
  have hN : Length (CrossProduct (B - A) (C - A)) ≠ 0 := by
    intro h
    apply harea
    unfold Triangle.Area
    simp only
    rw [h, mul_zero]
  have hX : Length (CrossProduct (B - ((1 - b - c) * A + b * B + c * C))
      (C - ((1 - b - c) * A + b * B + c * C)))
        = (1 - b - c) * Length (CrossProduct (B - A) (C - A)) :=
    Length_of_sq _ _ ha (by
      simp only [DotProduct_def, CrossProduct, Vector.sub_def, Vector.add_def,
        Vector.scalar_mul_def]
      ring)
  have hY : Length (CrossProduct (A - ((1 - b - c) * A + b * B + c * C))
      (C - ((1 - b - c) * A + b * B + c * C)))
        = b * Length (CrossProduct (B - A) (C - A)) :=
    Length_of_sq _ _ hb (by
      simp only [DotProduct_def, CrossProduct, Vector.sub_def, Vector.add_def,
        Vector.scalar_mul_def]
      ring)
  have hZ : Length (CrossProduct (A - ((1 - b - c) * A + b * B + c * C))
      (B - ((1 - b - c) * A + b * B + c * C)))
        = c * Length (CrossProduct (B - A) (C - A)) :=
    Length_of_sq _ _ hc (by
      simp only [DotProduct_def, CrossProduct, Vector.sub_def, Vector.add_def,
        Vector.scalar_mul_def]
      ring)
  show (⟨1 / 2 * Length (CrossProduct (B - ((1 - b - c) * A + b * B + c * C))
            (C - ((1 - b - c) * A + b * B + c * C)))
          / (1 / 2 * Length (CrossProduct (B - A) (C - A))),
        1 / 2 * Length (CrossProduct (A - ((1 - b - c) * A + b * B + c * C))
            (C - ((1 - b - c) * A + b * B + c * C)))
          / (1 / 2 * Length (CrossProduct (B - A) (C - A))),
        1 / 2 * Length (CrossProduct (A - ((1 - b - c) * A + b * B + c * C))
            (B - ((1 - b - c) * A + b * B + c * C)))
          / (1 / 2 * Length (CrossProduct (B - A) (C - A)))⟩ : Vector ℝ) = ⟨1 - b - c, b, c⟩
  have hs : ∀ t l : ℝ, l ≠ 0 → 1 / 2 * (t * l) / (1 / 2 * l) = t := by
    intro t l hl
    field_simp
  rw [hX, hY, hZ, Vector.mk.injEq]
  exact ⟨hs _ _ hN, hs _ _ hN, hs _ _ hN⟩

/-- C24: for every triangle `(A, B, C)` of non-zero area and every point
`P = a * A + b * B + c * C` of the closed triangle (`a, b, c ≥ 0`, `a + b + c = 1`), the
weights `GetBarycentricCoords` returns are `(a, b, c)`: they are non-negative, sum to one
and reproduce the point, `P = x * A + y * B + z * C`; each weight is the area of the
triangle formed by `P` and the opposite edge, divided by the area of the whole triangle. -/
theorem GetBarycentricCoords_weights (triangle : Triangle ℝ) (point : Vector ℝ) (a b c : ℝ)
    (harea : triangle.Area ≠ 0) (ha : 0 ≤ a) (hb : 0 ≤ b) (hc : 0 ≤ c) (hsum : a + b + c = 1)
    (hpoint : point = a * triangle.a + b * triangle.b + c * triangle.c) :
    GetBarycentricCoords triangle point = ⟨a, b, c⟩
    ∧ 0 ≤ (GetBarycentricCoords triangle point).X
    ∧ 0 ≤ (GetBarycentricCoords triangle point).Y
    ∧ 0 ≤ (GetBarycentricCoords triangle point).Z
    ∧ (GetBarycentricCoords triangle point).X + (GetBarycentricCoords triangle point).Y
        + (GetBarycentricCoords triangle point).Z = 1
    ∧ point = (GetBarycentricCoords triangle point).X * triangle.a
        + (GetBarycentricCoords triangle point).Y * triangle.b
        + (GetBarycentricCoords triangle point).Z * triangle.c
    ∧ (GetBarycentricCoords triangle point).X
        = (Triangle.mk point triangle.b triangle.c).Area / triangle.Area
    ∧ (GetBarycentricCoords triangle point).Y
        = (Triangle.mk point triangle.a triangle.c).Area / triangle.Area
    ∧ (GetBarycentricCoords triangle point).Z
        = (Triangle.mk point triangle.a triangle.b).Area / triangle.Area := by
  have h : GetBarycentricCoords triangle point = ⟨a, b, c⟩ := by
    rw [hpoint]
    exact GetBarycentricCoords_eq triangle a b c harea ha hb hc hsum
  refine ⟨h, ?_, ?_, ?_, ?_, ?_, rfl, rfl, rfl⟩
  · rw [h]; exact ha
  · rw [h]; exact hb
  · rw [h]; exact hc
  · rw [h]; exact hsum
  · rw [h]; exact hpoint

/-- The sample triangle `(0,0,0)`, `(1,0,0)`, `(0,1,0)` has the area `1/2`. -/
theorem triangleSample_area :
    (⟨⟨0, 0, 0⟩, ⟨1, 0, 0⟩, ⟨0, 1, 0⟩⟩ : Triangle ℝ).Area = 1 / 2 := by
  norm_num [Triangle.Area, Length, CrossProduct, sqrt_real]

/-- The weights of the point `(0.2, 0.2, 0) = 0.6 * A + 0.2 * B + 0.2 * C` of the sample
triangle `(0,0,0)`, `(1,0,0)`, `(0,1,0)`, of area `1/2`, are `(0.6, 0.2, 0.2)`. -/
theorem GetBarycentricCoords_weights_witness :
    (⟨⟨0, 0, 0⟩, ⟨1, 0, 0⟩, ⟨0, 1, 0⟩⟩ : Triangle ℝ).Area ≠ 0
    ∧ (⟨0.2, 0.2, 0⟩ : Vector ℝ)
        = (0.6 : ℝ) * (⟨0, 0, 0⟩ : Vector ℝ) + (0.2 : ℝ) * (⟨1, 0, 0⟩ : Vector ℝ)
          + (0.2 : ℝ) * (⟨0, 1, 0⟩ : Vector ℝ)
    ∧ GetBarycentricCoords (⟨⟨0, 0, 0⟩, ⟨1, 0, 0⟩, ⟨0, 1, 0⟩⟩ : Triangle ℝ) ⟨0.2, 0.2, 0⟩
        = ⟨0.6, 0.2, 0.2⟩ :=
  have harea : (⟨⟨0, 0, 0⟩, ⟨1, 0, 0⟩, ⟨0, 1, 0⟩⟩ : Triangle ℝ).Area ≠ 0 := by
    rw [triangleSample_area]
    norm_num
  have hpoint : (⟨0.2, 0.2, 0⟩ : Vector ℝ)
      = (0.6 : ℝ) * (⟨0, 0, 0⟩ : Vector ℝ) + (0.2 : ℝ) * (⟨1, 0, 0⟩ : Vector ℝ)
        + (0.2 : ℝ) * (⟨0, 1, 0⟩ : Vector ℝ) := by
    ext <;> norm_num
  ⟨harea, hpoint,
    (GetBarycentricCoords_weights ⟨⟨0, 0, 0⟩, ⟨1, 0, 0⟩, ⟨0, 1, 0⟩⟩ ⟨0.2, 0.2, 0⟩ 0.6 0.2 0.2
      harea (by norm_num) (by norm_num) (by norm_num) (by norm_num) hpoint).1⟩

/-- C23 fails on a triangle object with one zero vertex normal: the sample object with the
vertex normals `(0,0,0)`, `(0,1,0)`, `(0,0,1)` has vertex normals that are not all zero,
the ray from `(0.2, 0.2, 5)` along `(0, 0, -1)` hits its triangle, and the hit that
`GetMaybeIntersectionWithPolygon` returns carries the flat normal `(0, 0, 1)` of the
triangle test, not the blend `(0, 0.2, 0.2)` of the vertex normals. -/
theorem GetMaybeIntersectionWithPolygon_partial_flat :
    ¬ ((partialSampleObject : Object ℝ).normals.1 = 0
        ∧ (partialSampleObject : Object ℝ).normals.2.1 = 0
        ∧ (partialSampleObject : Object ℝ).normals.2.2 = 0)
    ∧ GetIntersectionTriangle (⟨⟨0.2, 0.2, 5⟩, ⟨0, 0, -1⟩⟩ : Ray ℝ)
          (partialSampleObject : Object ℝ).polygon
        = some ⟨⟨0.2, 0.2, 0⟩, ⟨0, 0, 1⟩, 5⟩
    ∧ GetMaybeIntersectionWithPolygon (⟨⟨0.2, 0.2, 5⟩, ⟨0, 0, -1⟩⟩ : Ray ℝ) partialSampleObject
        = some ⟨⟨⟨0.2, 0.2, 0⟩, ⟨0, 0, 1⟩, 5⟩, defaultMaterial⟩
    ∧ (GetBarycentricCoords (partialSampleObject : Object ℝ).polygon ⟨0.2, 0.2, 0⟩).X
          * (partialSampleObject : Object ℝ).normals.1
        + (GetBarycentricCoords (partialSampleObject : Object ℝ).polygon ⟨0.2, 0.2, 0⟩).Y
          * (partialSampleObject : Object ℝ).normals.2.1
        + (GetBarycentricCoords (partialSampleObject : Object ℝ).polygon ⟨0.2, 0.2, 0⟩).Z
          * (partialSampleObject : Object ℝ).normals.2.2
        = (⟨0, 0.2, 0.2⟩ : Vector ℝ)
    ∧ (⟨0, 0, 1⟩ : Vector ℝ) ≠ ⟨0, 0.2, 0.2⟩ := by
  refine ⟨?_, triangleSample_hit, ?_, ?_, ?_⟩
  · intro h
    have h2 := congrArg Vector.Y h.2.1
    norm_num [partialSampleObject, Vector.zero_Y] at h2
  · rw [GetMaybeIntersectionWithPolygon_flat _ _ (Or.inl rfl)]
    simp only [partialSampleObject, triangleSample_hit, Option.map_some']
  · simp only [partialSampleObject, blendSample_coords]
    ext <;> norm_num
  · intro h
    have h2 := congrArg Vector.Z h
    norm_num at h2

/-- C23, amended: for every triangle object and every ray that hits its triangle with the
hit `i`, `GetMaybeIntersectionWithPolygon` returns a hit; its normal is the blend
`coords[0] * normals[0] + coords[1] * normals[1] + coords[2] * normals[2]`, with `coords`
the barycentric weights of the hit position, when none of the three vertex normals is the
zero vector, and it is the flat normal of the triangle test when at least one vertex
normal is the zero vector, in particular when all three are. -/
theorem GetMaybeIntersectionWithPolygon_normal (ray : Ray ℝ) (object : Object ℝ)
    (i : Intersection ℝ) (hi : GetIntersectionTriangle ray object.polygon = some i) :
    ∃ p : IPoint ℝ, GetMaybeIntersectionWithPolygon ray object = some p
      ∧ p.material_ = object.material
      ∧ p.intersection_.position_ = i.position_
      ∧ p.intersection_.distance_ = i.distance_
      ∧ (object.normals.1 ≠ 0 ∧ object.normals.2.1 ≠ 0 ∧ object.normals.2.2 ≠ 0 →
          p.intersection_.normal_
            = (GetBarycentricCoords object.polygon i.position_).X * object.normals.1
              + (GetBarycentricCoords object.polygon i.position_).Y * object.normals.2.1
              + (GetBarycentricCoords object.polygon i.position_).Z * object.normals.2.2)
      ∧ (object.normals.1 = 0 ∨ object.normals.2.1 = 0 ∨ object.normals.2.2 = 0 →
          p.intersection_.normal_ = i.normal_)
      ∧ (object.normals.1 = 0 ∧ object.normals.2.1 = 0 ∧ object.normals.2.2 = 0 →
          p.intersection_.normal_ = i.normal_) := by
  by_cases h : object.normals.1 = 0 ∨ object.normals.2.1 = 0 ∨ object.normals.2.2 = 0
  · refine ⟨⟨i, object.material⟩, ?_, rfl, rfl, rfl, ?_, fun _ => rfl, fun _ => rfl⟩
    · rw [GetMaybeIntersectionWithPolygon_flat _ _ h, hi]
      rfl
    · intro hne
      rcases h with h | h | h
      · exact absurd h hne.1
      · exact absurd h hne.2.1
      · exact absurd h hne.2.2
  · have hc : (object.normals.1.operatorEq 0 || object.normals.2.1.operatorEq 0
        || object.normals.2.2.operatorEq 0) = false := by
      rw [Bool.eq_false_iff]
      intro hc
      apply h
      simp only [Bool.or_eq_true, Vector.operatorEq_zero] at hc
      tauto
    refine ⟨⟨i.SetNormal
        (0 + object.normals.1 * (GetBarycentricCoords object.polygon i.GetPosition).X
          + object.normals.2.1 * (GetBarycentricCoords object.polygon i.GetPosition).Y
          + object.normals.2.2 * (GetBarycentricCoords object.polygon i.GetPosition).Z),
        object.material⟩, ?_, rfl, rfl, rfl, ?_, ?_, ?_⟩
    · unfold GetMaybeIntersectionWithPolygon
      rw [hi]
      simp only [hc]
      rfl
    · intro _
      simp only [Intersection.SetNormal, Intersection.GetPosition]
      ext <;> simp
    · intro h2
      exact absurd h2 h
    · intro h2
      exact absurd (Or.inl h2.1) h

/-- The amended C23 at the sample object with the vertex normals `(1,0,0)`, `(0,1,0)`,
`(0,0,1)` and the ray from `(0.2, 0.2, 5)` along `(0, 0, -1)`: the hit carries the blend of
the three vertex normals with the weights of the hit position `(0.2, 0.2, 0)`. -/
theorem GetMaybeIntersectionWithPolygon_normal_witness :
    GetIntersectionTriangle (⟨⟨0.2, 0.2, 5⟩, ⟨0, 0, -1⟩⟩ : Ray ℝ)
        (blendSampleObject : Object ℝ).polygon
      = some ⟨⟨0.2, 0.2, 0⟩, ⟨0, 0, 1⟩, 5⟩
    ∧ ∃ p : IPoint ℝ,
        GetMaybeIntersectionWithPolygon (⟨⟨0.2, 0.2, 5⟩, ⟨0, 0, -1⟩⟩ : Ray ℝ) blendSampleObject
          = some p
        ∧ p.intersection_.normal_
            = (GetBarycentricCoords (blendSampleObject : Object ℝ).polygon ⟨0.2, 0.2, 0⟩).X
                * (blendSampleObject : Object ℝ).normals.1
              + (GetBarycentricCoords (blendSampleObject : Object ℝ).polygon ⟨0.2, 0.2, 0⟩).Y
                * (blendSampleObject : Object ℝ).normals.2.1
              + (GetBarycentricCoords (blendSampleObject : Object ℝ).polygon ⟨0.2, 0.2, 0⟩).Z
                * (blendSampleObject : Object ℝ).normals.2.2 :=
  ⟨triangleSample_hit,
    (GetMaybeIntersectionWithPolygon_normal ⟨⟨0.2, 0.2, 5⟩, ⟨0, 0, -1⟩⟩ blendSampleObject _
      triangleSample_hit).elim fun p hp => ⟨p, hp.1, hp.2.2.2.2.1 (by
        refine ⟨?_, ?_, ?_⟩ <;> intro h
        · have h2 := congrArg Vector.X h
          norm_num [blendSampleObject, Vector.zero_X] at h2
        · have h2 := congrArg Vector.Y h
          norm_num [blendSampleObject, Vector.zero_Y] at h2
        · have h2 := congrArg Vector.Z h
          norm_num [blendSampleObject, Vector.zero_Z] at h2)⟩⟩

/-- The cross product is orthogonal to its factors, and Lagrange's identity gives its
squared length. -/
theorem CrossProduct_props (a b : Vector ℝ) :
    DotProduct a (CrossProduct a b) = 0 ∧ DotProduct b (CrossProduct a b) = 0
    ∧ DotProduct (CrossProduct a b) (CrossProduct a b)
        = DotProduct a a * DotProduct b b - DotProduct a b * DotProduct a b := by
  simp only [DotProduct_def, CrossProduct]
  refine ⟨?_, ?_, ?_⟩ <;> ring

/-- The vector `right` of the camera is a unit vector orthogonal to a unit `forward`; it is
`(1,0,0)` when `forward` is parallel to the axis `(0,1,0)`. -/
theorem CameraRight_spec (camera_options : CameraOptions ℝ)
    (hf : Length (CameraForward camera_options) = 1) :
    Length (CameraRight camera_options) = 1
    ∧ DotProduct (CameraForward camera_options) (CameraRight camera_options) = 0
    ∧ (CrossProduct ⟨0, 1, 0⟩ (CameraForward camera_options) = 0 →
        CameraRight camera_options = ⟨1, 0, 0⟩) := by
  have hdx : Length (⟨1, 0, 0⟩ : Vector ℝ) = 1 := by norm_num [Length, sqrt_real]
  have hff := DotProduct_unit _ hf
  unfold CameraRight
  simp only
  by_cases hz : CrossProduct ⟨0, 1, 0⟩ (CameraForward camera_options) = 0
  · rw [if_pos ((Vector.IsZero_iff _).mpr hz), Vector.Normalize_of_Length_eq_one _ hdx]
    refine ⟨hdx, ?_, fun _ => rfl⟩
    rw [Vector.eq_zero_iff] at hz
    simp only [CrossProduct] at hz
    rw [DotProduct_def]
    simp only [mul_zero, mul_one, add_zero]
    linarith [hz.2.2]
  · have hnz : ¬ (CrossProduct ⟨0, 1, 0⟩ (CameraForward camera_options)).IsZero = true := by
      rw [Vector.IsZero_iff]
      exact hz
    rw [if_neg hnz]
    refine ⟨Length_Normalize _ hz, ?_, fun h => absurd h hz⟩
    rw [Vector.Normalize_of_ne_zero _ hz]
    simp only [DotProduct_def, CrossProduct, Vector.div_def]
    ring

/-- The vector `up` of the camera is a unit vector orthogonal to `forward` and to `right`,
when these two are orthogonal unit vectors. -/
theorem CameraUp_spec (camera_options : CameraOptions ℝ)
    (hf : Length (CameraForward camera_options) = 1)
    (hr : Length (CameraRight camera_options) = 1)
    (hfr : DotProduct (CameraForward camera_options) (CameraRight camera_options) = 0) :
    CameraUp camera_options
        = CrossProduct (CameraForward camera_options) (CameraRight camera_options)
    ∧ Length (CameraUp camera_options) = 1
    ∧ DotProduct (CameraForward camera_options) (CameraUp camera_options) = 0
    ∧ DotProduct (CameraRight camera_options) (CameraUp camera_options) = 0 := by
  obtain ⟨h1, h2, h3⟩ :=
    CrossProduct_props (CameraForward camera_options) (CameraRight camera_options)
  have hlen : Length (CrossProduct (CameraForward camera_options)
      (CameraRight camera_options)) = 1 := by
    rw [Length_eq_iff _ zero_le_one, h3, DotProduct_unit _ hf, DotProduct_unit _ hr, hfr]
    norm_num
  have hne : CrossProduct (CameraForward camera_options) (CameraRight camera_options) ≠ 0 := by
    intro h
    rw [← Length_eq_zero_iff, hlen] at h
    exact one_ne_zero h
  have hup : CameraUp camera_options
      = CrossProduct (CameraForward camera_options) (CameraRight camera_options) := by
    unfold CameraUp
    simp only
    rw [if_neg (by rw [Vector.IsZero_iff]; exact hne), Vector.Normalize_of_Length_eq_one _ hlen]
  rw [hup]
  exact ⟨rfl, hlen, h1, h2⟩

/-- C25: for every camera configuration with `look_from ≠ look_to`, the camera ray of
every pixel `(i, j)` runs from `look_from` along the normalization of
`right * x + up * y - forward`, with `x` and `y` the offsets of the pixel, where
`forward = Normalize (look_from - look_to)`, `right` and `up` are the three vectors the
generator builds; these three vectors are each of unit length and pairwise orthogonal;
when `forward` is parallel to the axis `(0,1,0)`, so that the cross product of `(0,1,0)`
and `forward` is zero, `right` falls back to `(1,0,0)`, and the basis is orthonormal in
that case too. -/
theorem Camera_basis_orthonormal (camera_options : CameraOptions ℝ)
    (h : camera_options.look_from ≠ camera_options.look_to) :
    (∀ i j : Nat, CameraRay camera_options i j
        = ⟨camera_options.look_from,
            Normalize (CameraRight camera_options
                  * ((2 * ((i : ℝ) + 1 / 2) / (camera_options.screen_width : ℝ) - 1)
                      * (((camera_options.screen_width : ℝ) * 1)
                          / (camera_options.screen_height : ℝ))
                      * Real.tan (camera_options.fov / 2))
                + CameraUp camera_options
                  * ((1 - 2 * ((j : ℝ) + 1 / 2) / (camera_options.screen_height : ℝ))
                      * Real.tan (camera_options.fov / 2))
                - CameraForward camera_options + camera_options.look_from
                - camera_options.look_from)⟩)
    ∧ CameraForward camera_options
        = Normalize (camera_options.look_from - camera_options.look_to)
    ∧ Length (CameraForward camera_options) = 1
    ∧ Length (CameraRight camera_options) = 1
    ∧ Length (CameraUp camera_options) = 1
    ∧ DotProduct (CameraForward camera_options) (CameraRight camera_options) = 0
    ∧ DotProduct (CameraForward camera_options) (CameraUp camera_options) = 0
    ∧ DotProduct (CameraRight camera_options) (CameraUp camera_options) = 0
    ∧ (CrossProduct ⟨0, 1, 0⟩ (CameraForward camera_options) = 0 →
        CameraRight camera_options = ⟨1, 0, 0⟩) := by
  have hne : camera_options.look_from - camera_options.look_to ≠ 0 := by
    intro h0
    apply h
    rw [Vector.eq_zero_iff] at h0
    simp only [Vector.sub_def] at h0
    ext
    · linarith [h0.1]
    · linarith [h0.2.1]
    · linarith [h0.2.2]
  have hf : Length (CameraForward camera_options) = 1 := Length_Normalize _ hne
  obtain ⟨hr, hfr, hdeg⟩ := CameraRight_spec camera_options hf
  obtain ⟨-, hu, hfu, hru⟩ := CameraUp_spec camera_options hf hr hfr
  exact ⟨fun i j => rfl, rfl, hf, hr, hu, hfr, hfu, hru, hdeg⟩

/-- The camera at `(0,1,0)` looking at the origin, one pixel wide and high with the field
of view `0`, has `forward = (0,1,0)`, parallel to the axis `(0,1,0)`: `right` falls back to
`(1,0,0)`, `up` is a unit vector orthogonal to `forward` and to `right`, and the camera ray
of the pixel `(0, 0)`, whose offsets are zero, runs along `-forward`. -/
theorem Camera_basis_orthonormal_witness :
    (⟨0, 1, 0⟩ : Vector ℝ) ≠ ⟨0, 0, 0⟩
    ∧ CameraForward (⟨1, 1, 0, ⟨0, 1, 0⟩, ⟨0, 0, 0⟩⟩ : CameraOptions ℝ) = ⟨0, 1, 0⟩
    ∧ CameraRight (⟨1, 1, 0, ⟨0, 1, 0⟩, ⟨0, 0, 0⟩⟩ : CameraOptions ℝ) = ⟨1, 0, 0⟩
    ∧ Length (CameraUp (⟨1, 1, 0, ⟨0, 1, 0⟩, ⟨0, 0, 0⟩⟩ : CameraOptions ℝ)) = 1
    ∧ DotProduct (CameraForward (⟨1, 1, 0, ⟨0, 1, 0⟩, ⟨0, 0, 0⟩⟩ : CameraOptions ℝ))
        (CameraUp (⟨1, 1, 0, ⟨0, 1, 0⟩, ⟨0, 0, 0⟩⟩ : CameraOptions ℝ)) = 0
    ∧ DotProduct (CameraRight (⟨1, 1, 0, ⟨0, 1, 0⟩, ⟨0, 0, 0⟩⟩ : CameraOptions ℝ))
        (CameraUp (⟨1, 1, 0, ⟨0, 1, 0⟩, ⟨0, 0, 0⟩⟩ : CameraOptions ℝ)) = 0
    ∧ CameraRay (⟨1, 1, 0, ⟨0, 1, 0⟩, ⟨0, 0, 0⟩⟩ : CameraOptions ℝ) 0 0
        = ⟨⟨0, 1, 0⟩, ⟨0, -1, 0⟩⟩ :=
  have hne : (⟨0, 1, 0⟩ : Vector ℝ) ≠ ⟨0, 0, 0⟩ := by
    intro h
    have h2 := congrArg Vector.Y h
    norm_num at h2
  have hfwd : CameraForward (⟨1, 1, 0, ⟨0, 1, 0⟩, ⟨0, 0, 0⟩⟩ : CameraOptions ℝ) = ⟨0, 1, 0⟩ := by
    norm_num [CameraForward, Normalize, Vector.Normalize, Length, sqrt_real]
  have h := Camera_basis_orthonormal (⟨1, 1, 0, ⟨0, 1, 0⟩, ⟨0, 0, 0⟩⟩ : CameraOptions ℝ) hne
  ⟨hne, hfwd, h.2.2.2.2.2.2.2.2 (by rw [hfwd]; norm_num [CrossProduct]; rfl),
    h.2.2.2.2.1, h.2.2.2.2.2.2.1, h.2.2.2.2.2.2.2.1, by
      rw [h.1 0 0, hfwd]
      norm_num [Normalize, Vector.Normalize, Length, sqrt_real]⟩

/-- The tracer returns at depth `3` on the sample lit scene with four nested calls allowed. -/
theorem TraceRay_terminates_witness :
    (0 : Int) ≤ 3
    ∧ ∃ v : Vector ℝ,
        TraceRay 4 (⟨⟨1 / 5, 1 / 5, 5⟩, ⟨0, 0, -1⟩⟩ : Ray ℝ) litSampleScene 3 = some v :=
  ⟨by decide,
    (TraceRay_terminates ⟨⟨1 / 5, 1 / 5, 5⟩, ⟨0, 0, -1⟩⟩ litSampleScene 3 (by decide)).1 4
      (by decide)⟩

/-- The scene query of the ray from `(0,0,-5)` along `(0,0,1)` in the scene of the one
sphere of radius `10` at the origin: the hit of the sphere from inside. -/
theorem insideSample_hit :
    GetClosestIntersectionPoint (⟨⟨0, 0, -5⟩, ⟨0, 0, 1⟩⟩ : Ray ℝ)
        ⟨[], [⟨defaultMaterial, ⟨⟨0, 0, 0⟩, 10⟩⟩], [], []⟩
      = some ⟨⟨⟨0, 0, 10⟩, ⟨0, 0, -1⟩, 15⟩, defaultMaterial⟩ := by
  have hhit : GetIntersectionSphere (⟨⟨0, 0, -5⟩, ⟨0, 0, 1⟩⟩ : Ray ℝ) ⟨⟨0, 0, 0⟩, 10⟩
      = some ⟨⟨0, 0, 10⟩, ⟨0, 0, -1⟩, 15⟩ := by
    norm_num [GetIntersectionSphere, Intersection.construct, Normalize, Vector.Normalize,
      Sphere.Contains, Length, DotProduct, sqrt_real, sqrt_hundred, sqrt_twentyfive,
      sqrt_twotwentyfive]
  unfold GetClosestIntersectionPoint
  rw [GetAllRayIntersections_eq]
  simp only [List.filterMap_cons, List.filterMap_nil, List.nil_append, hhit, Option.map_some']
  rfl

/-- The split at depth `1` for the ray from `(0,0,-5)` along `(0,0,1)`, whose origin lies
inside the sphere of radius `10` at the origin: the hit is the sphere from inside, and a
refracted ray, refracted with the ratio `refraction_index` of the material, is added with
the weight `1`, without any reflected ray. -/
theorem TraceRay_split_witness :
    (1 : Int) ≤ 1
    ∧ GetClosestIntersectionPoint (⟨⟨0, 0, -5⟩, ⟨0, 0, 1⟩⟩ : Ray ℝ)
          ⟨[], [⟨defaultMaterial, ⟨⟨0, 0, 0⟩, 10⟩⟩], [], []⟩
        = some ⟨⟨⟨0, 0, 10⟩, ⟨0, 0, -1⟩, 15⟩, defaultMaterial⟩
    ∧ (∃ object ∈ (⟨[], [⟨defaultMaterial, ⟨⟨0, 0, 0⟩, 10⟩⟩], [], []⟩ : Scene ℝ).sphere_objects_,
        Length (object.sphere.center_ - (⟨0, 0, -5⟩ : Vector ℝ)) < object.sphere.radius_)
    ∧ ∀ r : Vector ℝ,
        Refract (⟨0, 0, 1⟩ : Vector ℝ) ⟨0, 0, -1⟩ (defaultMaterial : Material ℝ).refraction_index
          = some r →
        ∃ refr : Vector ℝ,
          TraceRay 1
            ⟨(⟨0, 0, 10⟩ : Vector ℝ)
                + ((Sign (DotProduct (Normalize r) (⟨0, 0, -1⟩ : Vector ℝ)) : Int) : ℝ)
                  * (⟨0, 0, -1⟩ : Vector ℝ) * (kEps : ℝ),
              Normalize r⟩
            ⟨[], [⟨defaultMaterial, ⟨⟨0, 0, 0⟩, 10⟩⟩], [], []⟩ (1 - 1) = some refr
          ∧ TraceRay 2 (⟨⟨0, 0, -5⟩, ⟨0, 0, 1⟩⟩ : Ray ℝ)
                ⟨[], [⟨defaultMaterial, ⟨⟨0, 0, 0⟩, 10⟩⟩], [], []⟩ 1
              = some ((⟨0, 0, 0⟩ : Vector ℝ) * (defaultMaterial : Material ℝ).albedo.X
                  + ((defaultMaterial : Material ℝ).ambient_color
                    + (defaultMaterial : Material ℝ).intensity)
                  + refr * (1 : ℝ)) :=
  have hex : ∃ object ∈
      (⟨[], [⟨defaultMaterial, ⟨⟨0, 0, 0⟩, 10⟩⟩], [], []⟩ : Scene ℝ).sphere_objects_,
      Length (object.sphere.center_ - (⟨0, 0, -5⟩ : Vector ℝ)) < object.sphere.radius_ :=
    ⟨_, List.mem_singleton_self _, by norm_num [Length, sqrt_real, sqrt_twentyfive]⟩
  ⟨le_refl _, insideSample_hit, hex,
    ((TraceRay_split 1 ⟨⟨0, 0, -5⟩, ⟨0, 0, 1⟩⟩ ⟨[], [⟨defaultMaterial, ⟨⟨0, 0, 0⟩, 10⟩⟩], [], []⟩ 1
      (le_refl _) (by decide) _ insideSample_hit).1 hex).2⟩

/-- The power of the reals is `Real.rpow`. -/
theorem pow_real (x y : ℝ) : HasPow.pow x y = x ^ y := rfl

/-- The component form of the colour product. -/
theorem Vector.colour_mul_def (a b : Vector ℝ) :
    a * b = ⟨a.X * b.X, a.Y * b.Y, a.Z * b.Z⟩ := rfl

/-- The sample ray from `(1/5, 1/5, 5)` hits the triangle of the sample lit scene. -/
theorem litSample_hit :
    GetClosestIntersectionPoint (⟨⟨1 / 5, 1 / 5, 5⟩, ⟨0, 0, -1⟩⟩ : Ray ℝ) litSampleScene
      = some ⟨⟨⟨1 / 5, 1 / 5, 0⟩, ⟨0, 0, 1⟩, 5⟩, litSampleMaterial⟩ := by
  have hhit : GetIntersectionTriangle (⟨⟨1 / 5, 1 / 5, 5⟩, ⟨0, 0, -1⟩⟩ : Ray ℝ)
      ⟨⟨0, 0, 0⟩, ⟨1, 0, 0⟩, ⟨0, 1, 0⟩⟩ = some ⟨⟨1 / 5, 1 / 5, 0⟩, ⟨0, 0, 1⟩, 5⟩ := by
    norm_num [GetIntersectionTriangle, Intersection.construct, Normalize, Vector.Normalize,
      Length, DotProduct, CrossProduct, sqrt_real, kEpsilon, sqrt_twentyfive]
  unfold GetClosestIntersectionPoint
  rw [GetAllRayIntersections_eq]
  simp only [litSampleScene, List.filterMap_cons, List.filterMap_nil, List.append_nil]
  rw [GetMaybeIntersectionWithPolygon_flat _ _ (Or.inl rfl)]
  simp only [hhit, Option.map_some']
  rfl

/-- The light of the sample lit scene is not shadowed at the hit `(1/5, 1/5, 0)`: the ray
from the light meets the triangle at the distance `3`, the distance of the hit itself. -/
theorem litSample_unshadowed :
    TraceRayHasShadow (litSampleScene : Scene ℝ)
      ⟨⟨1 / 5, 1 / 5, 3⟩, Normalize ((⟨1 / 5, 1 / 5, 0⟩ : Vector ℝ) - ⟨1 / 5, 1 / 5, 3⟩)⟩
      (Length ((⟨1 / 5, 1 / 5, 0⟩ : Vector ℝ) - ⟨1 / 5, 1 / 5, 3⟩)) = false := by
  have hdir : Normalize ((⟨1 / 5, 1 / 5, 0⟩ : Vector ℝ) - ⟨1 / 5, 1 / 5, 3⟩) = ⟨0, 0, -1⟩ := by
    norm_num [Normalize, Vector.Normalize, Length, sqrt_real, sqrt_nine]
  have hlen : Length ((⟨1 / 5, 1 / 5, 0⟩ : Vector ℝ) - ⟨1 / 5, 1 / 5, 3⟩) = 3 := by
    norm_num [Length, sqrt_real, sqrt_nine]
  have hhit : GetIntersectionTriangle (⟨⟨1 / 5, 1 / 5, 3⟩, ⟨0, 0, -1⟩⟩ : Ray ℝ)
      ⟨⟨0, 0, 0⟩, ⟨1, 0, 0⟩, ⟨0, 1, 0⟩⟩ = some ⟨⟨1 / 5, 1 / 5, 0⟩, ⟨0, 0, 1⟩, 3⟩ := by
    norm_num [GetIntersectionTriangle, Intersection.construct, Normalize, Vector.Normalize,
      Length, DotProduct, CrossProduct, sqrt_real, kEpsilon, sqrt_nine]
  rw [hdir, hlen, Bool.eq_false_iff, Ne, TraceRayHasShadow_iff]
  rintro (⟨object, hmem, i, hi, hlt⟩ | ⟨object, hmem, -⟩)
  · simp only [litSampleScene, List.mem_singleton] at hmem
    rw [hmem] at hi
    simp only [hhit, Option.some.injEq] at hi
    rw [← hi] at hlt
    norm_num at hlt
  · simp only [litSampleScene, List.not_mem_nil] at hmem

/-- The sample lit scene at depth `1`: the ray from `(1/5, 1/5, 5)` along `(0, 0, -1)` hits
the triangle at `(1/5, 1/5, 0)`, the one light is not shadowed, and the radiance is
`albedo[0] * ((0,1,0) + (0,0,1)) + (1,0,0) = (1,1,1)`: the diffuse and the specular term of
the light and the ambient colour. -/
theorem TraceRay_local_illumination_witness :
    GetClosestIntersectionPoint (⟨⟨1 / 5, 1 / 5, 5⟩, ⟨0, 0, -1⟩⟩ : Ray ℝ) litSampleScene
      = some ⟨⟨⟨1 / 5, 1 / 5, 0⟩, ⟨0, 0, 1⟩, 5⟩, litSampleMaterial⟩
    ∧ TraceRay 2 (⟨⟨1 / 5, 1 / 5, 5⟩, ⟨0, 0, -1⟩⟩ : Ray ℝ) litSampleScene 1
      = some ⟨1, 1, 1⟩ := by
  refine ⟨litSample_hit, ?_⟩
  obtain ⟨-, -, S, hx, hy, hz, hT⟩ :=
    TraceRay_local_illumination 0 ⟨⟨1 / 5, 1 / 5, 5⟩, ⟨0, 0, -1⟩⟩ litSampleScene _ litSample_hit
  have hl : (litSampleScene : Scene ℝ).lights_ = [⟨⟨1 / 5, 1 / 5, 3⟩, ⟨1, 1, 1⟩⟩] := rfl
  rw [hl, List.filter_cons_of_pos (by simp only [litSample_unshadowed, Bool.not_false])]
    at hx hy hz
  simp only [List.filter_nil, List.map_cons, List.map_nil, List.sum_cons, List.sum_nil,
    add_zero] at hx hy hz
  have hS : S = ⟨0, 1, 1⟩ := by
    ext
    · rw [hx]
      norm_num [SpecLightTerm, litSampleMaterial, Vector.colour_mul_def]
    · rw [hy]
      norm_num [SpecLightTerm, litSampleMaterial, Vector.colour_mul_def, Normalize,
        Vector.Normalize, Length, DotProduct, sqrt_real, sqrt_nine]
    · rw [hz]
      norm_num [SpecLightTerm, litSampleMaterial, Vector.colour_mul_def, Normalize,
        Vector.Normalize, Length, DotProduct, Reflect, sqrt_real, sqrt_nine, sqrt_twentyfive,
        pow_real]
  rw [hT, hS]
  congr 1
  ext <;> norm_num [litSampleMaterial]

/-! ## A hit at the distance that marks "no hit" in the depth mode -/

theorem sqrt_twofiftysix : √(256 : ℝ) = 16 := by
  rw [show (256 : ℝ) = 16 * 16 by norm_num]
  exact Real.sqrt_mul_self (by norm_num)

/-- The field of view `2 * arctan (9/8)` of the second sample camera gives the scale `9/8`. -/
theorem sentinelSample_tan : HasTan.tan (2 * Real.arctan (9 / 8) / 2) = (9 / 8 : ℝ) := by
  rw [mul_div_cancel_left₀ _ (two_ne_zero)]
  exact Real.tan_arctan _

/-- The camera ray of the pixel `(0, 0)` of the second sample camera. -/
theorem sentinelSample_ray_zero :
    CameraRay (sentinelSampleCamera (2 * Real.arctan (9 / 8))) 0 0
      = (⟨⟨0, 0, 0⟩, ⟨0, 3 / 5, -4 / 5⟩⟩ : Ray ℝ) := by
  simp only [CameraRay, CameraForward, CameraRight, CameraUp, sentinelSampleCamera,
    sentinelSample_tan]
  norm_num [Normalize, Vector.Normalize, Vector.IsZero, Vector.NotZero, CrossProduct, Length,
    sqrt_real, sqrt_twentyfive, sqrt_sixteen]

/-- The camera ray of the middle pixel `(0, 1)` of the second sample camera runs along
`(0, 0, -1)`, whatever the field of view. -/
theorem sentinelSample_ray_one (fov : ℝ) :
    CameraRay (sentinelSampleCamera fov) 0 1 = (⟨⟨0, 0, 0⟩, ⟨0, 0, -1⟩⟩ : Ray ℝ) := by
  simp only [CameraRay, CameraForward, CameraRight, CameraUp, sentinelSampleCamera]
  norm_num [Normalize, Vector.Normalize, Vector.IsZero, Vector.NotZero, CrossProduct, Length,
    sqrt_real]

/-- The camera ray of the pixel `(0, 2)` of the second sample camera. -/
theorem sentinelSample_ray_two :
    CameraRay (sentinelSampleCamera (2 * Real.arctan (9 / 8))) 0 2
      = (⟨⟨0, 0, 0⟩, ⟨0, -3 / 5, -4 / 5⟩⟩ : Ray ℝ) := by
  simp only [CameraRay, CameraForward, CameraRight, CameraUp, sentinelSampleCamera,
    sentinelSample_tan]
  norm_num [Normalize, Vector.Normalize, Vector.IsZero, Vector.NotZero, CrossProduct, Length,
    sqrt_real, sqrt_twentyfive, sqrt_sixteen]

/-- The scene query of the ray along `(0, 3/5, -4/5)` on the second sample scene: the far
triangle, at the distance `200000`. -/
theorem sentinelSample_hit_zero :
    GetClosestIntersectionPoint (⟨⟨0, 0, 0⟩, ⟨0, 3 / 5, -4 / 5⟩⟩ : Ray ℝ) sentinelSampleScene
      = some ⟨⟨⟨0, 120000, -160000⟩, ⟨0, 0, 1⟩, 200000⟩, defaultMaterial⟩ := by
  have h1 : GetIntersectionTriangle (⟨⟨0, 0, 0⟩, ⟨0, 3 / 5, -4 / 5⟩⟩ : Ray ℝ)
      ⟨⟨-1, -1, -100000⟩, ⟨3, -1, -100000⟩, ⟨-1, 3, -100000⟩⟩ = none := by
    norm_num [GetIntersectionTriangle, Intersection.construct, Normalize, Vector.Normalize,
      Length, DotProduct, CrossProduct, sqrt_real, kEpsilon, abs_lt]
  have h2 : GetIntersectionTriangle (⟨⟨0, 0, 0⟩, ⟨0, 3 / 5, -4 / 5⟩⟩ : Ray ℝ)
      ⟨⟨-1, 119999, -160000⟩, ⟨3, 119999, -160000⟩, ⟨-1, 120003, -160000⟩⟩
      = some ⟨⟨0, 120000, -160000⟩, ⟨0, 0, 1⟩, 200000⟩ := by
    norm_num [GetIntersectionTriangle, Intersection.construct, Normalize, Vector.Normalize,
      Length, DotProduct, CrossProduct, sqrt_real, kEpsilon, sqrt_four_ten_pow_ten,
      sqrt_twofiftysix, abs_lt]
  unfold GetClosestIntersectionPoint
  rw [GetAllRayIntersections_eq]
  simp only [sentinelSampleScene, List.filterMap_cons, List.filterMap_nil, List.append_nil]
  rw [GetMaybeIntersectionWithPolygon_flat _ _ (Or.inl rfl),
    GetMaybeIntersectionWithPolygon_flat _ _ (Or.inl rfl)]
  simp only [h1, h2, Option.map_some', Option.map_none']
  rfl

/-- The scene query of the ray along `(0, 0, -1)` on the second sample scene: the near
triangle, at the distance `100000`. -/
theorem sentinelSample_hit_one :
    GetClosestIntersectionPoint (⟨⟨0, 0, 0⟩, ⟨0, 0, -1⟩⟩ : Ray ℝ) sentinelSampleScene
      = some ⟨⟨⟨0, 0, -100000⟩, ⟨0, 0, 1⟩, 100000⟩, defaultMaterial⟩ := by
  have h1 : GetIntersectionTriangle (⟨⟨0, 0, 0⟩, ⟨0, 0, -1⟩⟩ : Ray ℝ)
      ⟨⟨-1, -1, -100000⟩, ⟨3, -1, -100000⟩, ⟨-1, 3, -100000⟩⟩
      = some ⟨⟨0, 0, -100000⟩, ⟨0, 0, 1⟩, 100000⟩ := by
    norm_num [GetIntersectionTriangle, Intersection.construct, Normalize, Vector.Normalize,
      Length, DotProduct, CrossProduct, sqrt_real, kEpsilon, sqrt_ten_pow_ten,
      sqrt_twofiftysix, abs_lt]
  have h2 : GetIntersectionTriangle (⟨⟨0, 0, 0⟩, ⟨0, 0, -1⟩⟩ : Ray ℝ)
      ⟨⟨-1, 119999, -160000⟩, ⟨3, 119999, -160000⟩, ⟨-1, 120003, -160000⟩⟩ = none := by
    norm_num [GetIntersectionTriangle, Intersection.construct, Normalize, Vector.Normalize,
      Length, DotProduct, CrossProduct, sqrt_real, kEpsilon, abs_lt]
  unfold GetClosestIntersectionPoint
  rw [GetAllRayIntersections_eq]
  simp only [sentinelSampleScene, List.filterMap_cons, List.filterMap_nil, List.append_nil]
  rw [GetMaybeIntersectionWithPolygon_flat _ _ (Or.inl rfl),
    GetMaybeIntersectionWithPolygon_flat _ _ (Or.inl rfl)]
  simp only [h1, h2, Option.map_some', Option.map_none']
  rfl

/-- The ray along `(0, -3/5, -4/5)` hits nothing in the second sample scene. -/
theorem sentinelSample_hit_two :
    GetClosestIntersectionPoint (⟨⟨0, 0, 0⟩, ⟨0, -3 / 5, -4 / 5⟩⟩ : Ray ℝ) sentinelSampleScene
      = none := by
  have h1 : GetIntersectionTriangle (⟨⟨0, 0, 0⟩, ⟨0, -3 / 5, -4 / 5⟩⟩ : Ray ℝ)
      ⟨⟨-1, -1, -100000⟩, ⟨3, -1, -100000⟩, ⟨-1, 3, -100000⟩⟩ = none := by
    norm_num [GetIntersectionTriangle, Intersection.construct, Normalize, Vector.Normalize,
      Length, DotProduct, CrossProduct, sqrt_real, kEpsilon, abs_lt]
  have h2 : GetIntersectionTriangle (⟨⟨0, 0, 0⟩, ⟨0, -3 / 5, -4 / 5⟩⟩ : Ray ℝ)
      ⟨⟨-1, 119999, -160000⟩, ⟨3, 119999, -160000⟩, ⟨-1, 120003, -160000⟩⟩ = none := by
    norm_num [GetIntersectionTriangle, Intersection.construct, Normalize, Vector.Normalize,
      Length, DotProduct, CrossProduct, sqrt_real, kEpsilon, abs_lt]
  unfold GetClosestIntersectionPoint
  rw [GetAllRayIntersections_eq]
  simp only [sentinelSampleScene, List.filterMap_cons, List.filterMap_nil, List.append_nil]
  rw [GetMaybeIntersectionWithPolygon_flat _ _ (Or.inl rfl),
    GetMaybeIntersectionWithPolygon_flat _ _ (Or.inl rfl)]
  simp only [h1, h2, Option.map_none']

/-- The greatest hit distance of the second sample depth render is `200000`. -/
theorem sentinelSample_max :
    (RenderDepthAccumulate (sentinelSampleScene : Scene ℝ)
      (sentinelSampleCamera (2 * Real.arctan (9 / 8)))).2 = 200000 := by
  obtain ⟨-, -, hbound, hatt⟩ := RenderDepthAccumulate_spec (sentinelSampleScene : Scene ℝ)
    (sentinelSampleCamera (2 * Real.arctan (9 / 8)))
  have h0 : GetClosestIntersectionPoint
      (CameraRay (sentinelSampleCamera (2 * Real.arctan (9 / 8))) 0 0)
      (sentinelSampleScene : Scene ℝ)
      = some ⟨⟨⟨0, 120000, -160000⟩, ⟨0, 0, 1⟩, 200000⟩, defaultMaterial⟩ := by
    rw [sentinelSample_ray_zero]
    exact sentinelSample_hit_zero
  have h1 : GetClosestIntersectionPoint
      (CameraRay (sentinelSampleCamera (2 * Real.arctan (9 / 8))) 0 1)
      (sentinelSampleScene : Scene ℝ)
      = some ⟨⟨⟨0, 0, -100000⟩, ⟨0, 0, 1⟩, 100000⟩, defaultMaterial⟩ := by
    rw [sentinelSample_ray_one]
    exact sentinelSample_hit_one
  have h2 : GetClosestIntersectionPoint
      (CameraRay (sentinelSampleCamera (2 * Real.arctan (9 / 8))) 0 2)
      (sentinelSampleScene : Scene ℝ) = none := by
    rw [sentinelSample_ray_two]
    exact sentinelSample_hit_two
  have hge := hbound 0 0 (by decide) (by decide) _ h0
  simp only at hge
  rcases hatt with hz | ⟨a, b, ha, hb, p, hp, hd⟩
  · rw [hz] at hge
    norm_num at hge
  · have ha0 : a = 0 := by
      have : a < 1 := ha
      omega
    have hb3 : b < 3 := hb
    subst ha0
    have hcases : b = 0 ∨ b = 1 ∨ b = 2 := by omega
    rcases hcases with rfl | rfl | rfl
    · rw [h0, Option.some.injEq] at hp
      rw [← hp] at hd
      exact hd.symm
    · rw [h1, Option.some.injEq] at hp
      rw [← hp] at hd
      simp only at hd
      rw [← hd] at hge
      norm_num at hge
    · rw [h2] at hp
      exact absurd hp (by simp)

/-- C14 fails in a depth-mode render with a hit at the distance `100000` exactly: in the
second sample scene seen through the second sample camera (one pixel wide, three high) the
camera ray of the middle pixel `(0, 1)` runs along `(0, 0, -1)` and hits the near triangle
at the distance `d = 100000`, the camera ray of the pixel `(0, 0)` hits the far triangle at
the distance `200000`, and the camera ray of the pixel `(0, 2)` hits nothing, so that the
maximum hit distance is `D = 200000`; yet the pixel `(0, 1)` of the depth render is white
`(1, 1, 1)`, the value of a pixel without a hit, and not `(d/D, d/D, d/D) = (1/2, 1/2, 1/2)`. -/
theorem RenderDepth_sentinel_hit :
    CameraRay (sentinelSampleCamera (2 * Real.arctan (9 / 8))) 0 1
      = (⟨⟨0, 0, 0⟩, ⟨0, 0, -1⟩⟩ : Ray ℝ)
    ∧ GetClosestIntersectionPoint
        (CameraRay (sentinelSampleCamera (2 * Real.arctan (9 / 8))) 0 1)
        (sentinelSampleScene : Scene ℝ)
      = some ⟨⟨⟨0, 0, -100000⟩, ⟨0, 0, 1⟩, 100000⟩, defaultMaterial⟩
    ∧ GetClosestIntersectionPoint
        (CameraRay (sentinelSampleCamera (2 * Real.arctan (9 / 8))) 0 0)
        (sentinelSampleScene : Scene ℝ)
      = some ⟨⟨⟨0, 120000, -160000⟩, ⟨0, 0, 1⟩, 200000⟩, defaultMaterial⟩
    ∧ GetClosestIntersectionPoint
        (CameraRay (sentinelSampleCamera (2 * Real.arctan (9 / 8))) 0 2)
        (sentinelSampleScene : Scene ℝ)
      = none
    ∧ (RenderDepthAccumulate (sentinelSampleScene : Scene ℝ)
        (sentinelSampleCamera (2 * Real.arctan (9 / 8)))).2 = 200000
    ∧ RenderDepth (sentinelSampleScene : Scene ℝ)
        (sentinelSampleCamera (2 * Real.arctan (9 / 8))) 0 1 = ⟨1, 1, 1⟩
    ∧ RenderDepth (sentinelSampleScene : Scene ℝ)
        (sentinelSampleCamera (2 * Real.arctan (9 / 8))) 0 1
      ≠ ⟨100000 / 200000, 100000 / 200000, 100000 / 200000⟩ := by
  have h0 : GetClosestIntersectionPoint
      (CameraRay (sentinelSampleCamera (2 * Real.arctan (9 / 8))) 0 0)
      (sentinelSampleScene : Scene ℝ)
      = some ⟨⟨⟨0, 120000, -160000⟩, ⟨0, 0, 1⟩, 200000⟩, defaultMaterial⟩ := by
    rw [sentinelSample_ray_zero]
    exact sentinelSample_hit_zero
  have h1 : GetClosestIntersectionPoint
      (CameraRay (sentinelSampleCamera (2 * Real.arctan (9 / 8))) 0 1)
      (sentinelSampleScene : Scene ℝ)
      = some ⟨⟨⟨0, 0, -100000⟩, ⟨0, 0, 1⟩, 100000⟩, defaultMaterial⟩ := by
    rw [sentinelSample_ray_one]
    exact sentinelSample_hit_one
  have h2 : GetClosestIntersectionPoint
      (CameraRay (sentinelSampleCamera (2 * Real.arctan (9 / 8))) 0 2)
      (sentinelSampleScene : Scene ℝ) = none := by
    rw [sentinelSample_ray_two]
    exact sentinelSample_hit_two
  have hpix : RenderDepth (sentinelSampleScene : Scene ℝ)
      (sentinelSampleCamera (2 * Real.arctan (9 / 8))) 0 1 = ⟨1, 1, 1⟩ :=
    (RenderDepth_cases sentinelSampleScene (sentinelSampleCamera (2 * Real.arctan (9 / 8))) 0 1
      (by decide) (by decide)).2.1 _ h1 rfl
  refine ⟨sentinelSample_ray_one _, h1, h0, h2, sentinelSample_max, hpix, ?_⟩
  rw [hpix]
  intro h
  rw [Vector.mk.injEq] at h
  norm_num at h

end RTracer
